import Mathlib

/-!
# i3 command interpreter and i3bar status line: a shallow embedding

Source files embedded here:

* `src/commands.c`  (the command functions of the window manager),
* `i3bar/src/xcb.c` (the status line layout of the bar).

Conventions of the embedding.

* A `Con *` is a natural number: the position of the container in the global
  list `all_cons`.  Every container lives in `all_cons` (that is where `con_new`
  puts it), so the list doubles as the heap.  `NULL` is `none`.
* `double` percentages are rationals: the additions and subtractions on them are
  exact.  The parameters of `definitelyGreaterThan` have the type `float`: the
  conversion of its arguments and its subtraction round to IEEE 754 binary32
  (nearest value, ties to even, overflow to an infinity), see `double_to_float`.
  `DBL_EPSILON` is the rational `2^-52`.
* `uint32_t` values are naturals reduced modulo `2^32` after every operation.
* The JSON generator is a list of reply objects, appended to by `ysuccess` and
  `yerror` when a generator is present.
* Functions of the repository that live outside the two files (tree surgery such
  as `workspace_show` or `con_move_to_workspace`, queries such as
  `con_get_workspace`) are collected in the record `Env`: queries are fields of
  the record, and every call of a mutating function is appended to the log
  `State.calls` in program order.
-/

namespace I3

/-! ## Data model (the parts of `data.h` that `commands.c` reads and writes) -/

inductive con_type_t
  | CT_ROOT | CT_OUTPUT | CT_CON | CT_FLOATING_CON | CT_WORKSPACE | CT_DOCKAREA
  deriving DecidableEq, Repr

inductive layout_t
  | L_DEFAULT | L_STACKED | L_TABBED | L_DOCKAREA | L_OUTPUT | L_SPLITV | L_SPLITH
  deriving DecidableEq, Repr

inductive orientation_t
  | NO_ORIENTATION | HORIZ | VERT
  deriving DecidableEq, Repr

inductive direction_t
  | D_LEFT | D_RIGHT | D_UP | D_DOWN
  deriving DecidableEq, Repr

inductive fullscreen_mode_t
  | CF_NONE | CF_OUTPUT | CF_GLOBAL
  deriving DecidableEq, Repr

inductive scratchpad_state_t
  | SCRATCHPAD_NONE | SCRATCHPAD_FRESH | SCRATCHPAD_CHANGED
  deriving DecidableEq, Repr

/-- The rectangle of a container; all four members are `uint32_t`. -/
structure Rect where
  x : Nat := 0
  y : Nat := 0
  width : Nat := 0
  height : Nat := 0
  deriving DecidableEq, Repr

/-- The members of `struct Window` used by the commands. -/
structure Window where
  dock : Bool := false
  title_format : Option String := none
  name_x_changed : Bool := false
  class_class : Option String := none
  deriving DecidableEq, Repr

/-- The type `gaps_t`: the inner and the outer gap, both `int`. -/
structure gaps_t where
  inner : Int := 0
  outer : Int := 0
  deriving DecidableEq, Repr

/-- The members of `struct Con` used by the commands. -/
structure Con where
  type : con_type_t := con_type_t.CT_CON
  layout : layout_t := layout_t.L_SPLITH
  parent : Option Nat := none
  nodes_head : List Nat := []
  percent : ℚ := 0
  mark : Option String := none
  mark_changed : Bool := false
  name : String := ""
  num : Int := -1
  window : Option Window := none
  rect : Rect := {}
  width_increment : Int := 0
  height_increment : Int := 0
  scratchpad_state : scratchpad_state_t := scratchpad_state_t.SCRATCHPAD_NONE
  border_style : Int := 0
  gaps : gaps_t := {}
  deriving DecidableEq

instance : Inhabited Con := ⟨{}⟩

/-- The criteria record filled by `cmd_criteria_add`. -/
structure Match where
  class_ : Option String := none
  instance_ : Option String := none
  window_role : Option String := none
  con_id : Option Nat := none
  id : Option Nat := none
  window_type : Option String := none
  mark : Option String := none
  title : Option String := none
  urgent : Option String := none
  workspace : Option String := none
  deriving DecidableEq, Repr

/-- One entry of `ws_assignments`. -/
structure Workspace_Assignment where
  name : String
  output : Option String
  deriving DecidableEq, Repr

/-- One object written to the JSON generator: `ysuccess` writes
`success b`, `yerror` writes `error message` (whose `success` member is false). -/
inductive Reply
  | success (b : Bool)
  | error (message : String)
  deriving DecidableEq, Repr

/-- The value of the `success` member of a reply object. -/
def Reply.ok : Reply → Bool
  | Reply.success b => b
  | Reply.error _ => false

/-- The `struct CommandResultIR` handed to every command, with the objects
generated so far. -/
structure CommandResultIR where
  json_gen : Bool := true
  json : List Reply := []
  needs_tree_render : Bool := false
  deriving DecidableEq, Repr

/-- Calls of functions that are defined outside `commands.c` and change the tree. -/
inductive Call
  | workspace_show (ws : Nat)
  | workspace_show_by_name (name : String)
  | workspace_back_and_forth
  | workspace_get (name : String)
  | con_move_to_workspace (con ws : Nat) (fix_coordinates dont_warp : Bool)
  | con_detach (con : Nat)
  | con_attach (con : Nat) (parent : Option Nat) (ignore_focus : Bool)
  | workspace_move_to_output (ws : Nat) (output : String)
  | con_focus (con : Nat)
  | ipc_send_workspace_event (change : String) (ws : Nat)
  | ewmh_update_desktop_names
  | ewmh_update_desktop_viewport
  | ewmh_update_current_desktop
  | startup_sequence_rename_workspace (old_name : Option String) (new_name : String)
  | tree_move (con : Nat) (direction : direction_t)
  | floating_reposition (con : Nat) (newrect : Rect)
  | tree_next (way : Char) (orientation : orientation_t)
  | toggle_floating_mode (con : Nat) (automatic : Bool)
  | floating_enable (con : Nat) (automatic : Bool)
  | floating_disable (con : Nat) (automatic : Bool)
  | con_toggle_fullscreen (con : Nat) (fullscreen_mode : fullscreen_mode_t)
  | con_enable_fullscreen (con : Nat) (fullscreen_mode : fullscreen_mode_t)
  | con_disable_fullscreen (con : Nat)
  | con_set_border_style (con : Nat) (border_style border_width : Int)
  | scratchpad_move (con : Nat)
  deriving DecidableEq, Repr

/-- The globals read and written by the commands, together with the two
arguments of `I3_CMD` (`current_match`, `cmd_output`). -/
structure State where
  all_cons : List Con := []
  croot : Nat := 0
  focused : Nat := 0
  owindows : List Nat := []
  current_match : Match := {}
  workspace_auto_back_and_forth : Bool := false
  ws_assignments : List Workspace_Assignment := []
  cmd_output : CommandResultIR := {}
  calls : List Call := []
  config_gaps : gaps_t := {}
  deriving DecidableEq

/-- Queries answered by code outside `commands.c`, and the values of the
`border_style_t` enumerators, which are declared in `data.h`.  `focused_after s` is
the value of the global `focused` once the calls logged in `s` have run. -/
structure Env where
  match_is_empty : Match → Bool
  con_has_children : Con → Bool
  con_orientation : Con → orientation_t
  con_get_fullscreen_con : State → Nat → fullscreen_mode_t → Option Nat
  con_get_workspace : State → Nat → Nat
  con_inside_floating : State → Nat → Option Nat
  con_descend_focused : State → Nat → Nat
  floating_check_size : List Con → Nat → List Con
  resize_find_tiling_participants : State → Nat → direction_t → Option (Nat × Nat)
  output_get_content : State → Nat → Nat
  workspace_next : State → Nat
  workspace_prev : State → Nat
  workspace_next_on_output : State → Nat
  workspace_prev_on_output : State → Nat
  workspace_get : State → String → Nat
  workspace_back_and_forth_get : State → Option Nat
  ws_name_to_number : String → Int
  name_is_digits : String → Bool
  con_is_floating : State → Nat → Bool
  focused_after : State → Nat
  regex_matches : String → String → Bool
  match_matches_window : Match → Window → Bool
  BS_NORMAL : Int
  BS_NONE : Int
  BS_PIXEL : Int

/-- Read through a `Con *`; a pointer outside `all_cons` reads the zeroed container. -/
def getCon (cons : List Con) (p : Nat) : Con := cons.getD p default

/-- Write through a `Con *`: apply `f` to the container at `p`. -/
def modifyCon (cons : List Con) (p : Nat) (f : Con → Con) : List Con := cons.modify f p

/-- The macro `ysuccess(success)`. -/
def ysuccess (o : CommandResultIR) (success : Bool) : CommandResultIR :=
  if o.json_gen then { o with json := o.json ++ [Reply.success success] } else o

/-- The macro `yerror(format, ...)`, applied to the formatted message. -/
def yerror (o : CommandResultIR) (message : String) : CommandResultIR :=
  if o.json_gen then { o with json := o.json ++ [Reply.error message] } else o

/-- Run `ysuccess` on the command output of a state. -/
def State.ysuccess (s : State) (success : Bool) : State :=
  { s with cmd_output := I3.ysuccess s.cmd_output success }

/-- Run `yerror` on the command output of a state. -/
def State.yerror (s : State) (message : String) : State :=
  { s with cmd_output := I3.yerror s.cmd_output message }

/-- The assignment `cmd_output->needs_tree_render = true`. -/
def State.set_needs_tree_render (s : State) : State :=
  { s with cmd_output := { s.cmd_output with needs_tree_render := true } }

/-- Append a call of an outside function to the log. -/
def State.call (s : State) (c : Call) : State :=
  { s with calls := s.calls ++ [c] }

/-- The macro `HANDLE_EMPTY_MATCH`: without criteria the working set is the
focused container. -/
def HANDLE_EMPTY_MATCH (env : Env) (s : State) : State :=
  if env.match_is_empty s.current_match then { s with owindows := [s.focused] } else s

/-! ## `cmd_mark` -/

/-- The body of the `TAILQ_FOREACH` over `all_cons` in `cmd_mark`: skip the
matched container, clear the mark of every other holder. -/
def cmd_mark_clear (current : Nat) (mark : String) (i : Nat) (con : Con) : Con :=
  if current = i then con
  else if con.mark = some mark then { con with mark := none, mark_changed := true }
  else con

/-- The update of the matched container in `cmd_mark`, after `mark_changed` was set. -/
def cmd_mark_target (mark : String) (toggle : Option String) (c : Con) : Con :=
  if toggle.isSome ∧ c.mark = some mark then { c with mark := none }
  else { c with mark := some mark }

/-- Implementation of `mark [--toggle] <mark>`. -/
def cmd_mark (env : Env) (s0 : State) (mark : String) (toggle : Option String) : State :=
  let s := HANDLE_EMPTY_MATCH env s0
  match s.owindows with
  | [] => s.ysuccess false
  | current :: rest =>
    if rest ≠ [] then
      s.yerror "A mark must not be put onto more than one window"
    else
      let cons1 := modifyCon s.all_cons current (fun c => { c with mark_changed := true })
      let cons2 := modifyCon cons1 current (cmd_mark_target mark toggle)
      let cons3 := cons2.mapIdx (cmd_mark_clear current mark)
      ({ s with all_cons := cons3 }.set_needs_tree_render).ysuccess true

/-- No two containers of the list hold the same mark. -/
def marks_unique (cons : List Con) : Prop :=
  ∀ (i j : Nat) (ci cj : Con) (x : String), i ≠ j → cons[i]? = some ci →
    cons[j]? = some cj → ci.mark = some x → cj.mark ≠ some x

/-! ## `resize` -/

/-- The constant `DBL_EPSILON` of `<float.h>`. -/
def DBL_EPSILON : ℚ := 1 / 2 ^ 52

/-- A value of the C types `float` and `double`: a rational number, an infinity or
not-a-number. -/
inductive fp_value
  | finite (q : ℚ)
  | infinite (negative : Bool)
  | nan
  deriving DecidableEq

/-- Rounding of a rational to the nearest integer, a tie going to the even one. -/
def round_half_even (q : ℚ) : Int :=
  if q - ⌊q⌋ < 1 / 2 then ⌊q⌋
  else if 1 / 2 < q - ⌊q⌋ then ⌊q⌋ + 1
  else if ⌊q⌋ % 2 = 0 then ⌊q⌋ else ⌊q⌋ + 1

/-- The binary exponent of the `float` nearest to x: the e with 2^e ≤ |x| < 2^(e+1),
and -126 for the subnormal range. -/
def float_exponent (x : ℚ) : Int := max (Int.log 2 |x|) (-126)

/-- The multiple of 2^(e-23) nearest to x, e the exponent of x: the value of x in
binary32 (24 significant bits) before the test for overflow. -/
def float_round (x : ℚ) : ℚ :=
  (round_half_even (x / 2 ^ (float_exponent x - 23)) : ℚ) * 2 ^ (float_exponent x - 23)

/-- The conversion of a finite `double` to `float` that C performs when a `double`
is passed for a `float` parameter: round to nearest, ties to even; a result of
magnitude 2^128 or more is the infinity of the sign of x. -/
def double_to_float (x : ℚ) : fp_value :=
  if 2 ^ 128 ≤ |float_round x| then fp_value.infinite (decide (x < 0))
  else fp_value.finite (float_round x)

/-- The exact difference of two floating point values (infinity minus the same
infinity is not a number). -/
def fp_value.sub : fp_value → fp_value → fp_value
  | fp_value.nan, _ => fp_value.nan
  | _, fp_value.nan => fp_value.nan
  | fp_value.finite p, fp_value.finite q => fp_value.finite (p - q)
  | fp_value.finite _, fp_value.infinite n => fp_value.infinite (!n)
  | fp_value.infinite n, fp_value.finite _ => fp_value.infinite n
  | fp_value.infinite n, fp_value.infinite m =>
    if n = m then fp_value.nan else fp_value.infinite n

/-- The function `fabs` of `<math.h>`. -/
def fp_value.fabs : fp_value → fp_value
  | fp_value.finite p => fp_value.finite |p|
  | fp_value.infinite _ => fp_value.infinite false
  | fp_value.nan => fp_value.nan

/-- The product of two floating point values in `double`.  The factors in
`definitelyGreaterThan` are `float` values, so that a finite product has at most 48
significant bits and is exact in `double`; infinity times zero is not a number. -/
def fp_value.mul : fp_value → fp_value → fp_value
  | fp_value.nan, _ => fp_value.nan
  | _, fp_value.nan => fp_value.nan
  | fp_value.finite p, fp_value.finite q => fp_value.finite (p * q)
  | fp_value.finite p, fp_value.infinite n =>
    if p = 0 then fp_value.nan else fp_value.infinite (xor (decide (p < 0)) n)
  | fp_value.infinite n, fp_value.finite q =>
    if q = 0 then fp_value.nan else fp_value.infinite (xor n (decide (q < 0)))
  | fp_value.infinite n, fp_value.infinite m => fp_value.infinite (xor n m)

/-- The comparison `<` of two floating point values; false when one of them is not a
number. -/
def fp_value.lt : fp_value → fp_value → Bool
  | fp_value.nan, _ => false
  | _, fp_value.nan => false
  | fp_value.finite p, fp_value.finite q => decide (p < q)
  | fp_value.finite _, fp_value.infinite n => !n
  | fp_value.infinite n, fp_value.finite _ => n
  | fp_value.infinite n, fp_value.infinite m => n && !m

/-- The rounding of the result of an operation on `float` operands to `float`. -/
def fp_value.to_float : fp_value → fp_value
  | fp_value.finite p => double_to_float p
  | v => v

/-- Returns true if a is definitely greater than b (using the given epsilon).  The
parameters are `float a, float b, float epsilon`: the three arguments are converted
on entry, `a - b` is a `float` subtraction, `fabs` and the product are computed in
`double`, and `x > y` is `y < x`. -/
def definitelyGreaterThan (a b epsilon : ℚ) : Bool :=
  let a := double_to_float a
  let b := double_to_float b
  let epsilon := double_to_float epsilon
  fp_value.lt ((if fp_value.lt a.fabs b.fabs then b.fabs else a.fabs).mul epsilon)
    (a.sub b).to_float

/-- Modelled from the spec: `con_num_children` is defined in `con.c`, which is not
among the files at hand; the spec speaks of "a parent with ≥2 children", counted
here as the number of entries of the `nodes_head` of the container. -/
def con_num_children (con : Con) : Int := con.nodes_head.length

/-- Conversion of a C integer expression to `uint32_t`. -/
def u32 (n : Int) : Nat := (n % 2 ^ 32).toNat

/-- The statement `if (c->percent == 0.0) c->percent = percentage;`. -/
def default_percent (percentage : ℚ) (c : Con) : Con :=
  if c.percent = 0 then { c with percent := percentage } else c

/-- The statement `c->percent += delta;`. -/
def add_percent (delta : ℚ) (c : Con) : Con :=
  { c with percent := c.percent + delta }

/-- The pixel count used by a floating resize: at least one size increment of the
focused window, with the sign of the request. -/
def cmd_resize_floating_px (direction : String) (focused_con : Con) (px : Int) : Int :=
  if direction == "up" ∨ direction == "down" ∨ direction == "height" then
    if px < 0 then
      (if -px < focused_con.height_increment then -focused_con.height_increment else px)
    else
      (if px < focused_con.height_increment then focused_con.height_increment else px)
  else if direction == "left" ∨ direction == "right" then
    if px < 0 then
      (if -px < focused_con.width_increment then -focused_con.width_increment else px)
    else
      (if px < focused_con.width_increment then focused_con.width_increment else px)
  else px

/-- The static function `cmd_resize_floating`. -/
def cmd_resize_floating (env : Env) (s : State) (_way direction : String)
    (floating_con : Nat) (px0 : Int) : State :=
  let old_rect := (getCon s.all_cons floating_con).rect
  let focused_con := getCon s.all_cons (env.con_descend_focused s floating_con)
  let px := cmd_resize_floating_px direction focused_con px0
  let cons1 :=
    if direction == "up" then
      modifyCon s.all_cons floating_con
        (fun c => { c with rect := { c.rect with height := u32 (c.rect.height + px) } })
    else if direction == "down" ∨ direction == "height" then
      modifyCon s.all_cons floating_con
        (fun c => { c with rect := { c.rect with height := u32 (c.rect.height + px) } })
    else if direction == "left" then
      modifyCon s.all_cons floating_con
        (fun c => { c with rect := { c.rect with width := u32 (c.rect.width + px) } })
    else
      modifyCon s.all_cons floating_con
        (fun c => { c with rect := { c.rect with width := u32 (c.rect.width + px) } })
  let cons2 := env.floating_check_size cons1 floating_con
  if (getCon cons2 floating_con).rect = old_rect then { s with all_cons := cons2 }
  else
    let cons3 :=
      if direction == "up" then
        modifyCon cons2 floating_con (fun c => { c with rect := { c.rect with
          y := u32 ((c.rect.y : Int) - u32 ((c.rect.height : Int) - old_rect.height)) } })
      else if direction == "left" then
        modifyCon cons2 floating_con (fun c => { c with rect := { c.rect with
          x := u32 ((c.rect.x : Int) - u32 ((c.rect.width : Int) - old_rect.width)) } })
      else cons2
    let cons4 := modifyCon cons3 floating_con (fun c =>
      if c.scratchpad_state = scratchpad_state_t.SCRATCHPAD_FRESH then
        { c with scratchpad_state := scratchpad_state_t.SCRATCHPAD_CHANGED }
      else c)
    { s with all_cons := cons4 }

/-- The mapping from the direction word to `direction_t` in
`cmd_resize_tiling_direction`. -/
def search_direction_of (direction : String) : direction_t :=
  if direction == "left" then direction_t.D_LEFT
  else if direction == "right" then direction_t.D_RIGHT
  else if direction == "up" then direction_t.D_UP
  else direction_t.D_DOWN

/-- The static function `cmd_resize_tiling_direction`; the result is `none` when
the code dereferences a pointer that is `NULL` or outside the heap. -/
def cmd_resize_tiling_direction (env : Env) (s : State) (current : Nat)
    (_way direction : String) (ppt : Int) : Option (Bool × State) :=
  match env.resize_find_tiling_participants s current (search_direction_of direction) with
  | none => some (false, s.ysuccess false)
  | some (first, second) => do
    let f ← s.all_cons[first]?
    let p ← f.parent
    let pc ← s.all_cons[p]?
    let children : Int := con_num_children pc
    let percentage : ℚ := 1 / (children : ℚ)
    let cons1 := modifyCon s.all_cons first (default_percent percentage)
    let cons2 := modifyCon cons1 second (default_percent percentage)
    let new_first_percent := (getCon cons2 first).percent + (ppt : ℚ) / 100
    let new_second_percent := (getCon cons2 second).percent - (ppt : ℚ) / 100
    if definitelyGreaterThan new_first_percent (5 / 100) DBL_EPSILON ∧
       definitelyGreaterThan new_second_percent (5 / 100) DBL_EPSILON then
      let cons3 := modifyCon cons2 first (add_percent ((ppt : ℚ) / 100))
      let cons4 := modifyCon cons3 second (add_percent (-((ppt : ℚ) / 100)))
      some (true, { s with all_cons := cons4 })
    else
      some (true, { s with all_cons := cons2 })

/-- The first loop of `cmd_resize_tiling_width_height`: climb while the parent is
stacked or tabbed. -/
def skip_stacked_tabbed (cons : List Con) : Nat → Nat → Option Nat
  | 0, _ => none
  | fuel + 1, current => do
    let c ← cons[current]?
    let p ← c.parent
    let pc ← cons[p]?
    if pc.layout = layout_t.L_STACKED ∨ pc.layout = layout_t.L_TABBED then
      skip_stacked_tabbed cons fuel p
    else some current

/-- The second loop of `cmd_resize_tiling_width_height`: climb until the parent has
the orientation searched for, or a workspace or floating container is reached. -/
def find_search_orientation (env : Env) (cons : List Con) (search_orientation : orientation_t) :
    Nat → Nat → Option Nat
  | 0, _ => none
  | fuel + 1, current => do
    let c ← cons[current]?
    if c.type ≠ con_type_t.CT_WORKSPACE ∧ c.type ≠ con_type_t.CT_FLOATING_CON then
      let p ← c.parent
      let pc ← cons[p]?
      if env.con_orientation pc ≠ search_orientation then
        find_search_orientation env cons search_orientation fuel p
      else some current
    else some current

/-- The first `TAILQ_FOREACH` of `cmd_resize_tiling_width_height`: give every child
without a percentage the default. -/
def width_height_defaults (cons : List Con) (pc : Con) : List Con :=
  pc.nodes_head.foldl
    (fun cons child =>
      modifyCon cons child (default_percent (1 / ((con_num_children pc : Int) : ℚ))))
    cons

/-- The amount `subtract_percent` of `cmd_resize_tiling_width_height`. -/
def subtract_percent (pc : Con) (ppt : Int) : ℚ :=
  ((ppt : ℚ) / 100) / ((con_num_children pc - 1 : Int) : ℚ)

/-- The last `TAILQ_FOREACH` of `cmd_resize_tiling_width_height`: take
`subtract_percent` from every child but `current`. -/
def width_height_subtract (cons : List Con) (pc : Con) (current : Nat) (ppt : Int) : List Con :=
  pc.nodes_head.foldl
    (fun cons child =>
      if child = current then cons
      else modifyCon cons child (add_percent (-subtract_percent pc ppt)))
    cons

/-- The part of `cmd_resize_tiling_width_height` after the two climbs: `current` is
the container the climbs ended on and `pc` is `*current->parent`. -/
def cmd_resize_tiling_width_height_at (env : Env) (s : State) (current : Nat) (pc : Con)
    (direction : String) (ppt : Int) : Bool × State :=
  let children : Int := con_num_children pc
  let orientation := env.con_orientation pc
  if (orientation = orientation_t.HORIZ ∧ direction == "height") ∨
     (orientation = orientation_t.VERT ∧ direction == "width") then
    (false, s.ysuccess false)
  else if children = 1 then
    (false, s.ysuccess false)
  else
    let cons1 := width_height_defaults s.all_cons pc
    let new_current_percent := (getCon cons1 current).percent + (ppt : ℚ) / 100
    if pc.nodes_head.any (fun child => child ≠ current ∧
        ¬ definitelyGreaterThan ((getCon cons1 child).percent - subtract_percent pc ppt)
            (5 / 100) DBL_EPSILON) then
      (false, { s with all_cons := cons1 }.ysuccess false)
    else if ¬ definitelyGreaterThan new_current_percent (5 / 100) DBL_EPSILON then
      (false, { s with all_cons := cons1 }.ysuccess false)
    else
      let cons2 := modifyCon cons1 current (add_percent ((ppt : ℚ) / 100))
      (true, { s with all_cons := width_height_subtract cons2 pc current ppt })

/-- The static function `cmd_resize_tiling_width_height`; the result is `none` when
the code dereferences a pointer that is `NULL` or outside the heap, or when a climb
does not end within as many steps as there are containers. -/
def cmd_resize_tiling_width_height (env : Env) (s : State) (current0 : Nat)
    (_way direction : String) (ppt : Int) : Option (Bool × State) := do
  let current1 ← skip_stacked_tabbed s.all_cons (s.all_cons.length + 1) current0
  let search_orientation :=
    if direction == "width" then orientation_t.HORIZ else orientation_t.VERT
  let current ← find_search_orientation env s.all_cons search_orientation
    (s.all_cons.length + 1) current1
  let c ← s.all_cons[current]?
  let p ← c.parent
  let pc ← s.all_cons[p]?
  some (cmd_resize_tiling_width_height_at env s current pc direction ppt)

/-- The `TAILQ_FOREACH` over `owindows` in `cmd_resize`, followed by the tail of the
function. -/
def cmd_resize_loop (env : Env) (way direction : String) (px ppt : Int) :
    List Nat → State → Option State
  | [], s => some (s.set_needs_tree_render.ysuccess true)
  | current :: rest, s => do
    let c ← s.all_cons[current]?
    if (c.window.map (fun w => w.dock)) = some true then
      cmd_resize_loop env way direction px ppt rest s
    else
      match env.con_inside_floating s current with
      | some floating_con =>
        cmd_resize_loop env way direction px ppt rest
          (cmd_resize_floating env s way direction floating_con px)
      | none =>
        if direction == "width" ∨ direction == "height" then do
          let r ← cmd_resize_tiling_width_height env s current way direction ppt
          if r.1 then cmd_resize_loop env way direction px ppt rest r.2
          else some r.2
        else do
          let r ← cmd_resize_tiling_direction env s current way direction ppt
          if r.1 then cmd_resize_loop env way direction px ppt rest r.2
          else some r.2

/-- Implementation of `resize grow|shrink <direction> [<px> px] [or <ppt> ppt]`;
`resize_px` and `resize_ppt` are the values of `atoi` on the two number words. -/
def cmd_resize (env : Env) (s0 : State) (way direction : String)
    (resize_px resize_ppt : Int) : Option State :=
  let px := if way == "shrink" then resize_px * -1 else resize_px
  let ppt := if way == "shrink" then resize_ppt * -1 else resize_ppt
  let s := HANDLE_EMPTY_MATCH env s0
  cmd_resize_loop env way direction px ppt s.owindows s

/-- The sum of the percentages of the containers in a list of children. -/
def percent_sum (cons : List Con) (l : List Nat) : ℚ :=
  (l.map (fun p => (getCon cons p).percent)).sum

/-! ## Workspace commands -/

/-- The test `strncasecmp(a, b, n) == 0` of libc. -/
def strncasecmp_eq (a b : String) (n : Nat) : Bool :=
  (a.data.take n).map Char.toLower == (b.data.take n).map Char.toLower

/-- The test `strcasecmp(a, b) == 0` of libc. -/
def strcasecmp_eq (a b : String) : Bool :=
  a.data.map Char.toLower == b.data.map Char.toLower

/-- Modelled from the spec: the macro `GREP_FIRST(dest, head, condition)` is defined
in `util.h`, which is not among the files at hand; workspaces are looked up "by name
or number" among the children of an output's content container: `dest` becomes the
first child of `head` that satisfies the condition and keeps its value when there is
none. -/
def GREP_FIRST (cons : List Con) (dest : Option Nat) (head : Nat) (condition : Con → Bool) :
    Option Nat :=
  match (getCon cons head).nodes_head.find? (fun child => condition (getCon cons child)) with
  | some child => some child
  | none => dest

/-- The loop `TAILQ_FOREACH(output, &(croot->nodes_head), nodes) GREP_FIRST(workspace,
output_get_content(output), condition)` starting from `workspace = NULL`. -/
def grep_workspaces (env : Env) (s : State) (condition : Con → Bool) : Option Nat :=
  (getCon s.all_cons s.croot).nodes_head.foldl
    (fun dest output => GREP_FIRST s.all_cons dest (env.output_get_content s output) condition)
    none

/-- The static function `maybe_back_and_forth`. -/
def maybe_back_and_forth (env : Env) (s : State) (name : String) : Bool × State :=
  let ws := env.con_get_workspace s s.focused
  if (getCon s.all_cons ws).name ≠ name then (false, s)
  else if s.workspace_auto_back_and_forth then
    (true, (s.call Call.workspace_back_and_forth).set_needs_tree_render)
  else (true, s)

/-- The static function `maybe_auto_back_and_forth_workspace`. -/
def maybe_auto_back_and_forth_workspace (env : Env) (s : State) (workspace : Nat) : Nat :=
  if ¬ s.workspace_auto_back_and_forth then workspace
  else if env.con_get_workspace s s.focused = workspace then
    match env.workspace_back_and_forth_get s with
    | some baf => baf
    | none => workspace
  else workspace

/-- The loop `TAILQ_FOREACH(current, &owindows, owindows)
con_move_to_workspace(current->con, ws, true, false)`. -/
def move_owindows (s : State) (ws : Nat) : State :=
  s.owindows.foldl (fun s con => s.call (Call.con_move_to_workspace con ws true false)) s

/-- Implementation of `move [window|container] [to] workspace
next|prev|next_on_output|prev_on_output|current`. -/
def cmd_move_con_to_workspace (env : Env) (s0 : State) (which : String) : State :=
  if (¬ env.match_is_empty s0.current_match ∧ s0.owindows = []) ∨
     (env.match_is_empty s0.current_match ∧
      (getCon s0.all_cons s0.focused).type = con_type_t.CT_WORKSPACE ∧
      ¬ env.con_has_children (getCon s0.all_cons s0.focused)) then
    s0.ysuccess false
  else
    let s := HANDLE_EMPTY_MATCH env s0
    let ws : Option Nat :=
      if which == "next" then some (env.workspace_next s)
      else if which == "prev" then some (env.workspace_prev s)
      else if which == "next_on_output" then some (env.workspace_next_on_output s)
      else if which == "prev_on_output" then some (env.workspace_prev_on_output s)
      else if which == "current" then some (env.con_get_workspace s s.focused)
      else none
    match ws with
    | none => s.ysuccess false
    | some ws => (move_owindows s ws).set_needs_tree_render.ysuccess true

/-- Implementation of `move [window|container] [to] workspace <name>`. -/
def cmd_move_con_to_workspace_name (env : Env) (s0 : State) (name : String) : State :=
  if strncasecmp_eq name "__" 2 then s0.ysuccess false
  else if ¬ env.match_is_empty s0.current_match ∧ s0.owindows = [] then s0.ysuccess false
  else if env.match_is_empty s0.current_match ∧
      (getCon s0.all_cons s0.focused).type = con_type_t.CT_WORKSPACE ∧
      ¬ env.con_has_children (getCon s0.all_cons s0.focused) then
    s0.ysuccess false
  else
    let s1 := s0.call (Call.workspace_get name)
    let ws := maybe_auto_back_and_forth_workspace env s1 (env.workspace_get s0 name)
    let s := HANDLE_EMPTY_MATCH env s1
    (move_owindows s ws).set_needs_tree_render.ysuccess true

/-- Implementation of `move [window|container] [to] workspace number <name>`. -/
def cmd_move_con_to_workspace_number (env : Env) (s0 : State) (which : String) : State :=
  if (¬ env.match_is_empty s0.current_match ∧ s0.owindows = []) ∨
     (env.match_is_empty s0.current_match ∧
      (getCon s0.all_cons s0.focused).type = con_type_t.CT_WORKSPACE ∧
      ¬ env.con_has_children (getCon s0.all_cons s0.focused)) then
    s0.ysuccess false
  else
    let parsed_num := env.ws_name_to_number which
    if parsed_num = -1 then
      s0.yerror ("Could not parse number \"" ++ which ++ "\"")
    else
      let found := grep_workspaces env s0 (fun child => child.num = parsed_num)
      let s1 := match found with
        | some _ => s0
        | none => s0.call (Call.workspace_get which)
      let workspace := match found with
        | some w => w
        | none => env.workspace_get s0 which
      let ws := maybe_auto_back_and_forth_workspace env s1 workspace
      let s := HANDLE_EMPTY_MATCH env s1
      (move_owindows s ws).set_needs_tree_render.ysuccess true

/-- Implementation of `workspace next|prev|next_on_output|prev_on_output`. -/
def cmd_workspace (env : Env) (s : State) (which : String) : State :=
  if (env.con_get_fullscreen_con s s.croot fullscreen_mode_t.CF_GLOBAL).isSome then
    s.ysuccess false
  else
    let ws : Option Nat :=
      if which == "next" then some (env.workspace_next s)
      else if which == "prev" then some (env.workspace_prev s)
      else if which == "next_on_output" then some (env.workspace_next_on_output s)
      else if which == "prev_on_output" then some (env.workspace_prev_on_output s)
      else none
    match ws with
    | none => s.ysuccess false
    | some ws => (s.call (Call.workspace_show ws)).set_needs_tree_render.ysuccess true

/-- Implementation of `workspace number <name>`. -/
def cmd_workspace_number (env : Env) (s : State) (which : String) : State :=
  if (env.con_get_fullscreen_con s s.croot fullscreen_mode_t.CF_GLOBAL).isSome then
    s.ysuccess false
  else
    let parsed_num := env.ws_name_to_number which
    if parsed_num = -1 then
      s.yerror ("Could not parse number \"" ++ which ++ "\"")
    else
      match grep_workspaces env s (fun child => child.num = parsed_num) with
      | none =>
        ((s.ysuccess true).call (Call.workspace_show_by_name which)).set_needs_tree_render
      | some workspace =>
        let r := maybe_back_and_forth env s (getCon s.all_cons workspace).name
        if r.1 then r.2
        else (r.2.call (Call.workspace_show workspace)).set_needs_tree_render.ysuccess true

/-- Implementation of `workspace back_and_forth`. -/
def cmd_workspace_back_and_forth (env : Env) (s : State) : State :=
  if (env.con_get_fullscreen_con s s.croot fullscreen_mode_t.CF_GLOBAL).isSome then
    s.ysuccess false
  else
    (s.call Call.workspace_back_and_forth).set_needs_tree_render.ysuccess true

/-- Implementation of `workspace <name>`. -/
def cmd_workspace_name (env : Env) (s : State) (name : String) : State :=
  if strncasecmp_eq name "__" 2 then s.ysuccess false
  else if (env.con_get_fullscreen_con s s.croot fullscreen_mode_t.CF_GLOBAL).isSome then
    s.ysuccess false
  else
    let r := maybe_back_and_forth env s name
    if r.1 then r.2
    else (r.2.call (Call.workspace_show_by_name name)).set_needs_tree_render.ysuccess true

/-- The test of the loop over `ws_assignments` in `cmd_rename_workspace`: the
assignment has an output and names the workspace, by name or by number. -/
def assignment_matches (env : Env) (workspace : Con) (assignment : Workspace_Assignment) :
    Bool :=
  assignment.output.isSome ∧
  ¬ (assignment.name ≠ workspace.name ∧
     (¬ env.name_is_digits assignment.name ∨
      env.ws_name_to_number assignment.name ≠ workspace.num))

/-- Implementation of `rename workspace [<name>] to <name>`.  The last call,
`startup_sequence_rename_workspace(old_name, new_name)`, is logged with the parameter
`old_name` of the command: without an old name the C variable points to the former
name of the workspace, which `FREE(workspace->name)` has released by then, and the
log holds `none` for that dangling pointer. -/
def cmd_rename_workspace (env : Env) (s : State) (old_name : Option String)
    (new_name : String) : State :=
  if strncasecmp_eq new_name "__" 2 then s.ysuccess false
  else
    let workspace : Option Nat :=
      match old_name with
      | some old => grep_workspaces env s (fun child => strcasecmp_eq child.name old)
      | none => some (env.con_get_workspace s s.focused)
    match workspace with
    | none => s.yerror ("Old workspace \"" ++ old_name.getD "" ++ "\" not found")
    | some ws =>
      if (grep_workspaces env s (fun child => strcasecmp_eq child.name new_name)).isSome then
        s.yerror ("New workspace \"" ++ new_name ++ "\" already exists")
      else
        let cons1 := modifyCon s.all_cons ws
          (fun c => { c with name := new_name, num := env.ws_name_to_number new_name })
        let s1 := { s with all_cons := cons1 }
        let previously_focused := s1.focused
        let parent := (getCon cons1 ws).parent
        let s2 := (s1.call (Call.con_detach ws)).call (Call.con_attach ws parent false)
        let s3 :=
          match s2.ws_assignments.find? (assignment_matches env (getCon cons1 ws)) with
          | some assignment =>
            (s2.call (Call.workspace_move_to_output ws (assignment.output.getD ""))).call
              (Call.workspace_show (env.con_get_workspace s2 previously_focused))
          | none => s2
        let s4 := ((s3.call (Call.con_focus previously_focused)).set_needs_tree_render).ysuccess true
        ((((s4.call (Call.ipc_send_workspace_event "rename" ws)).call
          Call.ewmh_update_desktop_names).call Call.ewmh_update_desktop_viewport).call
          Call.ewmh_update_current_desktop).call
          (Call.startup_sequence_rename_workspace old_name new_name)

/-- The command was refused with the given reply: no container, call log, focus or
working set changed, needs_tree_render kept its value, and the reply is the only
object written to the generator. -/
def RefusedWith (s r : State) (reply : Reply) : Prop :=
  r.all_cons = s.all_cons ∧ r.calls = s.calls ∧ r.focused = s.focused ∧
  r.owindows = s.owindows ∧
  r.cmd_output.needs_tree_render = s.cmd_output.needs_tree_render ∧
  (s.cmd_output.json_gen = true → r.cmd_output.json = s.cmd_output.json ++ [reply])

/-! ## Criteria -/

/-- The function `cmd_criteria_init`: the criteria are reset and the working set
becomes a copy of `all_cons`. -/
def cmd_criteria_init (s : State) : State :=
  { s with current_match := {}, owindows := List.range s.all_cons.length }

/-- The `for` loop of `cmd_criteria_match_windows` over the old list: `owindows` is
the fresh list, to whose tail the matching entries are inserted. -/
def cmd_criteria_match_windows_loop (env : Env) (s : State) : List Nat → List Nat → List Nat
  | [], owindows => owindows
  | current :: next, owindows =>
    match s.current_match.con_id with
    | some con_id =>
      if con_id = current then
        cmd_criteria_match_windows_loop env s next (owindows ++ [current])
      else
        cmd_criteria_match_windows_loop env s next owindows
    | none =>
      if (match s.current_match.mark, (getCon s.all_cons current).mark with
          | some pattern, some mark => env.regex_matches pattern mark
          | _, _ => false) then
        cmd_criteria_match_windows_loop env s next (owindows ++ [current])
      else
        if (match (getCon s.all_cons current).window with
            | some window => env.match_matches_window s.current_match window
            | none => false) then
          cmd_criteria_match_windows_loop env s next (owindows ++ [current])
        else
          cmd_criteria_match_windows_loop env s next owindows

/-- The function `cmd_criteria_match_windows`: the old list is walked and the
matching entries are inserted into a fresh list. -/
def cmd_criteria_match_windows (env : Env) (s : State) : State :=
  { s with owindows := cmd_criteria_match_windows_loop env s s.owindows [] }

/-! ## Commands that run over the working set -/

/-- The `TAILQ_FOREACH` over `owindows` in `cmd_border`, followed by the tail of the
function; `border_width` is the number found by `strtol`, if any. -/
def cmd_border_loop (env : Env) (border_style_str : String) (border_width : Option Int) :
    List Nat → State → State
  | [], s => s.set_needs_tree_render.ysuccess true
  | current :: rest, s =>
    let border_style := (getCon s.all_cons current).border_style
    let tmp_border_width := border_width.getD (-1)
    if border_style_str == "toggle" then
      let toggled := Int.tmod (border_style + 1) 3
      let width :=
        if toggled = env.BS_NORMAL then 2
        else if toggled = env.BS_NONE then 0
        else if toggled = env.BS_PIXEL then 1
        else tmp_border_width
      cmd_border_loop env border_style_str border_width rest
        (s.call (Call.con_set_border_style current toggled width))
    else if border_style_str == "normal" then
      cmd_border_loop env border_style_str border_width rest
        (s.call (Call.con_set_border_style current env.BS_NORMAL tmp_border_width))
    else if border_style_str == "pixel" then
      cmd_border_loop env border_style_str border_width rest
        (s.call (Call.con_set_border_style current env.BS_PIXEL tmp_border_width))
    else if border_style_str == "1pixel" then
      cmd_border_loop env border_style_str border_width rest
        (s.call (Call.con_set_border_style current env.BS_PIXEL 1))
    else if border_style_str == "none" then
      cmd_border_loop env border_style_str border_width rest
        (s.call (Call.con_set_border_style current env.BS_NONE tmp_border_width))
    else s.ysuccess false

/-- Implementation of `border normal|pixel [<n>]`, `border none|1pixel|toggle`. -/
def cmd_border (env : Env) (s0 : State) (border_style_str : String)
    (border_width : Option Int) : State :=
  let s := HANDLE_EMPTY_MATCH env s0
  cmd_border_loop env border_style_str border_width s.owindows s

/-- Implementation of `floating enable|disable|toggle`. -/
def cmd_floating (env : Env) (s0 : State) (floating_mode : String) : State :=
  let s := HANDLE_EMPTY_MATCH env s0
  let s1 := s.owindows.foldl
    (fun s current =>
      if floating_mode == "toggle" then s.call (Call.toggle_floating_mode current false)
      else if floating_mode == "enable" then s.call (Call.floating_enable current false)
      else s.call (Call.floating_disable current false))
    s
  s1.set_needs_tree_render.ysuccess true

/-- Implementation of `fullscreen enable|toggle [global]` and `fullscreen disable`. -/
def cmd_fullscreen (env : Env) (s0 : State) (action fullscreen_mode : String) : State :=
  let mode :=
    if fullscreen_mode == "global" then fullscreen_mode_t.CF_GLOBAL
    else fullscreen_mode_t.CF_OUTPUT
  let s := HANDLE_EMPTY_MATCH env s0
  let s1 := s.owindows.foldl
    (fun s current =>
      if action == "toggle" then s.call (Call.con_toggle_fullscreen current mode)
      else if action == "enable" then s.call (Call.con_enable_fullscreen current mode)
      else if action == "disable" then s.call (Call.con_disable_fullscreen current)
      else s)
    s
  s1.set_needs_tree_render.ysuccess true

/-- Implementation of `move scratchpad`. -/
def cmd_move_scratchpad (env : Env) (s0 : State) : State :=
  let s := HANDLE_EMPTY_MATCH env s0
  let s1 := s.owindows.foldl (fun s current => s.call (Call.scratchpad_move current)) s
  s1.set_needs_tree_render.ysuccess true

/-- The body of the loop of `cmd_title_format` for a container with a window. -/
def set_title_format (format : String) (window : Window) : Window :=
  let w1 := { window with title_format := none }
  let w2 := if ¬ strcasecmp_eq format "%title" then { w1 with title_format := some format } else w1
  { w2 with name_x_changed := true }

/-- Implementation of `title_format <format>`. -/
def cmd_title_format (env : Env) (s0 : State) (format : String) : State :=
  let s := HANDLE_EMPTY_MATCH env s0
  let cons := s.owindows.foldl
    (fun cons current =>
      modifyCon cons current (fun c => { c with window := c.window.map (set_title_format format) }))
    s.all_cons
  ({ s with all_cons := cons }).set_needs_tree_render.ysuccess true

/-- The rectangle handed to `floating_reposition` by `cmd_move_direction`. -/
def move_rect (direction : String) (px : Int) (rect : Rect) : Rect :=
  if direction == "left" then { rect with x := u32 (rect.x - px) }
  else if direction == "right" then { rect with x := u32 (rect.x + px) }
  else if direction == "up" then { rect with y := u32 (rect.y - px) }
  else if direction == "down" then { rect with y := u32 (rect.y + px) }
  else rect

/-- The direction handed to `tree_move` by `cmd_move_direction`. -/
def move_direction_of (direction : String) : direction_t :=
  if direction == "right" then direction_t.D_RIGHT
  else if direction == "left" then direction_t.D_LEFT
  else if direction == "up" then direction_t.D_UP
  else direction_t.D_DOWN

/-- The `TAILQ_FOREACH` over `owindows` in `cmd_move_direction`; the result is `none`
when the parent of a floating container is `NULL` or outside the heap. -/
def cmd_move_direction_loop (env : Env) (direction : String) (px : Int) :
    List Nat → State → Option State
  | [], s => some s
  | current :: rest, s =>
    if env.con_is_floating s current then do
      let c ← s.all_cons[current]?
      let p ← c.parent
      let pc ← s.all_cons[p]?
      cmd_move_direction_loop env direction px rest
        (s.call (Call.floating_reposition p (move_rect direction px pc.rect)))
    else
      cmd_move_direction_loop env direction px rest
        ((s.call (Call.tree_move current (move_direction_of direction))).set_needs_tree_render)

/-- Implementation of `move <direction> [<pixels> [px]]`; `move_px` is the value of
`atoi` on the number word. -/
def cmd_move_direction (env : Env) (s0 : State) (direction : String) (move_px : Int) :
    Option State := do
  let s := HANDLE_EMPTY_MATCH env s0
  let initially_focused := s.focused
  let s1 ← cmd_move_direction_loop env direction move_px s.owindows s
  let s2 :=
    if env.focused_after s1 ≠ initially_focused then s1.call (Call.con_focus initially_focused)
    else s1
  some (s2.ysuccess true)

/-- Implementation of `focus left|right|up|down`. -/
def cmd_focus_direction (s : State) (direction : String) : State :=
  if direction == "left" then
    ((s.call (Call.tree_next 'p' orientation_t.HORIZ)).set_needs_tree_render).ysuccess true
  else if direction == "right" then
    ((s.call (Call.tree_next 'n' orientation_t.HORIZ)).set_needs_tree_render).ysuccess true
  else if direction == "up" then
    ((s.call (Call.tree_next 'p' orientation_t.VERT)).set_needs_tree_render).ysuccess true
  else if direction == "down" then
    ((s.call (Call.tree_next 'n' orientation_t.VERT)).set_needs_tree_render).ysuccess true
  else s.ysuccess false

/-! ## `gaps` -/

/-- The member `gaps.type` for the type `inner` or `outer`. -/
def get_gap (inner : Bool) (g : gaps_t) : Int := if inner then g.inner else g.outer

/-- The assignment `gaps.type = value`. -/
def set_gap (inner : Bool) (g : gaps_t) (value : Int) : gaps_t :=
  if inner then { g with inner := value } else { g with outer := value }

/-- The body of the inner loop of `CMD_GAPS` for scope `all`, for one workspace. -/
def gaps_fix_workspace (inner reset : Bool) (current_value : Int) (cur_ws : Con) : Con :=
  if reset then { cur_ws with gaps := set_gap inner cur_ws.gaps 0 }
  else if current_value + get_gap inner cur_ws.gaps < 0 then
    { cur_ws with gaps := set_gap inner cur_ws.gaps (-current_value) }
  else cur_ws

/-- The two nested `TAILQ_FOREACH` of `CMD_GAPS` for scope `all`: every child of the
content container of every output. -/
def gaps_fix_all (env : Env) (s : State) (inner reset : Bool) (current_value : Int) :
    List Con :=
  (getCon s.all_cons s.croot).nodes_head.foldl
    (fun cons output =>
      (getCon cons (env.output_get_content s output)).nodes_head.foldl
        (fun cons cur_ws => modifyCon cons cur_ws (gaps_fix_workspace inner reset current_value))
        cons)
    s.all_cons

/-- The value of `current_value` in `CMD_GAPS` after the mode was applied and the
result was clamped at 0, with the flag `reset`; `none` for an invalid mode. -/
def gaps_new_value (mode : String) (start pixels : Int) : Option (Int × Bool) :=
  let r : Option (Int × Bool) :=
    if mode == "plus" then some (start + pixels, false)
    else if mode == "minus" then some (start - pixels, false)
    else if mode == "set" then some (pixels, true)
    else none
  r.map (fun v => (if v.1 < 0 then 0 else v.1, v.2))

/-- The macro `CMD_GAPS(type, other)`; the first component is false when the macro
returned from `cmd_gaps` after `ysuccess(false)`. -/
def CMD_GAPS (env : Env) (s : State) (inner : Bool) (scope mode : String) (pixels : Int) :
    Bool × State :=
  let workspace := env.con_get_workspace s s.focused
  let start :=
    if scope == "current" then
      get_gap inner s.config_gaps + get_gap inner (getCon s.all_cons workspace).gaps
    else get_gap inner s.config_gaps
  match gaps_new_value mode start pixels with
  | none => (false, s.ysuccess false)
  | some (current_value, reset) =>
    if scope == "all" then
      let cons := gaps_fix_all env s inner reset current_value
      (true, { s with all_cons := cons,
                      config_gaps := set_gap inner s.config_gaps current_value })
    else
      let delta := current_value - get_gap inner s.config_gaps
      let cons := modifyCon s.all_cons workspace
        (fun c => { c with gaps := set_gap inner c.gaps delta })
      (true, { s with all_cons := cons })

/-- Implementation of `gaps inner|outer current|all set|plus|minus <px>`; `value` is
the value of `atoi` on the number word. -/
def cmd_gaps (env : Env) (s : State) (type scope mode : String) (value : Int) : State :=
  if type == "inner" then
    let r := CMD_GAPS env s true scope mode value
    if r.1 then r.2.set_needs_tree_render.ysuccess true else r.2
  else if type == "outer" then
    let r := CMD_GAPS env s false scope mode value
    if r.1 then r.2.set_needs_tree_render.ysuccess true else r.2
  else s.ysuccess false

/-! ## Auxiliary definitions used in the statements -/

/-- The heap after the two `percent == 0.0` defaults of `cmd_resize_tiling_direction`. -/
def direction_defaults (cons : List Con) (first second : Nat) (pc : Con) : List Con :=
  modifyCon (modifyCon cons first (default_percent (1 / ((con_num_children pc : Int) : ℚ))))
    second (default_percent (1 / ((con_num_children pc : Int) : ℚ)))

/-- The heap left by `cmd_resize_tiling_direction` once participants are found. -/
def direction_result (cons : List Con) (first second : Nat) (pc : Con) (ppt : Int) : List Con :=
  if definitelyGreaterThan
        ((getCon (direction_defaults cons first second pc) first).percent + (ppt : ℚ) / 100)
        (5 / 100) DBL_EPSILON = true ∧
     definitelyGreaterThan
        ((getCon (direction_defaults cons first second pc) second).percent - (ppt : ℚ) / 100)
        (5 / 100) DBL_EPSILON = true then
    modifyCon (modifyCon (direction_defaults cons first second pc) first
      (add_percent ((ppt : ℚ) / 100))) second (add_percent (-((ppt : ℚ) / 100)))
  else direction_defaults cons first second pc

/-- The state with which `cmd_resize` returns after one applied direction resize. -/
def direction_applied_state (env : Env) (s0 : State) (first second : Nat) (d : ℚ) : State :=
  let s := HANDLE_EMPTY_MATCH env s0
  let cons := modifyCon (modifyCon s0.all_cons first (add_percent d)) second (add_percent (-d))
  ({ s with all_cons := cons }).set_needs_tree_render.ysuccess true

/-- The test that `cmd_criteria_match_windows` makes for one container: with a
`con_id` in the criteria only the identity counts; without one, a matching mark is
enough, and otherwise the window of the container must be accepted by
`match_matches_window`. -/
def criteria_keep (env : Env) (s : State) (con : Nat) : Prop :=
  (∃ con_id, s.current_match.con_id = some con_id ∧ con_id = con) ∨
  (s.current_match.con_id = none ∧
    ((∃ pattern mark, s.current_match.mark = some pattern ∧
        (getCon s.all_cons con).mark = some mark ∧ env.regex_matches pattern mark = true) ∨
     (∃ window, (getCon s.all_cons con).window = some window ∧
        env.match_matches_window s.current_match window = true)))

/-- The container `child` is a workspace on some output, that is a child of the
content container of a child of the root, and satisfies the condition. -/
def workspace_with (env : Env) (s : State) (condition : Con → Bool) (child : Nat) : Prop :=
  ∃ output ∈ (getCon s.all_cons s.croot).nodes_head,
    child ∈ (getCon s.all_cons (env.output_get_content s output)).nodes_head ∧
    condition (getCon s.all_cons child) = true

/-- The workspace that `cmd_rename_workspace` renames: the one found by name when an
old name is given, the workspace of the focused container otherwise. -/
def renamed_workspace (env : Env) (s : State) (old_name : Option String) (ws : Nat) : Prop :=
  match old_name with
  | some old =>
    grep_workspaces env s (fun child => strcasecmp_eq child.name old) = some ws ∧
    workspace_with env s (fun child => strcasecmp_eq child.name old) ws
  | none => ws = env.con_get_workspace s s.focused

/-- The value `v` requested by a `gaps` command: the old gap plus px, minus px, or px
itself for `set`; `none` for another mode. -/
def gaps_requested (mode : String) (old px : Int) : Option Int :=
  if mode = "plus" then some (old + px)
  else if mode = "minus" then some (old - px)
  else if mode = "set" then some px
  else none

/-- The effective gap of a workspace: `config.gaps.type + workspace->gaps.type`. -/
def effective_gap (inner : Bool) (s : State) (ws : Nat) : Int :=
  get_gap inner s.config_gaps + get_gap inner (getCon s.all_cons ws).gaps

/-- The heap `cons` is the heap `orig` in which some containers were updated by `g`,
among them every container of `V`. -/
def updated_by (g : Con → Con) (orig cons : List Con) (V : Nat → Prop) : Prop :=
  cons.length = orig.length ∧
  ∀ i c, orig[i]? = some c →
    (cons[i]? = some c ∨ cons[i]? = some (g c)) ∧ (V i → cons[i]? = some (g c))

/-- The style handed to `con_set_border_style` by `border toggle`: the statements
`border_style++; border_style %= 3;`. -/
def toggled_style (border_style : Int) : Int := Int.tmod (border_style + 1) 3

/-- The call made by `border toggle` for one container of the working set. -/
def toggle_call (env : Env) (border_width : Option Int) (cons : List Con) (con : Nat) : Call :=
  let toggled := toggled_style (getCon cons con).border_style
  Call.con_set_border_style con toggled
    (if toggled = env.BS_NORMAL then 2
     else if toggled = env.BS_NONE then 0
     else if toggled = env.BS_PIXEL then 1
     else border_width.getD (-1))

/-- Modelled from the spec: `con_set_border_style` is defined in `con.c`, which is not
among the files at hand.  In the spec's command table `border` does "Cycle or set" the
border style of a container: the call stores the given style in the `border_style` of
the container.  Other calls leave the border styles alone. -/
def apply_border_call (cons : List Con) : Call → List Con
  | Call.con_set_border_style con border_style _ =>
    modifyCon cons con (fun c => { c with border_style := border_style })
  | _ => cons

/-- The state after `border toggle`, once the `con_set_border_style` calls that the
command made have stored their styles. -/
def border_toggle (env : Env) (s : State) : State :=
  let r := cmd_border env s "toggle" none
  { r with all_cons := (r.calls.drop s.calls.length).foldl apply_border_call r.all_cons }

/-- The pixel count applied by a floating resize, in the words of the claim: the
requested px unless its magnitude is smaller than the size increment, in which case it
is the increment with the sign of px (positive for px = 0). -/
def applied_px (increment px : Int) : Int :=
  if |px| < increment then (if px < 0 then -increment else increment) else px

/-- The visible workspace and the `back_and_forth` slot, by name. -/
structure Visible where
  current : String
  back_and_forth : Option String
  deriving DecidableEq, Repr

/-- Modelled from the spec: `workspace_back_and_forth` and `workspace_show_by_name`
are defined in `workspace.c`, which is not among the files at hand.  The spec keeps
"a `back_and_forth` slot holding the previously-focused workspace name" and describes
back-and-forth as jumping "to the previous one": `workspace_back_and_forth` makes the
workspace of the slot current and puts the workspace left into the slot;
`workspace_show_by_name` makes the named workspace current and, when that is a
switch, puts the workspace left into the slot.  Other calls do not switch. -/
def Visible.run (v : Visible) : Call → Visible
  | Call.workspace_back_and_forth =>
    match v.back_and_forth with
    | some previous => { current := previous, back_and_forth := some v.current }
    | none => v
  | Call.workspace_show_by_name name =>
    if name = v.current then v else { current := name, back_and_forth := some v.current }
  | _ => v

/-- The path of `cmd_workspace_name` on which `maybe_back_and_forth` returns true:
the name passes both guards and is the name of the focused workspace. -/
def name_already_focused (env : Env) (s : State) (name : String) : Prop :=
  strncasecmp_eq name "__" 2 = false ∧
  (env.con_get_fullscreen_con s s.croot fullscreen_mode_t.CF_GLOBAL).isSome = false ∧
  (getCon s.all_cons (env.con_get_workspace s s.focused)).name = name

/-- The path of `cmd_workspace_number` on which `maybe_back_and_forth` returns true:
the number parses, a workspace with that number exists and has the name of the
focused workspace. -/
def number_already_focused (env : Env) (s : State) (which : String) : Prop :=
  (env.con_get_fullscreen_con s s.croot fullscreen_mode_t.CF_GLOBAL).isSome = false ∧
  env.ws_name_to_number which ≠ -1 ∧
  ∃ workspace, grep_workspaces env s (fun child => child.num = env.ws_name_to_number which)
      = some workspace ∧
    (getCon s.all_cons (env.con_get_workspace s s.focused)).name
      = (getCon s.all_cons workspace).name

/-! ## Worked examples: a concrete environment and concrete trees -/

/-- The neighbour of `current` in a list of siblings: the previous entry for
left/up, the next one for right/down. -/
def example_neighbour (l : List Nat) (current : Nat) (d : direction_t) : Option Nat :=
  match d with
  | direction_t.D_LEFT | direction_t.D_UP =>
    if 0 < l.indexOf current ∧ l.indexOf current < l.length then l[l.indexOf current - 1]?
    else none
  | _ => l[l.indexOf current + 1]?

/-- A concrete environment for the worked examples: no fullscreen container, no
floating containers, orientation read off the layout, resize participants are the
container itself and its neighbour among its siblings, a regex matches the text equal
to it, the only window criterion looked at is the class. -/
def example_env : Env where
  match_is_empty := fun m => decide (m = {})
  con_has_children := fun c => !c.nodes_head.isEmpty
  con_orientation := fun c =>
    match c.layout with
    | layout_t.L_SPLITV | layout_t.L_STACKED => orientation_t.VERT
    | layout_t.L_SPLITH | layout_t.L_TABBED => orientation_t.HORIZ
    | _ => orientation_t.NO_ORIENTATION
  con_get_fullscreen_con := fun _ _ _ => none
  con_get_workspace := fun _ _ => 0
  con_inside_floating := fun _ _ => none
  con_descend_focused := fun _ c => c
  floating_check_size := fun cons _ => cons
  resize_find_tiling_participants := fun s current d =>
    match (getCon s.all_cons current).parent with
    | none => none
    | some p =>
      (example_neighbour (getCon s.all_cons p).nodes_head current d).map (fun n => (current, n))
  output_get_content := fun _ o => o
  workspace_next := fun _ => 0
  workspace_prev := fun _ => 0
  workspace_next_on_output := fun _ => 0
  workspace_prev_on_output := fun _ => 0
  workspace_get := fun _ _ => 0
  workspace_back_and_forth_get := fun _ => none
  ws_name_to_number := fun _ => -1
  name_is_digits := fun _ => false
  con_is_floating := fun _ _ => false
  focused_after := fun s => s.focused
  regex_matches := fun pattern input => pattern == input
  match_matches_window := fun m w =>
    match m.class_ with
    | some pattern => w.class_class == some pattern
    | none => true
  BS_NORMAL := 0
  BS_NONE := 1
  BS_PIXEL := 2

/-- An output container with the workspace 1 as its only child. -/
def example_output : Con := { type := con_type_t.CT_OUTPUT, nodes_head := [1] }

/-- The workspace "1": a horizontal split with the children 2 and 3. -/
def example_workspace : Con :=
  { type := con_type_t.CT_WORKSPACE, parent := some 0, nodes_head := [2, 3], name := "1", num := 1 }

/-- A tiled leaf of the workspace "1". -/
def example_leaf (name : String) (percent : ℚ) : Con :=
  { parent := some 1, percent := percent, name := name }

/-- Two tiled leaves A (container 2) and B (container 3) with the given percentages
in the workspace "1" (container 1) on an output (container 0); B is focused and no
criteria were given. -/
def two_leaves_with (a b : ℚ) (owindows : List Nat) : State :=
  { all_cons := [example_output, example_workspace, example_leaf "A" a, example_leaf "B" b],
    focused := 3,
    owindows := owindows }

/-- The state `two_leaves_with` as `cmd_criteria_init` leaves it: the working set is
a copy of `all_cons`. -/
def two_leaves (a b : ℚ) : State := two_leaves_with a b [0, 1, 2, 3]

/-- The state `two_leaves (1/2) (1/2)` in which A carries the mark "m". -/
def marked_leaves : State :=
  { all_cons := [example_output, example_workspace,
      { example_leaf "A" (1 / 2) with mark := some "m" }, example_leaf "B" (1 / 2)],
    focused := 3,
    owindows := [0, 1, 2, 3] }

/-- A tree with the root (0), one output (1), its content container (2), the
workspaces "1" (3) and "2" (4) and one window (5) in the workspace "1"; the window is
focused and no criteria were given. -/
def workspaces_tree : State :=
  { all_cons :=
      [ { type := con_type_t.CT_ROOT, nodes_head := [1], name := "root" },
        { type := con_type_t.CT_OUTPUT, parent := some 0, nodes_head := [2], name := "LVDS1" },
        { parent := some 1, nodes_head := [3, 4], name := "content" },
        { type := con_type_t.CT_WORKSPACE, parent := some 2, nodes_head := [5], name := "1",
          num := 1 },
        { type := con_type_t.CT_WORKSPACE, parent := some 2, name := "2", num := 2 },
        { parent := some 3, percent := 1, name := "xterm",
          window := some { class_class := some "XTerm" } } ],
    croot := 0,
    focused := 5,
    owindows := [0, 1, 2, 3, 4, 5] }

/-- The environment of the examples for `workspaces_tree`: the content container of
an output is its first child, the workspace of a container is the container itself
or its parent, the names "1", "2" and "3" are numbers. -/
def workspaces_env : Env :=
  { example_env with
    con_get_workspace := fun s con =>
      if (getCon s.all_cons con).type = con_type_t.CT_WORKSPACE then con
      else (getCon s.all_cons con).parent.getD 0
    output_get_content := fun s output => (getCon s.all_cons output).nodes_head.headD 0
    ws_name_to_number := fun name =>
      if name = "1" then 1 else if name = "2" then 2 else if name = "3" then 3 else -1 }

/-- The state `workspaces_tree` with `workspace_auto_back_and_forth` switched on. -/
def workspaces_tree_auto : State := { workspaces_tree with workspace_auto_back_and_forth := true }

/-- The state `workspaces_tree` with the empty workspace "2" focused. -/
def empty_workspace_focused : State := { workspaces_tree with focused := 4 }

/-- The state `marked_leaves` after criteria `[class="XTerm"]` with both leaves in the
working set. -/
def two_matches : State :=
  { marked_leaves with current_match := { class_ := some "XTerm" }, owindows := [2, 3] }

/-- Two leaves with windows: A (container 2) is a Firefox window with the mark "m",
B (container 3) is an XTerm window without a mark.  The working set is the one left by
`cmd_criteria_init` and the criteria are the given ones. -/
def criteria_leaves (current_match : Match) : State :=
  { all_cons := [example_output, example_workspace,
      { example_leaf "A" (1 / 2) with
        mark := some "m", window := some { class_class := some "Firefox" } },
      { example_leaf "B" (1 / 2) with window := some { class_class := some "XTerm" } }],
    focused := 3,
    current_match := current_match,
    owindows := [0, 1, 2, 3] }

/-- A floating container (container 2) of 300 x 400 pixels at (100, 200) in the
workspace of the examples; it is focused. -/
def floating_tree : State :=
  { all_cons := [example_output, example_workspace,
      { example_leaf "F" 0 with rect := { x := 100, y := 200, width := 300, height := 400 } }],
    focused := 2,
    owindows := [0, 1, 2] }

/-- The workspace "1" as a horizontal split with the children 2, 3 and 4. -/
def example_workspace_three : Con := { example_workspace with nodes_head := [2, 3, 4] }

/-- Three tiled leaves A, B and C (containers 2, 3 and 4) with a third of the
workspace "1" each; B is focused and no criteria were given. -/
def three_leaves : State :=
  { all_cons := [example_output, example_workspace_three,
      example_leaf "A" (1 / 3), example_leaf "B" (1 / 3), example_leaf "C" (1 / 3)],
    focused := 3,
    owindows := [0, 1, 2, 3, 4] }

/-- The environment of the examples with container 3 in global fullscreen. -/
def example_env_fullscreen : Env :=
  { example_env with con_get_fullscreen_con := fun _ _ _ => some 3 }

/-- The state `two_leaves (1/2) (1/2)` after criteria `[class="xterm"]` that matched
no container. -/
def no_match_leaves : State :=
  { two_leaves_with (1 / 2) (1 / 2) [] with current_match := { class_ := some "xterm" } }

end I3

/-! ## The status line of i3bar (`i3bar/src/xcb.c`) -/

namespace I3bar

inductive blockalign_t
  | ALIGN_LEFT | ALIGN_CENTER | ALIGN_RIGHT
  deriving DecidableEq, Repr

/-- The members of `struct status_block` used by `refresh_statusline`. -/
structure status_block where
  full_text : String := ""
  short_text : Option String := none
  min_width : Nat := 0
  align : blockalign_t := blockalign_t.ALIGN_LEFT
  width : Nat := 0
  x_offset : Nat := 0
  x_append : Nat := 0
  border_left : Nat := 0
  border_right : Nat := 0
  sep_block_width : Nat := 0
  deriving DecidableEq, Repr

/-- Functions of libi3 used by the layout: the text width predicted by the font
backend and the dpi scaling of a pixel count. -/
structure BarEnv where
  predict_text_width : String → Int
  logical_px : Int → Int

/-- The globals of `xcb.c` that the status line layout reads and writes;
`statusline_pm_width` is the width with which the pixmap `statusline_pm` was created. -/
structure BarState where
  statusline_head : List status_block := []
  statusline_width : Nat := 0
  statusline_pm_width : Nat := 0
  root_screen_width_in_pixels : Nat := 0
  deriving DecidableEq, Repr

/-- The function `i3string_get_num_bytes` of libi3. -/
def i3string_get_num_bytes (t : String) : Nat := t.utf8ByteSize

/-- The statement `if (use_short_text && block->short_text != NULL)` with its body:
the full text is replaced by a copy of the short text. -/
def apply_short_text (use_short_text : Bool) (block : status_block) : status_block :=
  match use_short_text, block.short_text with
  | true, some t => { block with full_text := t }
  | _, _ => block

/-- The width given to a block: `predict_text_width(block->full_text)`, stored in the
`uint32_t` member, then increased by
`logical_px(2) + block->border_left + block->border_right`. -/
def padded_width (env : BarEnv) (block : status_block) : Nat :=
  I3.u32 (I3.u32 (env.predict_text_width block.full_text)
    + (env.logical_px 2 + block.border_left + block.border_right))

/-- The computation of `x_offset` and `x_append` for the text alignment in
`min_width`.  The subtraction `min_width - width` is only reached when
`min_width > width`, so it does not wrap. -/
def align_in_min_width (block : status_block) : status_block :=
  if block.min_width ≤ block.width then
    { block with x_offset := 0, x_append := 0 }
  else
    let padding_width := block.min_width - block.width
    match block.align with
    | blockalign_t.ALIGN_LEFT => { block with x_append := padding_width }
    | blockalign_t.ALIGN_RIGHT => { block with x_offset := padding_width }
    | blockalign_t.ALIGN_CENTER =>
      { block with x_offset := padding_width / 2,
                   x_append := padding_width / 2 + padding_width % 2 }

/-- The body of the first loop of `refresh_statusline` for one block, up to the
computation of `x_offset` and `x_append`; a block without text is skipped by
`continue`. -/
def refresh_block (env : BarEnv) (use_short_text : Bool) (block0 : status_block) :
    status_block :=
  let block := apply_short_text use_short_text block0
  if i3string_get_num_bytes block.full_text = 0 then block
  else align_in_min_width { block with width := padded_width env block }

/-- The first `TAILQ_FOREACH` of `refresh_statusline`: the blocks after the loop and
the value of `statusline_width`, starting from the value `w`. -/
def refresh_statusline_loop (env : BarEnv) (use_short_text : Bool) :
    List status_block → Nat → List status_block × Nat
  | [], w => ([], w)
  | block0 :: rest, w =>
    let block := refresh_block env use_short_text block0
    let w2 :=
      if i3string_get_num_bytes block.full_text = 0 then w
      else
        let w1 := if rest ≠ [] then I3.u32 (w + block.sep_block_width) else w
        I3.u32 (w1 + (block.width + block.x_offset + block.x_append))
    let r := refresh_statusline_loop env use_short_text rest w2
    (block :: r.1, r.2)

/-- The function `realloc_sl_buffer`: the new pixmap is created with the width
`MAX(root_screen->width_in_pixels, statusline_width)`, passed to
`xcb_create_pixmap_checked` as a `uint16_t`. -/
def realloc_sl_buffer (s : BarState) : BarState :=
  { s with statusline_pm_width :=
      (max s.root_screen_width_in_pixels s.statusline_width) % 2 ^ 16 }

/-- The layout part of `refresh_statusline` (the drawing requests that follow it are
not modelled). -/
def refresh_statusline (env : BarEnv) (s : BarState) (use_short_text : Bool) : BarState :=
  let old_statusline_width := s.statusline_width
  let r := refresh_statusline_loop env use_short_text s.statusline_head 0
  let s1 := { s with statusline_head := r.1, statusline_width := r.2 }
  if s1.statusline_width > s1.root_screen_width_in_pixels ∧
     s1.statusline_width > old_statusline_width then realloc_sl_buffer s1
  else s1

/-- The total of the claim about `statusline_width`: over the blocks with non-empty
text, width + x_offset + x_append, plus sep_block_width unless the block is the
last one of the list. -/
def statusline_total : List status_block → Nat
  | [] => 0
  | block :: rest =>
    (if i3string_get_num_bytes block.full_text = 0 then 0
     else block.width + block.x_offset + block.x_append
       + (if rest ≠ [] then block.sep_block_width else 0))
    + statusline_total rest

/-- A font backend for the worked examples: "foo" is 28 pixels wide, "barbaz" 48,
"q" 8, any other text ten pixels per character; no dpi scaling. -/
def example_bar_env : BarEnv where
  predict_text_width := fun t =>
    if t = "foo" then 28 else if t = "barbaz" then 48 else if t = "q" then 8
    else 10 * t.length
  logical_px := fun n => n

/-- The three blocks of the scenario: with the 2 px padding their widths are 30,
50 (min_width 80, centred) and 10; the separator width is 9. -/
def three_blocks : BarState :=
  { statusline_head :=
      [ { full_text := "foo", sep_block_width := 9 },
        { full_text := "barbaz", min_width := 80, align := blockalign_t.ALIGN_CENTER,
          sep_block_width := 9 },
        { full_text := "q", sep_block_width := 9 } ],
    statusline_pm_width := 1920,
    root_screen_width_in_pixels := 1920 }

/-- Three blocks that ask for a minimum width of 1500000000 pixels each. -/
def wide_blocks : BarState :=
  { statusline_head :=
      [ { full_text := "foo", min_width := 1500000000 },
        { full_text := "barbaz", min_width := 1500000000 },
        { full_text := "q", min_width := 1500000000 } ],
    statusline_pm_width := 1920,
    root_screen_width_in_pixels := 1920 }

/-! ## Outputs, tray clients and the visibility of the bars (`i3bar/src/xcb.c`)

The X server is on the other side of the connection: every request that the
functions below send is appended to the log `Bars.requests`, in program order, and
requests are taken to succeed (a failed checked request ends the program with
`exit(EXIT_FAILURE)`).  Drawing requests and the status line, which is modelled
above, are not part of this state. -/

/-- The constant `XCB_NONE`. -/
def XCB_NONE : Nat := 0

/-- The values of `config.hide_on_modifier`. -/
inductive bar_display_mode_t
  | M_DOCK | M_HIDE | M_INVISIBLE
  deriving DecidableEq, Repr

/-- The values of `config.hidden_state`. -/
inductive hidden_state_t
  | S_HIDE | S_SHOW
  deriving DecidableEq, Repr

/-- The values of `config.position`. -/
inductive position_t
  | POS_NONE | POS_TOP | POS_BOT
  deriving DecidableEq, Repr

/-- The members of `struct rect`, all `int`. -/
structure rect where
  x : Int := 0
  y : Int := 0
  w : Int := 0
  h : Int := 0
  deriving DecidableEq, Repr

/-- The members of `struct trayclient` used here. -/
structure trayclient where
  win : Nat
  mapped : Bool := false
  deriving DecidableEq, Repr

/-- The members of `struct i3_ws` used here; `canonical_name` is the C string, one
`Char` for each `char` before the terminating NUL. -/
structure i3_ws where
  canonical_name : List Char := []
  name_width : Int := 0
  visible : Bool := false
  focused : Bool := false
  urgent : Bool := false
  deriving DecidableEq, Repr

/-- The members of `struct i3_output` used here; `bar` is the window of the bar,
`XCB_NONE` when there is none, and `trayclients` is the tail queue from its head. -/
structure i3_output where
  name : String := ""
  active : Bool := false
  rect : rect := {}
  primary : Bool := false
  bar : Nat := XCB_NONE
  workspaces : List i3_ws := []
  trayclients : List trayclient := []
  deriving DecidableEq, Repr

/-- The members of `config` used here. -/
structure config_t where
  hide_on_modifier : bar_display_mode_t := bar_display_mode_t.M_DOCK
  hidden_state : hidden_state_t := hidden_state_t.S_HIDE
  position : position_t := position_t.POS_BOT
  modifier : Nat := 0
  disable_ws : Bool := false
  disable_binding_mode_indicator : Bool := false
  tray_padding : Int := 2
  tray_output : Option String := none
  deriving DecidableEq, Repr

/-- The rectangle sent in a synthetic ConfigureNotify: `xcb_rectangle_t`, whose `x`
and `y` are `int16_t` and whose `width` and `height` are `uint16_t`. -/
structure xcb_rectangle_t where
  x : Int
  y : Int
  width : Nat
  height : Nat
  deriving DecidableEq, Repr

/-- Requests sent to the X server, signals sent to the child process and messages
sent to i3. -/
inductive Request
  | map_window (window : Nat)
  | unmap_window (window : Nat)
  | destroy_window (window : Nat)
  | create_window (window : Nat)
  | set_window_x (window : Nat) (x : Nat)
  | configure_window (window : Nat) (x y width height : Nat)
  | fake_configure_notify (window : Nat) (r : xcb_rectangle_t) (border_width : Int)
  | stop_child
  | cont_child
  | i3_send_msg (command : List Char)
  deriving DecidableEq, Repr

/-- The globals of `xcb.c` around the outputs: `binding_name` is `binding.name`,
`next_id` is the next id that `xcb_generate_id` returns, and `tray_configured` is the
`static bool` of that name in `reconfig_windows`. -/
structure Bars where
  config : config_t := {}
  outputs : List i3_output := []
  icon_size : Int := 0
  bar_height : Int := 0
  mod_pressed : Int := 0
  activated_mode : Bool := false
  binding_name : Option String := none
  tray_configured : Bool := false
  next_id : Nat := 1
  requests : List Request := []
  deriving DecidableEq, Repr

/-- Send a request. -/
def Bars.send (s : Bars) (r : Request) : Bars := { s with requests := s.requests ++ [r] }

/-- The `TAILQ_FOREACH_REVERSE` of `configure_trayclients` over the tray clients of
one output, from the tail of the queue; `clients` is the counter. -/
def configure_trayclients_loop (env : BarEnv) (s : Bars) (output : i3_output) :
    List trayclient → Int → List Request → List Request
  | [], _, requests => requests
  | tc :: rest, clients, requests =>
    if ¬ tc.mapped then configure_trayclients_loop env s output rest clients requests
    else
      let clients := clients + 1
      let x := I3.u32
        (output.rect.w - clients * (s.icon_size + env.logical_px s.config.tray_padding))
      configure_trayclients_loop env s output rest clients
        (requests ++ [Request.set_window_x tc.win x])

/-- The function `configure_trayclients`. -/
def configure_trayclients (env : BarEnv) (s : Bars) : Bars :=
  s.outputs.foldl
    (fun s output =>
      if ¬ output.active then s
      else
        { s with requests :=
            configure_trayclients_loop env s output output.trayclients.reverse 0 s.requests })
    s

/-- The value `output->rect.w - (clients * (icon_size + logical_px(config.tray_padding)))`
of both tray loops, as the `int` that the expression has, for the counter value `k`. -/
def tray_x (env : BarEnv) (s : Bars) (output : i3_output) (k : Int) : Int :=
  output.rect.w - k * (s.icon_size + env.logical_px s.config.tray_padding)

/-- The requests of `configure_trayclients` for one output: the mapped clients from
the tail of the queue, the client number i (from 0) at `tray_x` of i + 1. -/
def tray_positions (env : BarEnv) (s : Bars) (output : i3_output) : List Request :=
  (output.trayclients.reverse.filter (fun tc => tc.mapped)).enum.map
    (fun p => Request.set_window_x p.2.win (I3.u32 (tray_x env s output ((p.1 : Int) + 1))))

/-- An output 1920 pixels wide with one mapped tray client, the window 7. -/
def tray_output : i3_output :=
  { name := "LVDS1", active := true, rect := { w := 1920, h := 1080 }, bar := 3,
    trayclients := [{ win := 7, mapped := true }] }

/-- Bars with icons of 20 pixels, a tray padding of 2 pixels and the output
`tray_output`. -/
def tray_bars : Bars :=
  { outputs := [tray_output], icon_size := 20, bar_height := 24 }

/-- A sequence of `refresh_statusline` calls; before each call the block list is the
one read from the child process last, so every call comes with its block list. -/
def refresh_calls (env : BarEnv) : BarState → List (List status_block × Bool) → BarState
  | s, [] => s
  | s, call :: rest =>
    refresh_calls env (refresh_statusline env { s with statusline_head := call.1 } call.2) rest

/-- The state left by `init_xcb_early` on a root screen of the given width: the
status line pixmap is as wide as the root screen and `statusline_width` is 0. -/
def initial_bar (width_in_pixels : Nat) : BarState :=
  { statusline_pm_width := width_in_pixels, root_screen_width_in_pixels := width_in_pixels }

/-- A block list whose status line is `w` pixels wide (for `w` of at least 10): one
block "q" with the minimum width `w`. -/
def wide_block (w : Nat) : List status_block := [{ full_text := "q", min_width := w }]

/-! ### Visibility of the bars -/

/-- The function `hide_bars`. -/
def hide_bars (s : Bars) : Bars :=
  if s.config.hide_on_modifier = bar_display_mode_t.M_DOCK ∨
      (s.config.hidden_state = hidden_state_t.S_SHOW ∧
        s.config.hide_on_modifier = bar_display_mode_t.M_HIDE) then s
  else
    let s1 := s.outputs.foldl
      (fun s walk => if ¬ walk.active then s else s.send (Request.unmap_window walk.bar))
      s
    s1.send Request.stop_child

/-- The body of the `SLIST_FOREACH` of `unhide_bars` for one output. -/
def unhide_bars_output (s : Bars) (walk : i3_output) : Bars :=
  if walk.bar = XCB_NONE then s
  else
    let y :=
      if s.config.position = position_t.POS_TOP then walk.rect.y
      else walk.rect.y + walk.rect.h - s.bar_height
    let s1 := s.send (Request.configure_window walk.bar (I3.u32 walk.rect.x) (I3.u32 y)
      (I3.u32 walk.rect.w) (I3.u32 s.bar_height))
    s1.send (Request.map_window walk.bar)

/-- The function `unhide_bars`. -/
def unhide_bars (s : Bars) : Bars :=
  if s.config.hide_on_modifier ≠ bar_display_mode_t.M_HIDE then s
  else
    let s1 := s.send Request.cont_child
    s1.outputs.foldl unhide_bars_output s1

/-- The function `set_current_mode`, for a mode with the given name (`NULL` for the
default mode). -/
def set_current_mode (s : Bars) (current_name : Option String) : Bars :=
  { s with binding_name := current_name, activated_mode := current_name.isSome }

/-- The handling of an `XCB_XKB_STATE_NOTIFY` event by `xcb_chk_cb`; `mods` is
`state->mods`. -/
def xcb_chk_cb_state_notify (s : Bars) (mods : Nat) : Bars :=
  let modstate : Int := ((mods &&& s.config.modifier : Nat) : Int)
  if modstate ≠ s.mod_pressed then
    let s1 :=
      if modstate = 0 then
        if ¬ s.activated_mode then hide_bars s else s
      else unhide_bars { s with activated_mode := false }
    { s1 with mod_pressed := modstate }
  else s

/-- The functions `kick_tray_clients` and `destroy_window` for the output number `i`:
the tray clients are unmapped and removed from the queue, the bar is destroyed.  (The
reparenting of the clients and the tray messages are left out.) -/
def destroy_window (s : Bars) (i : Nat) : Bars :=
  match s.outputs[i]? with
  | none => s
  | some output =>
    if output.bar = XCB_NONE then s
    else
      let s1 := output.trayclients.foldl (fun s tc => s.send (Request.unmap_window tc.win)) s
      let s2 := s1.send (Request.destroy_window output.bar)
      { s2 with outputs := s2.outputs.set i { output with bar := XCB_NONE, trayclients := [] } }

/-- The function `init_tray`, as far as windows and ids go: the selection window
`selwin` gets the next id of `xcb_generate_id` and is created; the atoms, the
selection and the client message are not modelled. -/
def init_tray (s : Bars) : Bars :=
  ({ s with next_id := s.next_id + 1 }).send (Request.create_window s.next_id)

/-- The tray part of the creation branch of `reconfig_windows`: on the first bar that
is created, and unless the tray output is "none", `init_tray` is called if one of the
outputs is the tray output, and `tray_configured` is set. -/
def reconfig_windows_tray (s : Bars) : Bars :=
  let tray_output := s.config.tray_output.getD ((s.outputs.head?.map (fun o => o.name)).getD "")
  if ¬ s.tray_configured ∧ ¬ I3.strcasecmp_eq tray_output "none" then
    let s1 :=
      if s.outputs.any (fun output => I3.strcasecmp_eq output.name tray_output ||
          (I3.strcasecmp_eq tray_output "primary" && output.primary)) then init_tray s
      else s
    { s1 with tray_configured := true }
  else s

/-- The body of the `SLIST_FOREACH` of `reconfig_windows` for the output number `i`:
window requests only; `xcb_generate_id` hands out `next_id`, to the bar, its buffer
and its graphics context in this order. -/
def reconfig_windows_output (redraw_bars : Bool) (s : Bars) (i : Nat) : Bars :=
  match s.outputs[i]? with
  | none => s
  | some walk =>
    if ¬ walk.active then destroy_window s i
    else if walk.bar = XCB_NONE then
      let bar := s.next_id
      let created := { walk with bar := bar }
      let s1 := { s with next_id := s.next_id + 3, outputs := s.outputs.set i created }
      let s2 := s1.send (Request.create_window bar)
      if s.config.hide_on_modifier = bar_display_mode_t.M_DOCK then
        reconfig_windows_tray (s2.send (Request.map_window bar))
      else reconfig_windows_tray s2
    else
      let y :=
        if s.config.position = position_t.POS_TOP then walk.rect.y
        else walk.rect.y + walk.rect.h - s.bar_height
      let s1 := s.send (Request.configure_window walk.bar (I3.u32 walk.rect.x) (I3.u32 y)
        (I3.u32 walk.rect.w) (I3.u32 s.bar_height))
      if redraw_bars then
        let s2 := s1.send (Request.unmap_window walk.bar)
        if s.config.hide_on_modifier = bar_display_mode_t.M_DOCK then
          (s2.send Request.cont_child).send (Request.map_window walk.bar)
        else s2.send Request.stop_child
      else s1

/-- The function `reconfig_windows`. -/
def reconfig_windows (s : Bars) (redraw_bars : Bool) : Bars :=
  (List.range s.outputs.length).foldl (reconfig_windows_output redraw_bars) s

/-- The value of `unhide` after the body of the loop of `draw_bars` for one active
output: an urgent workspace sets it when the workspace buttons are drawn, and so does
the binding mode indicator. -/
def draw_bars_unhide (s : Bars) (outputs_walk : i3_output) (unhide : Bool) : Bool :=
  let unhide1 :=
    if ¬ s.config.disable_ws then
      outputs_walk.workspaces.foldl (fun unhide ws_walk => if ws_walk.urgent then true else unhide)
        unhide
    else unhide
  if s.binding_name.isSome ∧ ¬ s.config.disable_binding_mode_indicator then true else unhide1

/-- The `SLIST_FOREACH` of `draw_bars` over the outputs, by their numbers. -/
def draw_bars_loop : Bars → List Nat → Bool → Bars × Bool
  | s, [], unhide => (s, unhide)
  | s, i :: rest, unhide =>
    match s.outputs[i]? with
    | none => draw_bars_loop s rest unhide
    | some outputs_walk =>
      if ¬ outputs_walk.active then draw_bars_loop s rest unhide
      else
        let s1 := if outputs_walk.bar = XCB_NONE then reconfig_windows s false else s
        draw_bars_loop s1 rest (draw_bars_unhide s1 outputs_walk unhide)

/-- The function `draw_bars`, without the drawing: the bars that are missing are
created, and the bars are mapped or unmapped at the end. -/
def draw_bars (s : Bars) (unhide : Bool) : Bars :=
  let r := draw_bars_loop s (List.range s.outputs.length) unhide
  if r.1.mod_pressed ≠ 0 ∨ r.1.config.hidden_state = hidden_state_t.S_SHOW ∨ r.2 = true then
    unhide_bars r.1
  else if r.1.config.hide_on_modifier = bar_display_mode_t.M_HIDE then hide_bars r.1
  else r.1

/-- Whether the window is mapped once the requests have been served: the last
map, unmap or destroy request for the window decides. -/
def window_mapped (requests : List Request) (window : Nat) : Bool :=
  requests.foldl
    (fun mapped request =>
      match request with
      | Request.map_window w => if w = window then true else mapped
      | Request.unmap_window w => if w = window then false else mapped
      | Request.destroy_window w => if w = window then false else mapped
      | _ => mapped)
    false

/-- The bars are Shown: the bar window of every output that has one is mapped. -/
def bars_shown (s : Bars) : Prop :=
  ∀ output ∈ s.outputs, output.bar ≠ XCB_NONE → window_mapped s.requests output.bar = true

/-- The bars are Hidden: the bar window of every active output is unmapped. -/
def bars_hidden (s : Bars) : Prop :=
  ∀ output ∈ s.outputs, output.active = true → window_mapped s.requests output.bar = false

/-- Events that reach the bar: a change of the modifier state, and a binding mode
set by i3 (`NULL` for the default mode). -/
inductive BarEvent
  | state_notify (mods : Nat)
  | mode (name : Option String)
  deriving DecidableEq, Repr

/-- The handling of a sequence of events by `xcb_chk_cb_state_notify` and
`set_current_mode`. -/
def handle_events : Bars → List BarEvent → Bars
  | s, [] => s
  | s, BarEvent.state_notify mods :: rest => handle_events (xcb_chk_cb_state_notify s mods) rest
  | s, BarEvent.mode name :: rest => handle_events (set_current_mode s name) rest

/-- Bars in Hide mode (hidden_state = hide, modifier Mod4 = 64) on one active output
with the bar window 3 and the workspace "1". -/
def hide_mode_bars : Bars :=
  { config := { hide_on_modifier := bar_display_mode_t.M_HIDE, modifier := 64 },
    outputs := [{ name := "LVDS1", active := true, rect := { w := 1920, h := 1080 }, bar := 3,
                  workspaces := [{ canonical_name := ['1'], visible := true, focused := true }] }],
    icon_size := 20, bar_height := 24, next_id := 4 }

/-- The bars `hide_mode_bars` with the workspace urgent and the workspace buttons
switched off (`workspace_buttons no`). -/
def urgent_without_buttons : Bars :=
  { hide_mode_bars with
    config := { hide_mode_bars.config with disable_ws := true },
    outputs := [{ name := "LVDS1", active := true, rect := { w := 1920, h := 1080 }, bar := 3,
                  workspaces := [{ canonical_name := ['1'], visible := true, focused := true,
                                   urgent := true }] }] }

/-- The two states agree on everything that the visibility decision of `draw_bars`
reads: the configuration, the binding mode, the modifier state, and for every output
whether it is active and its workspaces. -/
def same_layout (a b : Bars) : Prop :=
  a.config = b.config ∧ a.binding_name = b.binding_name ∧ a.mod_pressed = b.mod_pressed ∧
  a.outputs.map (fun o => (o.active, o.workspaces))
    = b.outputs.map (fun o => (o.active, o.workspaces))

/-! ### The workspace command of `handle_button` -/

/-- The character `'"'`. -/
def dquote : Char := Char.ofNat 34

/-- The character `'\\'`. -/
def backslash : Char := Char.ofNat 92

/-- The character `'\0'`. -/
def NUL : Char := Char.ofNat 0

/-- The C string `"workspace \""`. -/
def workspace_quote : List Char := "workspace ".toList ++ [dquote]

/-- The first `for` loop of the escaping in `handle_button`: `num_quotes` and
`namelen` after the walk over the name. -/
def count_quotes : List Char → Nat × Nat → Nat × Nat
  | [], r => r
  | c :: rest, r =>
    count_quotes rest
      ((if c = dquote ∨ c = backslash then r.1 + 1 else r.1), r.2 + 1)

/-- The assignment `buffer[pos] = c`; `none` when `pos` is outside the allocated
buffer. -/
def buffer_write (buffer : List Char) (pos : Nat) (c : Char) : Option (List Char) :=
  if pos < buffer.length then some (buffer.set pos c) else none

/-- The copy of the characters of a string to `buffer[pos]`, `buffer[pos + 1]`, ...
(`strncpy` with the length of the string: no NUL is appended). -/
def buffer_copy : List Char → Nat → List Char → Option (List Char)
  | buffer, _, [] => some buffer
  | buffer, pos, c :: rest => do
    let b ← buffer_write buffer pos c
    buffer_copy b (pos + 1) rest

/-- The second `for` loop of the escaping in `handle_button`, over the characters
`utf8_name[inpos]`: the buffer and `outpos` after the loop. -/
def escape_loop : List Char → List Char → Nat → Option (List Char × Nat)
  | [], buffer, outpos => some (buffer, outpos)
  | c :: rest, buffer, outpos =>
    if c = dquote ∨ c = backslash then do
      let b1 ← buffer_write buffer outpos backslash
      let b2 ← buffer_write b1 (outpos + 1) c
      escape_loop rest b2 (outpos + 1 + 1)
    else do
      let b ← buffer_write buffer outpos c
      escape_loop rest b (outpos + 1)

/-- The end of `handle_button`, from the canonical name of the chosen workspace on:
the buffer that is handed to `i3_send_msg`, or `none` if a write went outside the
buffer.  `scalloc` returns zeroed memory. -/
def handle_button_buffer (utf8_name : List Char) : Option (List Char) :=
  let counted := count_quotes utf8_name (0, 0)
  let num_quotes := counted.1
  let namelen := counted.2
  let len := namelen + (workspace_quote ++ [dquote]).length + 1
  let buffer := List.replicate (len + num_quotes) NUL
  do
    let b1 ← buffer_copy buffer 0 workspace_quote
    let r ← escape_loop utf8_name b1 workspace_quote.length
    buffer_write r.1 r.2 dquote

/-- The C string that starts a buffer: the characters before the first NUL. -/
def c_string (buffer : List Char) : List Char := buffer.takeWhile (fun c => c ≠ NUL)

/-- The name in which each double quote and each backslash is preceded by one
backslash. -/
def escape_name : List Char → List Char
  | [] => []
  | c :: rest =>
    if c = dquote ∨ c = backslash then backslash :: c :: escape_name rest
    else c :: escape_name rest

/-- The removal of the escaping backslashes: a backslash is dropped and the
character after it is kept. -/
def unescape_name : List Char → List Char
  | [] => []
  | [c] => if c = backslash then [] else [c]
  | c :: d :: rest =>
    if c = backslash then d :: unescape_name rest else c :: unescape_name (d :: rest)

/-- The number `q` of double quotes and backslashes of a name. -/
def count_special (name : List Char) : Nat :=
  name.countP (fun c => c = dquote ∨ c = backslash)

end I3bar

/-! ## Theorems -/

namespace I3

theorem getElem?_modifyCon (cons : List Con) (p : Nat) (f : Con → Con) (i : Nat) :
    (modifyCon cons p f)[i]? = (cons[i]?).map (fun c => if p = i then f c else c) := by
  simp [modifyCon, List.getElem?_modify]

theorem cmd_mark_single (env : Env) (s : State) (mark : String) (toggle : Option String)
    (T : Nat)
    (hT : env.match_is_empty s.current_match = true ∧ s.focused = T ∨
          env.match_is_empty s.current_match = false ∧ s.owindows = [T]) :
    (cmd_mark env s mark toggle).all_cons =
      (modifyCon (modifyCon s.all_cons T (fun c => { c with mark_changed := true })) T
        (cmd_mark_target mark toggle)).mapIdx (cmd_mark_clear T mark) := by
  rcases hT with ⟨h1, h2⟩ | ⟨h1, h2⟩
  · simp [cmd_mark, HANDLE_EMPTY_MATCH, h1, h2, State.ysuccess, State.set_needs_tree_render]
  · simp [cmd_mark, HANDLE_EMPTY_MATCH, h1, h2, State.ysuccess, State.set_needs_tree_render]

theorem cmd_mark_getElem? (env : Env) (s : State) (mark : String) (toggle : Option String)
    (T : Nat)
    (hT : env.match_is_empty s.current_match = true ∧ s.focused = T ∨
          env.match_is_empty s.current_match = false ∧ s.owindows = [T]) (i : Nat) :
    (cmd_mark env s mark toggle).all_cons[i]? =
      (s.all_cons[i]?).map (fun c =>
        if T = i then cmd_mark_target mark toggle { c with mark_changed := true }
        else cmd_mark_clear T mark i c) := by
  rw [cmd_mark_single env s mark toggle T hT]
  simp only [List.getElem?_mapIdx, getElem?_modifyCon, Option.map_map]
  congr 1
  funext c
  by_cases h : T = i <;> simp [h, cmd_mark_clear]

/-- C1: with a working set of exactly one container T, `cmd_mark m` leaves no
holder of m at all when toggle was given and T already held m, and otherwise
leaves T as the only holder of m; other marks on other containers are untouched,
so uniqueness of marks is preserved. -/
theorem cmd_mark_unique (env : Env) (s : State) (mark : String) (toggle : Option String)
    (T : Nat) (t : Con)
    (hT : env.match_is_empty s.current_match = true ∧ s.focused = T ∨
          env.match_is_empty s.current_match = false ∧ s.owindows = [T])
    (ht : s.all_cons[T]? = some t) :
    ((toggle.isSome ∧ t.mark = some mark) →
        ∀ (i : Nat) (c : Con), (cmd_mark env s mark toggle).all_cons[i]? = some c →
          c.mark ≠ some mark) ∧
    (¬ (toggle.isSome ∧ t.mark = some mark) →
        (∃ c, (cmd_mark env s mark toggle).all_cons[T]? = some c ∧ c.mark = some mark) ∧
        ∀ (i : Nat) (c : Con), i ≠ T → (cmd_mark env s mark toggle).all_cons[i]? = some c →
          c.mark ≠ some mark) ∧
    (∀ (i : Nat) (c : Con), i ≠ T → s.all_cons[i]? = some c → c.mark ≠ some mark →
        ∃ c2, (cmd_mark env s mark toggle).all_cons[i]? = some c2 ∧ c2.mark = c.mark) ∧
    (cmd_mark env s mark toggle).all_cons.length = s.all_cons.length ∧
    (marks_unique s.all_cons → marks_unique (cmd_mark env s mark toggle).all_cons) := by
  have key := cmd_mark_getElem? env s mark toggle T hT
  have others : ∀ (i : Nat) (c : Con), i ≠ T →
      (cmd_mark env s mark toggle).all_cons[i]? = some c →
      c.mark ≠ some mark ∧ ∃ c0, s.all_cons[i]? = some c0 ∧
        (c.mark = c0.mark ∨ c.mark = none) := by
    intro i c hi hc
    rw [key i] at hc
    cases h0 : s.all_cons[i]? with
    | none => simp [h0] at hc
    | some c0 =>
      simp only [h0, Option.map_some', Option.some.injEq, if_neg (Ne.symm hi)] at hc
      subst hc
      refine ⟨?_, c0, rfl, ?_⟩
      · by_cases hm : c0.mark = some mark <;> simp [cmd_mark_clear, Ne.symm hi, hm]
      · by_cases hm : c0.mark = some mark <;> simp [cmd_mark_clear, Ne.symm hi, hm]
  have target : ∃ c, (cmd_mark env s mark toggle).all_cons[T]? = some c ∧
      c.mark = (if toggle.isSome ∧ t.mark = some mark then none else some mark) := by
    refine ⟨cmd_mark_target mark toggle { t with mark_changed := true }, ?_, ?_⟩
    · rw [key T, ht]; simp only [Option.map_some', if_pos]
    · by_cases hc : toggle.isSome ∧ t.mark = some mark
      · simp [cmd_mark_target, hc]
      · rw [if_neg hc]
        simp only [cmd_mark_target]
        rw [if_neg hc]
  refine ⟨?_, ?_, ?_, ?_, ?_⟩
  · intro htog i c hc
    by_cases hi : i = T
    · subst hi
      obtain ⟨c1, h1, h2⟩ := target
      rw [h1] at hc
      cases hc
      rw [h2, if_pos htog]
      simp
    · exact (others i c hi hc).1
  · intro htog
    refine ⟨?_, fun i c hi hc => (others i c hi hc).1⟩
    obtain ⟨c1, h1, h2⟩ := target
    exact ⟨c1, h1, by rw [h2, if_neg htog]⟩
  · intro i c hi hc hm
    rw [key i, hc]
    refine ⟨_, rfl, ?_⟩
    simp [Ne.symm hi, cmd_mark_clear, hm]
  · have hlen : ∀ i : Nat, ((cmd_mark env s mark toggle).all_cons[i]?).isSome =
        (s.all_cons[i]?).isSome := by
      intro i; rw [key i]; simp
    by_contra hne
    rcases Nat.lt_or_gt_of_ne hne with h | h
    · have := hlen (cmd_mark env s mark toggle).all_cons.length
      rw [List.getElem?_eq_none (le_refl _), List.getElem?_eq_getElem h] at this
      simp at this
    · have := hlen s.all_cons.length
      rw [List.getElem?_eq_none (le_refl _), List.getElem?_eq_getElem h] at this
      simp at this
  · intro huniq i j ci cj x hij hci hcj hx
    by_cases hiT : i = T
    · subst hiT
      obtain ⟨c1, h1, h2⟩ := target
      rw [h1] at hci
      cases hci
      have hjT : j ≠ i := Ne.symm hij
      have hx2 : x = mark := by
        rw [h2] at hx
        by_cases hc : toggle.isSome ∧ t.mark = some mark
        · rw [if_pos hc] at hx; cases hx
        · rw [if_neg hc] at hx; cases hx; rfl
      subst hx2
      exact (others j cj hjT hcj).1
    · obtain ⟨hni, ci0, hci0, hor⟩ := others i ci hiT hci
      have hci_eq : ci0.mark = some x := by
        rcases hor with h | h
        · rw [← h]; exact hx
        · rw [h] at hx; cases hx
      by_cases hjT : j = T
      · subst hjT
        obtain ⟨c1, h1, h2⟩ := target
        rw [h1] at hcj
        cases hcj
        intro hcjx
        rw [h2] at hcjx
        by_cases hc : toggle.isSome ∧ t.mark = some mark
        · rw [if_pos hc] at hcjx; cases hcjx
        · rw [if_neg hc] at hcjx
          cases hcjx
          exact hni hx
      · obtain ⟨_, cj0, hcj0, hor2⟩ := others j cj hjT hcj
        intro hcjx
        have : cj0.mark = some x := by
          rcases hor2 with h | h
          · rw [← h]; exact hcjx
          · rw [h] at hcjx; cases hcjx
        exact huniq i j ci0 cj0 x hij hci0 hcj0 hci_eq this

/-! ### Heap and comparison lemmas -/

theorem modifyCon_eq_self (cons : List Con) (p : Nat) (f : Con → Con)
    (h : ∀ c, cons[p]? = some c → f c = c) : modifyCon cons p f = cons := by
  apply List.ext_getElem?
  intro i
  rw [getElem?_modifyCon]
  cases hc : cons[i]? with
  | none => rfl
  | some c =>
    by_cases hpi : p = i
    · subst hpi; simp [h c hc]
    · simp [hpi]

theorem getCon_of_getElem? {cons : List Con} {p : Nat} {c : Con} (h : cons[p]? = some c) :
    getCon cons p = c := by
  simp [getCon, List.getD_eq_getElem?_getD, h]

theorem getCon_modifyCon (cons : List Con) (p : Nat) (f : Con → Con) (i : Nat)
    (hi : i < cons.length) :
    getCon (modifyCon cons p f) i = if p = i then f (getCon cons i) else getCon cons i := by
  have h1 : cons[i]? = some cons[i] := List.getElem?_eq_getElem hi
  have h2 := getElem?_modifyCon cons p f i
  rw [h1] at h2
  rw [getCon_of_getElem? h2, getCon_of_getElem? h1]

theorem length_modifyCon (cons : List Con) (p : Nat) (f : Con → Con) :
    (modifyCon cons p f).length = cons.length := by
  simp [modifyCon]

theorem round_half_even_le {q : ℚ} {m : Int} (h : q ≤ m) : round_half_even q ≤ m := by
  have h1 : ((⌊q⌋ : Int) : ℚ) ≤ q := Int.floor_le q
  have hfm : ⌊q⌋ ≤ m := by
    have : ((⌊q⌋ : Int) : ℚ) ≤ m := le_trans h1 h
    exact_mod_cast this
  unfold round_half_even
  split_ifs with a b c
  · exact hfm
  · have : ((⌊q⌋ : Int) : ℚ) < m := by linarith
    have : ⌊q⌋ < m := by exact_mod_cast this
    omega
  · exact hfm
  · have : ((⌊q⌋ : Int) : ℚ) < m := by linarith
    have : ⌊q⌋ < m := by exact_mod_cast this
    omega

theorem round_half_even_ge {q : ℚ} {m : Int} (h : (m : ℚ) ≤ q) : m ≤ round_half_even q := by
  have hfm : m ≤ ⌊q⌋ := Int.le_floor.mpr h
  unfold round_half_even
  split_ifs <;> omega

theorem round_half_even_le_of_lt_half {q : ℚ} {m : Int} (h : q < m + 1 / 2) :
    round_half_even q ≤ m := by
  have h1 : ((⌊q⌋ : Int) : ℚ) ≤ q := Int.floor_le q
  have hfm : ⌊q⌋ ≤ m := by
    have : ((⌊q⌋ : Int) : ℚ) < ((m + 1 : Int) : ℚ) := by push_cast; linarith
    have : ⌊q⌋ < m + 1 := by exact_mod_cast this
    omega
  rcases lt_or_eq_of_le hfm with hlt | heq
  · unfold round_half_even
    split_ifs <;> omega
  · unfold round_half_even
    rw [if_pos (by rw [heq]; linarith), heq]

theorem round_half_even_ge_of_half_le {q : ℚ} {m : Int} (hodd : m % 2 = 1)
    (h : (m : ℚ) + 1 / 2 ≤ q) : m + 1 ≤ round_half_even q := by
  have h2 : q < ((⌊q⌋ : Int) : ℚ) + 1 := Int.lt_floor_add_one q
  have hfm : m ≤ ⌊q⌋ := Int.le_floor.mpr (by linarith)
  rcases lt_or_eq_of_le hfm with hlt | heq
  · unfold round_half_even
    split_ifs <;> omega
  · unfold round_half_even
    rw [if_neg (by rw [← heq]; linarith)]
    split_ifs <;> omega

theorem float_exponent_le {x : ℚ} {e : Int} (hx : 0 < x) (he : -126 ≤ e)
    (h : x < 2 ^ (e + 1)) : float_exponent x ≤ e := by
  unfold float_exponent
  rw [abs_of_pos hx]
  have h2 : Int.log 2 x < e + 1 :=
    (Int.lt_zpow_iff_log_lt (by norm_num) hx).mp (by simpa using h)
  exact max_le (by omega) he

theorem le_float_exponent {x : ℚ} {e : Int} (hx : 0 < x) (h : 2 ^ e ≤ x) :
    e ≤ float_exponent x := by
  unfold float_exponent
  rw [abs_of_pos hx]
  have h2 : e ≤ Int.log 2 x :=
    (Int.zpow_le_iff_le_log (by norm_num) hx).mp (by simpa using h)
  exact le_trans h2 (le_max_left _ _)

theorem float_exponent_ge (x : ℚ) : -126 ≤ float_exponent x := le_max_right _ _

/-- Rounding to `float` does not cross a value `c * 2 ^ k` of the grid of the argument. -/
theorem float_round_le_of_le {x : ℚ} {c k : Int} (hk : float_exponent x ≤ k + 23)
    (hx : x ≤ c * 2 ^ k) : float_round x ≤ c * 2 ^ k := by
  obtain ⟨n, hn⟩ := Int.eq_ofNat_of_zero_le (show 0 ≤ k - (float_exponent x - 23) by omega)
  have hk2 : k = (float_exponent x - 23) + n := by omega
  have hpos : (0 : ℚ) < 2 ^ (float_exponent x - 23) := by positivity
  have hgrid : (c : ℚ) * 2 ^ k = ((c * 2 ^ n : Int) : ℚ) * 2 ^ (float_exponent x - 23) := by
    rw [hk2, zpow_add₀ (by norm_num), zpow_natCast]
    push_cast
    ring
  unfold float_round
  rw [hgrid]
  apply mul_le_mul_of_nonneg_right _ hpos.le
  have : round_half_even (x / 2 ^ (float_exponent x - 23)) ≤ c * 2 ^ n := by
    apply round_half_even_le
    rw [div_le_iff₀ hpos, ← hgrid]
    exact hx
  exact_mod_cast this

theorem float_round_ge_of_ge {x : ℚ} {c k : Int} (hk : float_exponent x ≤ k + 23)
    (hx : (c : ℚ) * 2 ^ k ≤ x) : (c : ℚ) * 2 ^ k ≤ float_round x := by
  obtain ⟨n, hn⟩ := Int.eq_ofNat_of_zero_le (show 0 ≤ k - (float_exponent x - 23) by omega)
  have hk2 : k = (float_exponent x - 23) + n := by omega
  have hpos : (0 : ℚ) < 2 ^ (float_exponent x - 23) := by positivity
  have hgrid : (c : ℚ) * 2 ^ k = ((c * 2 ^ n : Int) : ℚ) * 2 ^ (float_exponent x - 23) := by
    rw [hk2, zpow_add₀ (by norm_num), zpow_natCast]
    push_cast
    ring
  unfold float_round
  rw [hgrid]
  apply mul_le_mul_of_nonneg_right _ hpos.le
  have : c * 2 ^ n ≤ round_half_even (x / 2 ^ (float_exponent x - 23)) := by
    apply round_half_even_ge
    rw [le_div_iff₀ hpos, ← hgrid]
    exact hx
  exact_mod_cast this

theorem round_half_even_ge_of_half_lt {q : ℚ} {m : Int} (h : (m : ℚ) - 1 / 2 < q) :
    m ≤ round_half_even q := by
  have h2 : q < ((⌊q⌋ : Int) : ℚ) + 1 := Int.lt_floor_add_one q
  have hfm : m - 1 ≤ ⌊q⌋ := Int.le_floor.mpr (by push_cast; linarith)
  rcases lt_or_eq_of_le hfm with hlt | heq
  · unfold round_half_even
    split_ifs <;> omega
  · have hf : ((⌊q⌋ : Int) : ℚ) = m - 1 := by rw [← heq]; push_cast; ring
    unfold round_half_even
    rw [if_neg (by rw [hf]; linarith), if_pos (by rw [hf]; linarith)]
    omega

theorem zpow_float_exponent_le {x : ℚ} (hx : 0 < x) (h : 2 ^ (-126 : Int) ≤ x) :
    2 ^ float_exponent x ≤ x := by
  have h2 : (-126 : Int) ≤ Int.log 2 x :=
    (Int.zpow_le_iff_le_log (by norm_num) hx).mp (by simpa using h)
  have h3 : float_exponent x = Int.log 2 x := by
    unfold float_exponent
    rw [abs_of_pos hx]
    exact max_eq_left h2
  rw [h3]
  simpa using Int.zpow_log_le_self (b := 2) (by norm_num) hx

theorem lt_zpow_float_exponent {x : ℚ} (hx : 0 < x) : x < 2 ^ (float_exponent x + 1) := by
  have h1 : x < 2 ^ (Int.log 2 x + 1) := by
    simpa using Int.lt_zpow_succ_log_self (b := 2) (by norm_num) x
  have h2 : Int.log 2 x + 1 ≤ float_exponent x + 1 := by
    unfold float_exponent
    rw [abs_of_pos hx]
    have := le_max_left (Int.log 2 x) (-126)
    omega
  exact lt_of_lt_of_le h1 (zpow_le_zpow_right₀ (by norm_num) h2)

theorem float_exponent_eq {x : ℚ} {e : Int} (hx : 0 < x) (he : -126 ≤ e) (h1 : 2 ^ e ≤ x)
    (h2 : x < 2 ^ (e + 1)) : float_exponent x = e :=
  le_antisymm (float_exponent_le hx he h2) (le_float_exponent hx h1)

theorem float_round_nonpos {x : ℚ} (hx : x ≤ 0) : float_round x ≤ 0 := by
  have h := float_round_le_of_le (x := x) (c := 0) (k := float_exponent x) (by omega)
    (by simpa using hx)
  simpa using h

theorem float_round_nonneg {x : ℚ} (hx : 0 ≤ x) : 0 ≤ float_round x := by
  have h := float_round_ge_of_ge (x := x) (c := 0) (k := float_exponent x) (by omega)
    (by simpa using hx)
  simpa using h

/-- Below the midpoint of 13421773/2^28 and its upper neighbour a value is rounded to
at most 13421773/2^28, the `float` value of 0.05. -/
theorem float_round_le_min_percent {x : ℚ} (h : x < 26843547 / 2 ^ 29) :
    float_round x ≤ 13421773 / 2 ^ 28 := by
  rcases le_or_lt x 0 with h0 | h0
  · exact le_trans (float_round_nonpos h0) (by norm_num)
  · have he : float_exponent x ≤ -5 :=
      float_exponent_le h0 (by norm_num) (lt_trans h (by norm_num))
    rcases le_or_lt x (13421773 / 2 ^ 28) with h1 | h1
    · have h2 := float_round_le_of_le (x := x) (c := 13421773) (k := -28) (by omega)
        (le_trans h1 (by norm_num))
      exact le_trans h2 (by norm_num)
    · have he2 : float_exponent x = -5 :=
        le_antisymm he (le_float_exponent h0 (le_trans (by norm_num) h1.le))
      unfold float_round
      rw [he2]
      have h3 : round_half_even (x / 2 ^ ((-5 : Int) - 23)) ≤ 13421773 := by
        apply round_half_even_le_of_lt_half
        rw [div_lt_iff₀ (by positivity)]
        refine lt_of_lt_of_le h (le_of_eq ?_)
        norm_num
      have h4 : ((round_half_even (x / 2 ^ ((-5 : Int) - 23)) : Int) : ℚ) ≤ 13421773 := by
        exact_mod_cast h3
      calc ((round_half_even (x / 2 ^ ((-5 : Int) - 23)) : Int) : ℚ) * 2 ^ ((-5 : Int) - 23)
          ≤ 13421773 * 2 ^ ((-5 : Int) - 23) :=
            mul_le_mul_of_nonneg_right h4 (by positivity)
        _ = 13421773 / 2 ^ 28 := by norm_num

/-- From that midpoint on a value is rounded to at least the upper neighbour. -/
theorem float_round_ge_above_min_percent {x : ℚ} (h : 26843547 / 2 ^ 29 ≤ x) :
    13421774 / 2 ^ 28 ≤ float_round x := by
  have h0 : 0 < x := lt_of_lt_of_le (by norm_num) h
  rcases lt_or_le x (2 ^ (-4 : Int)) with h1 | h1
  · have he2 : float_exponent x = -5 :=
      float_exponent_eq h0 (by norm_num) (le_trans (by norm_num) h) h1
    unfold float_round
    rw [he2]
    have h3 : (13421773 : Int) + 1 ≤ round_half_even (x / 2 ^ ((-5 : Int) - 23)) := by
      apply round_half_even_ge_of_half_le (by norm_num)
      rw [le_div_iff₀ (by positivity)]
      refine le_trans (le_of_eq ?_) h
      norm_num
    have h4 : (13421774 : ℚ) ≤ ((round_half_even (x / 2 ^ ((-5 : Int) - 23)) : Int) : ℚ) := by
      exact_mod_cast h3
    calc (13421774 : ℚ) / 2 ^ 28 = 13421774 * 2 ^ ((-5 : Int) - 23) := by norm_num
      _ ≤ _ := mul_le_mul_of_nonneg_right h4 (by positivity)
  · have h2 := zpow_float_exponent_le h0 (le_trans (by norm_num) h1)
    have h3 := float_round_ge_of_ge (x := x) (c := 1) (k := float_exponent x) (by omega)
      (by simpa using h2)
    have h4 : (-4 : Int) ≤ float_exponent x := le_float_exponent h0 h1
    have h5 : (2 : ℚ) ^ (-4 : Int) ≤ 2 ^ float_exponent x :=
      zpow_le_zpow_right₀ (by norm_num) h4
    calc (13421774 : ℚ) / 2 ^ 28 ≤ 2 ^ (-4 : Int) := by norm_num
      _ ≤ 2 ^ float_exponent x := h5
      _ ≤ float_round x := by simpa using h3

/-- Below `FLT_MAX` plus half a unit in the last place the rounded value is finite. -/
theorem float_round_lt_overflow {x : ℚ} (h0 : 0 < x) (h : x < 2 ^ 128 - 2 ^ 103) :
    float_round x < 2 ^ 128 := by
  rcases le_or_lt x (2 ^ 127) with h1 | h1
  · have he : float_exponent x ≤ 127 :=
      float_exponent_le h0 (by norm_num) (lt_of_le_of_lt h1 (by norm_num))
    have h2 := float_round_le_of_le (x := x) (c := 1) (k := 127) (by omega)
      (le_trans h1 (by norm_num))
    exact lt_of_le_of_lt h2 (by norm_num)
  · have he2 : float_exponent x = 127 :=
      float_exponent_eq h0 (by norm_num) (le_trans (by norm_num) h1.le)
        (lt_trans h (by norm_num))
    unfold float_round
    rw [he2]
    have h3 : round_half_even (x / 2 ^ ((127 : Int) - 23)) ≤ 16777215 := by
      apply round_half_even_le_of_lt_half
      rw [div_lt_iff₀ (by positivity)]
      refine lt_of_lt_of_le h (le_of_eq ?_)
      norm_num
    have h4 : ((round_half_even (x / 2 ^ ((127 : Int) - 23)) : Int) : ℚ) ≤ 16777215 := by
      exact_mod_cast h3
    calc ((round_half_even (x / 2 ^ ((127 : Int) - 23)) : Int) : ℚ) * 2 ^ ((127 : Int) - 23)
        ≤ 16777215 * 2 ^ ((127 : Int) - 23) :=
          mul_le_mul_of_nonneg_right h4 (by positivity)
      _ < 2 ^ 128 := by norm_num

/-- From `FLT_MAX` plus half a unit in the last place on the conversion overflows. -/
theorem float_round_ge_overflow {x : ℚ} (h : 2 ^ 128 - 2 ^ 103 ≤ x) :
    2 ^ 128 ≤ float_round x := by
  have h0 : 0 < x := lt_of_lt_of_le (by norm_num) h
  rcases lt_or_le x (2 ^ (128 : Int)) with h1 | h1
  · have he2 : float_exponent x = 127 :=
      float_exponent_eq h0 (by norm_num) (le_trans (by norm_num) h) h1
    unfold float_round
    rw [he2]
    have h3 : (16777215 : Int) + 1 ≤ round_half_even (x / 2 ^ ((127 : Int) - 23)) := by
      apply round_half_even_ge_of_half_le (by norm_num)
      rw [le_div_iff₀ (by positivity)]
      refine le_trans (le_of_eq ?_) h
      norm_num
    have h4 : (16777216 : ℚ) ≤ ((round_half_even (x / 2 ^ ((127 : Int) - 23)) : Int) : ℚ) := by
      exact_mod_cast h3
    calc (2 : ℚ) ^ 128 = 16777216 * 2 ^ ((127 : Int) - 23) := by norm_num
      _ ≤ _ := mul_le_mul_of_nonneg_right h4 (by positivity)
  · have h2 := zpow_float_exponent_le h0 (le_trans (by norm_num) h1)
    have h3 := float_round_ge_of_ge (x := x) (c := 1) (k := float_exponent x) (by omega)
      (by simpa using h2)
    have h4 : (128 : Int) ≤ float_exponent x := le_float_exponent h0 h1
    have h5 : (2 : ℚ) ^ (128 : Int) ≤ 2 ^ float_exponent x :=
      zpow_le_zpow_right₀ (by norm_num) h4
    calc (2 : ℚ) ^ 128 = 2 ^ (128 : Int) := by norm_num
      _ ≤ 2 ^ float_exponent x := h5
      _ ≤ float_round x := by simpa using h3

theorem float_round_eq {x : ℚ} (e m : Int) (hx : 0 < x) (he : -126 ≤ e) (h1 : 2 ^ e ≤ x)
    (h2 : x < 2 ^ (e + 1)) (h3 : (m : ℚ) - 1 / 2 < x / 2 ^ (e - 23))
    (h4 : x / 2 ^ (e - 23) < m + 1 / 2) : float_round x = m * 2 ^ (e - 23) := by
  unfold float_round
  rw [float_exponent_eq hx he h1 h2,
    le_antisymm (round_half_even_le_of_lt_half h4) (round_half_even_ge_of_half_lt h3)]

theorem double_to_float_min_percent :
    double_to_float (5 / 100) = fp_value.finite (13421773 / 2 ^ 28) := by
  have h : float_round (5 / 100) = 13421773 / 2 ^ 28 := by
    rw [float_round_eq (-5) 13421773 (by norm_num) (by norm_num) (by norm_num) (by norm_num)
      (by norm_num) (by norm_num)]
    norm_num
  unfold double_to_float
  rw [h, if_neg (by rw [abs_of_pos (by norm_num)]; norm_num)]

theorem double_to_float_DBL_EPSILON :
    double_to_float DBL_EPSILON = fp_value.finite (1 / 2 ^ 52) := by
  have h : float_round DBL_EPSILON = 1 / 2 ^ 52 := by
    unfold DBL_EPSILON
    rw [float_round_eq (-52) 8388608 (by norm_num) (by norm_num) (by norm_num) (by norm_num)
      (by norm_num) (by norm_num)]
    norm_num
  unfold double_to_float
  rw [h, if_neg (by rw [abs_of_pos (by norm_num)]; norm_num)]

/-- A difference that is not positive is not greater than a product that is not
negative. -/
theorem not_lt_double_to_float_of_nonpos {d p : ℚ} (hd : d ≤ 0) (hp : 0 ≤ p) :
    fp_value.lt (fp_value.finite p) (double_to_float d) = false := by
  unfold double_to_float
  split
  · rename_i hbig
    have hd0 : d < 0 := by
      rcases lt_or_eq_of_le hd with h | h
      · exact h
      · exfalso
        have h1 := float_round_nonpos hd
        have h2 := float_round_nonneg (le_of_eq h.symm)
        have h3 : float_round d = 0 := le_antisymm h1 h2
        rw [h3] at hbig
        norm_num at hbig
    simp [fp_value.lt, hd0]
  · have h1 := float_round_nonpos hd
    simp only [fp_value.lt, decide_eq_false_iff_not, not_lt]
    linarith

/-- A normal positive difference is rounded to more than its half. -/
theorem lt_double_to_float_of_pos {d p : ℚ} (hd : 2 ^ (-126 : Int) ≤ d) (hp : p ≤ d / 2) :
    fp_value.lt (fp_value.finite p) (double_to_float d) = true := by
  have hd0 : 0 < d := lt_of_lt_of_le (by positivity) hd
  unfold double_to_float
  split
  · simp [fp_value.lt, not_lt.mpr hd0.le]
  · have h2 := zpow_float_exponent_le hd0 hd
    have h3 := float_round_ge_of_ge (x := d) (c := 1) (k := float_exponent d) (by omega)
      (by simpa using h2)
    have h4 := lt_zpow_float_exponent hd0
    rw [zpow_add₀ (by norm_num), zpow_one] at h4
    simp only [fp_value.lt, decide_eq_true_eq]
    have h5 : (2 : ℚ) ^ float_exponent d ≤ float_round d := by simpa using h3
    linarith

theorem double_to_float_finite {x : ℚ} (h : |float_round x| < 2 ^ 128) :
    double_to_float x = fp_value.finite (float_round x) := by
  unfold double_to_float
  rw [if_neg (not_le.mpr h)]

theorem double_to_float_infinite {x : ℚ} (h : 2 ^ 128 ≤ |float_round x|) :
    double_to_float x = fp_value.infinite (decide (x < 0)) := by
  unfold double_to_float
  rw [if_pos h]

/-- The guard of the two resize functions: `definitelyGreaterThan(x, 0.05,
DBL_EPSILON)` holds exactly for the values x that are rounded to a finite `float`
above the `float` value 13421773/2^28 of 0.05. -/
theorem definitelyGreaterThan_iff (a : ℚ) :
    definitelyGreaterThan a (5 / 100) DBL_EPSILON = true ↔
      26843547 / 2 ^ 29 ≤ a ∧ a < 2 ^ 128 - 2 ^ 103 := by
  unfold definitelyGreaterThan
  simp only [double_to_float_min_percent, double_to_float_DBL_EPSILON]
  rcases lt_or_le a (26843547 / 2 ^ 29) with h1 | h1
  · have hr := float_round_le_min_percent h1
    have hfalse : ¬ (26843547 / 2 ^ 29 ≤ a ∧ a < 2 ^ 128 - 2 ^ 103) :=
      fun h => absurd h.1 (not_le.mpr h1)
    rw [iff_false_right hfalse, Bool.not_eq_true]
    rcases le_or_lt (2 ^ 128) |float_round a| with hbig | hbig
    · have ha0 : a < 0 := by
        by_contra hge
        have h2 := float_round_nonneg (not_lt.mp hge)
        rw [abs_of_nonneg h2] at hbig
        have : (13421773 : ℚ) / 2 ^ 28 < 2 ^ 128 := by norm_num
        linarith
      rw [double_to_float_infinite hbig]
      simp [fp_value.fabs, fp_value.lt, fp_value.mul, fp_value.sub, fp_value.to_float, ha0]
    · rw [double_to_float_finite hbig]
      simp only [fp_value.fabs, fp_value.sub, fp_value.to_float]
      have hq : ∀ v : ℚ, 0 ≤ v →
          fp_value.lt ((fp_value.finite v).mul (fp_value.finite (1 / 2 ^ 52)))
          (double_to_float (float_round a - 13421773 / 2 ^ 28)) = false := by
        intro v hv
        simp only [fp_value.mul]
        exact not_lt_double_to_float_of_nonpos (by linarith) (mul_nonneg hv (by norm_num))
      split
      · exact hq _ (abs_nonneg _)
      · exact hq _ (abs_nonneg _)
  · have h0 : 0 < a := lt_of_lt_of_le (by norm_num) h1
    have hr := float_round_ge_above_min_percent h1
    rcases lt_or_le a (2 ^ 128 - 2 ^ 103) with h2 | h2
    · have htrue : 26843547 / 2 ^ 29 ≤ a ∧ a < 2 ^ 128 - 2 ^ 103 := ⟨h1, h2⟩
      rw [iff_true_right htrue]
      have hfin := float_round_lt_overflow h0 h2
      have hpos : 0 < float_round a := lt_of_lt_of_le (by norm_num) hr
      rw [double_to_float_finite (by rw [abs_of_pos hpos]; exact hfin)]
      simp only [fp_value.fabs, fp_value.sub, fp_value.to_float]
      rw [abs_of_pos hpos, abs_of_pos (by norm_num : (0 : ℚ) < 13421773 / 2 ^ 28)]
      have hlt : fp_value.lt (fp_value.finite (float_round a))
          (fp_value.finite (13421773 / 2 ^ 28)) = false := by
        simp only [fp_value.lt, decide_eq_false_iff_not, not_lt]
        exact le_trans (by norm_num) hr
      rw [hlt]
      simp only [fp_value.mul, Bool.false_eq_true, if_false]
      apply lt_double_to_float_of_pos
      · have : (2 : ℚ) ^ (-126 : Int) ≤ 1 / 2 ^ 28 := by
          rw [zpow_neg, ← one_div]
          apply one_div_le_one_div_of_le (by positivity)
          norm_cast
        linarith
      · linarith
    · have hfalse : ¬ (26843547 / 2 ^ 29 ≤ a ∧ a < 2 ^ 128 - 2 ^ 103) :=
        fun h => absurd h.2 (not_lt.mpr h2)
      rw [iff_false_right hfalse, Bool.not_eq_true]
      have hbig := float_round_ge_overflow h2
      have hpos : 0 < float_round a := lt_of_lt_of_le (by norm_num) hbig
      rw [double_to_float_infinite (by rw [abs_of_pos hpos]; exact hbig)]
      simp [fp_value.fabs, fp_value.lt, fp_value.mul, fp_value.sub, fp_value.to_float,
        not_lt.mpr h0.le]

theorem definitelyGreaterThan_gt {a : ℚ} (h : definitelyGreaterThan a (5 / 100) DBL_EPSILON = true) :
    5 / 100 < a :=
  lt_of_lt_of_le (by norm_num) ((definitelyGreaterThan_iff a).mp h).1

theorem not_definitelyGreaterThan_of_le {a : ℚ} (h : a ≤ 5 / 100) :
    definitelyGreaterThan a (5 / 100) DBL_EPSILON = false := by
  cases hd : definitelyGreaterThan a (5 / 100) DBL_EPSILON with
  | false => rfl
  | true => exact absurd (definitelyGreaterThan_gt hd) (not_lt.mpr h)

/-! ### `cmd_resize_tiling_direction` -/

theorem cmd_resize_tiling_direction_eq (env : Env) (s : State) (current : Nat)
    (way direction : String) (ppt : Int) (first second p : Nat) (f pc : Con)
    (hfind : env.resize_find_tiling_participants s current (search_direction_of direction)
      = some (first, second))
    (hf : s.all_cons[first]? = some f) (hp : f.parent = some p)
    (hpc : s.all_cons[p]? = some pc) :
    cmd_resize_tiling_direction env s current way direction ppt =
      some (true, { s with all_cons := direction_result s.all_cons first second pc ppt }) := by
  unfold cmd_resize_tiling_direction
  simp only [hfind, hf, hp, hpc, Option.bind_eq_bind, Option.some_bind, direction_defaults,
    direction_result]
  split <;> rfl

theorem direction_defaults_eq_self (cons : List Con) (first second : Nat) (pc f g : Con)
    (hf : cons[first]? = some f) (hg : cons[second]? = some g)
    (hf0 : f.percent ≠ 0) (hg0 : g.percent ≠ 0) :
    direction_defaults cons first second pc = cons := by
  unfold direction_defaults
  have h1 : modifyCon cons first (default_percent (1 / ((con_num_children pc : Int) : ℚ))) = cons := by
    apply modifyCon_eq_self
    intro c hc
    rw [hf] at hc; cases hc
    simp [default_percent, hf0]
  rw [h1]
  apply modifyCon_eq_self
  intro c hc
  rw [hg] at hc; cases hc
  simp [default_percent, hg0]

theorem direction_result_not_definitely (cons : List Con) (first second : Nat) (pc f g : Con)
    (ppt : Int) (hf : cons[first]? = some f) (hg : cons[second]? = some g)
    (hf0 : f.percent ≠ 0) (hg0 : g.percent ≠ 0)
    (hmin : definitelyGreaterThan (f.percent + (ppt : ℚ) / 100) (5 / 100) DBL_EPSILON = false ∨
      definitelyGreaterThan (g.percent - (ppt : ℚ) / 100) (5 / 100) DBL_EPSILON = false) :
    direction_result cons first second pc ppt = cons := by
  unfold direction_result
  rw [direction_defaults_eq_self cons first second pc f g hf hg hf0 hg0,
    getCon_of_getElem? hf, getCon_of_getElem? hg]
  rcases hmin with h | h
  · rw [h]; simp
  · rw [h]; simp

theorem direction_result_refused (cons : List Con) (first second : Nat) (pc f g : Con)
    (ppt : Int) (hf : cons[first]? = some f) (hg : cons[second]? = some g)
    (hf0 : f.percent ≠ 0) (hg0 : g.percent ≠ 0)
    (hmin : f.percent + (ppt : ℚ) / 100 ≤ 5 / 100 ∨ g.percent - (ppt : ℚ) / 100 ≤ 5 / 100) :
    direction_result cons first second pc ppt = cons := by
  apply direction_result_not_definitely cons first second pc f g ppt hf hg hf0 hg0
  rcases hmin with h | h
  · exact Or.inl (not_definitelyGreaterThan_of_le h)
  · exact Or.inr (not_definitelyGreaterThan_of_le h)

theorem cmd_resize_single_direction (env : Env) (s : State) (way direction : String)
    (px ppt : Int) (T : Nat) (c : Con) (r : Bool × State)
    (hws : (HANDLE_EMPTY_MATCH env s).owindows = [T])
    (hc : s.all_cons[T]? = some c)
    (hdock : c.window.map (fun w => w.dock) ≠ some true)
    (hfloat : env.con_inside_floating (HANDLE_EMPTY_MATCH env s) T = none)
    (hdir : direction ≠ "width" ∧ direction ≠ "height")
    (hr : cmd_resize_tiling_direction env (HANDLE_EMPTY_MATCH env s) T way direction
      (if way == "shrink" then ppt * -1 else ppt) = some r) :
    cmd_resize env s way direction px ppt =
      some (if r.1 then r.2.set_needs_tree_render.ysuccess true else r.2) := by
  have hall : (HANDLE_EMPTY_MATCH env s).all_cons = s.all_cons := by
    unfold HANDLE_EMPTY_MATCH; split <;> rfl
  unfold cmd_resize
  simp only [hws, cmd_resize_loop, hall, hc, Option.bind_eq_bind, Option.some_bind, hfloat,
    if_neg hdock, hr]
  have hd : ¬ ((direction == "width") = true ∨ (direction == "height") = true) := by
    simp [hdir.1, hdir.2]
  rw [if_neg hd]
  cases hb : r.1 <;> simp [cmd_resize_loop]

theorem example_leaf_percent (name : String) (percent : ℚ) :
    (example_leaf name percent).percent = percent := rfl

theorem two_leaves_refused (ow : List Nat) :
    cmd_resize_tiling_direction example_env (two_leaves_with (1 / 2) (1 / 2) ow) 3
      "shrink" "left" (-50) = some (true, two_leaves_with (1 / 2) (1 / 2) ow) := by
  rw [cmd_resize_tiling_direction_eq example_env (two_leaves_with (1 / 2) (1 / 2) ow) 3
    "shrink" "left" (-50) 3 2 1 (example_leaf "B" (1 / 2)) example_workspace rfl rfl rfl rfl]
  rw [direction_result_refused _ 3 2 example_workspace (example_leaf "B" (1 / 2))
    (example_leaf "A" (1 / 2)) (-50) rfl rfl (by norm_num [example_leaf_percent])
    (by norm_num [example_leaf_percent]) (Or.inl (by norm_num [example_leaf_percent]))]

/-- C2, counterexample: with A(0.5) B(0.5) and B focused, `resize shrink left 10 px or
50 ppt` finds the participants first = B, second = A, and first.percent - 50/100 is
not greater than 0.05; yet `cmd_resize_tiling_direction` returns true and `cmd_resize`
replies success:true with needs_tree_render set.  And with B.percent = 0 the refused
resize still replaces the percentage of B by the default 1/2. -/
theorem cmd_resize_direction_refused_counterexample :
    example_env.resize_find_tiling_participants (two_leaves (1 / 2) (1 / 2)) 3
        (search_direction_of "left") = some (3, 2) ∧
    ((1 / 2 : ℚ) + ((-50 : Int) : ℚ) / 100 ≤ 5 / 100) ∧
    cmd_resize_tiling_direction example_env (two_leaves (1 / 2) (1 / 2)) 3 "shrink" "left" (-50)
      = some (true, two_leaves (1 / 2) (1 / 2)) ∧
    (cmd_resize example_env (two_leaves (1 / 2) (1 / 2)) "shrink" "left" 10 50).map
        (fun s => s.cmd_output)
      = some { json_gen := true, json := [Reply.success true], needs_tree_render := true } ∧
    (cmd_resize_tiling_direction example_env (two_leaves (1 / 2) 0) 3 "shrink" "left" (-50)).map
        (fun r => (getCon r.2.all_cons 3).percent) = some (1 / 2) := by
  refine ⟨rfl, by norm_num, two_leaves_refused _, ?_, ?_⟩
  · rw [cmd_resize_single_direction example_env (two_leaves (1 / 2) (1 / 2)) "shrink" "left"
      10 50 3 (example_leaf "B" (1 / 2)) (true, two_leaves_with (1 / 2) (1 / 2) [3]) rfl rfl
      (by simp [example_leaf]) rfl (by constructor <;> decide) (two_leaves_refused [3])]
    rfl
  · rw [cmd_resize_tiling_direction_eq example_env (two_leaves (1 / 2) 0) 3 "shrink" "left"
      (-50) 3 2 1 (example_leaf "B" 0) example_workspace rfl rfl rfl rfl]
    have hd : direction_defaults (two_leaves (1 / 2) 0).all_cons 3 2 example_workspace
        = (two_leaves (1 / 2) (1 / 2)).all_cons := by
      simp [direction_defaults, two_leaves, two_leaves_with, modifyCon, default_percent,
        con_num_children, List.modify, List.modifyHead, example_leaf, example_workspace]
    have hB : (getCon (two_leaves (1 / 2) (1 / 2)).all_cons 3).percent = 1 / 2 := rfl
    simp only [direction_result, hd, Option.map_some', hB]
    rw [not_definitelyGreaterThan_of_le (a := (1 / 2 : ℚ) + ((-50 : Int) : ℚ) / 100)
      (by norm_num)]
    simp only [Bool.false_eq_true, false_and, if_false]
    exact congrArg some hB

/-- C2, amended: when participants with non-zero percentages are found and
first.percent + ppt/100 or second.percent - ppt/100 is not greater than 0.05, the
direction resize changes no percentage: it returns with the containers exactly as
they were. -/
theorem cmd_resize_tiling_direction_refused (env : Env) (s : State) (current : Nat)
    (way direction : String) (ppt : Int) (first second p : Nat) (f g pc : Con)
    (hfind : env.resize_find_tiling_participants s current (search_direction_of direction)
      = some (first, second))
    (hf : s.all_cons[first]? = some f) (hg : s.all_cons[second]? = some g)
    (hp : f.parent = some p) (hpc : s.all_cons[p]? = some pc)
    (hf0 : f.percent ≠ 0) (hg0 : g.percent ≠ 0)
    (hmin : f.percent + (ppt : ℚ) / 100 ≤ 5 / 100 ∨ g.percent - (ppt : ℚ) / 100 ≤ 5 / 100) :
    (cmd_resize_tiling_direction env s current way direction ppt).map (fun r => r.2.all_cons)
      = some s.all_cons := by
  rw [cmd_resize_tiling_direction_eq env s current way direction ppt first second p f pc
    hfind hf hp hpc, direction_result_refused s.all_cons first second pc f g ppt hf hg hf0 hg0 hmin]
  rfl

theorem cmd_resize_tiling_direction_refused_witness :
    (cmd_resize_tiling_direction example_env (two_leaves (1 / 2) (1 / 2)) 3 "grow" "left" 50).map
      (fun r => r.2.all_cons) = some (two_leaves (1 / 2) (1 / 2)).all_cons :=
  cmd_resize_tiling_direction_refused example_env (two_leaves (1 / 2) (1 / 2)) 3 "grow" "left" 50
    3 2 1 (example_leaf "B" (1 / 2)) (example_leaf "A" (1 / 2)) example_workspace
    rfl rfl rfl rfl rfl (by norm_num [example_leaf_percent])
    (by norm_num [example_leaf_percent]) (Or.inr (by norm_num [example_leaf_percent]))

/-! ### `cmd_resize_tiling_width_height` -/

theorem State.ysuccess_all_cons (s : State) (b : Bool) : (s.ysuccess b).all_cons = s.all_cons := rfl

theorem State.ysuccess_calls (s : State) (b : Bool) : (s.ysuccess b).calls = s.calls := rfl

theorem State.ysuccess_needs_tree_render (s : State) (b : Bool) :
    (s.ysuccess b).cmd_output.needs_tree_render = s.cmd_output.needs_tree_render := by
  unfold State.ysuccess I3.ysuccess
  split <;> rfl

theorem State.ysuccess_json (s : State) (b : Bool) (h : s.cmd_output.json_gen = true) :
    (s.ysuccess b).cmd_output.json = s.cmd_output.json ++ [Reply.success b] := by
  unfold State.ysuccess I3.ysuccess
  simp [h]

theorem foldl_default_percent_eq_self (q : ℚ) (l : List Nat) (cons : List Con)
    (h : ∀ child ∈ l, ∃ cc, cons[child]? = some cc ∧ cc.percent ≠ 0) :
    l.foldl (fun cons child => modifyCon cons child (default_percent q)) cons = cons := by
  induction l with
  | nil => rfl
  | cons a l ih =>
    rw [List.foldl_cons]
    have ha : modifyCon cons a (default_percent q) = cons := by
      apply modifyCon_eq_self
      intro c hc
      obtain ⟨cc, hcc, hne⟩ := h a (List.mem_cons_self a l)
      rw [hcc] at hc; cases hc
      simp [default_percent, hne]
    rw [ha]
    exact ih (fun child hchild => h child (List.mem_cons_of_mem a hchild))

theorem width_height_defaults_eq_self (cons : List Con) (pc : Con)
    (h : ∀ child ∈ pc.nodes_head, ∃ cc, cons[child]? = some cc ∧ cc.percent ≠ 0) :
    width_height_defaults cons pc = cons :=
  foldl_default_percent_eq_self _ pc.nodes_head cons h

theorem cmd_resize_tiling_width_height_eq (env : Env) (s : State) (current0 : Nat)
    (way direction : String) (ppt : Int) (current1 current p : Nat) (c pc : Con)
    (h1 : skip_stacked_tabbed s.all_cons (s.all_cons.length + 1) current0 = some current1)
    (h2 : find_search_orientation env s.all_cons
      (if direction == "width" then orientation_t.HORIZ else orientation_t.VERT)
      (s.all_cons.length + 1) current1 = some current)
    (hc : s.all_cons[current]? = some c) (hp : c.parent = some p)
    (hpc : s.all_cons[p]? = some pc) :
    cmd_resize_tiling_width_height env s current0 way direction ppt =
      some (cmd_resize_tiling_width_height_at env s current pc direction ppt) := by
  unfold cmd_resize_tiling_width_height
  simp only [h1, h2, hc, hp, hpc, Option.bind_eq_bind, Option.some_bind]

/-- For a container whose parent is neither stacked nor tabbed and has the orientation
searched for, both climbs of `cmd_resize_tiling_width_height` end at once on the
container itself. -/
theorem climbs_end_at_split_child (env : Env) (cons : List Con) (current p fuel : Nat)
    (c pc : Con) (search_orientation : orientation_t)
    (hc : cons[current]? = some c) (hp : c.parent = some p) (hpc : cons[p]? = some pc)
    (hlayout : pc.layout ≠ layout_t.L_STACKED ∧ pc.layout ≠ layout_t.L_TABBED)
    (horient : env.con_orientation pc = search_orientation) :
    skip_stacked_tabbed cons (fuel + 1) current = some current ∧
    find_search_orientation env cons search_orientation (fuel + 1) current = some current := by
  constructor
  · simp [skip_stacked_tabbed, hc, hp, hpc, hlayout.1, hlayout.2]
  · by_cases ht : c.type ≠ con_type_t.CT_WORKSPACE ∧ c.type ≠ con_type_t.CT_FLOATING_CON
    · simp [find_search_orientation, hc, hp, hpc, horient, ht.1, ht.2]
    · simp only [find_search_orientation, hc, Option.bind_eq_bind, Option.some_bind]
      rw [if_neg ht]

theorem subtract_percent_eq (pc : Con) (ppt : Int) :
    subtract_percent pc ppt = ((ppt : ℚ) / 100) / ((pc.nodes_head.length : ℚ) - 1) := by
  unfold subtract_percent con_num_children
  push_cast
  rfl

theorem width_height_orientation_ok (env : Env) (pc : Con) (direction : String)
    (hdir : direction = "width" ∨ direction = "height")
    (horient : env.con_orientation pc =
      if direction == "width" then orientation_t.HORIZ else orientation_t.VERT) :
    ¬ ((env.con_orientation pc = orientation_t.HORIZ ∧ (direction == "height") = true) ∨
       (env.con_orientation pc = orientation_t.VERT ∧ (direction == "width") = true)) := by
  rcases hdir with h | h <;> subst h <;> simp [horient]

/-- C3: a `resize ... width|height` whose search ends on a container `current` with a
parent of n >= 2 children, all with non-zero percentages, and of the requested
orientation, is refused when current.percent + ppt/100 or some
sibling.percent - (ppt/100)/(n-1) is not greater than 0.05: the function returns false,
a success:false reply is written, needs_tree_render keeps its value and no container
changes; `cmd_resize` then stops with exactly that state. -/
theorem cmd_resize_tiling_width_height_refused (env : Env) (s : State) (current0 : Nat)
    (way direction : String) (ppt : Int) (current1 current p : Nat) (c pc : Con)
    (hdir : direction = "width" ∨ direction = "height")
    (h1 : skip_stacked_tabbed s.all_cons (s.all_cons.length + 1) current0 = some current1)
    (h2 : find_search_orientation env s.all_cons
      (if direction == "width" then orientation_t.HORIZ else orientation_t.VERT)
      (s.all_cons.length + 1) current1 = some current)
    (hc : s.all_cons[current]? = some c) (hp : c.parent = some p)
    (hpc : s.all_cons[p]? = some pc)
    (hn : 2 ≤ pc.nodes_head.length)
    (hnz : ∀ child ∈ pc.nodes_head, ∃ cc, s.all_cons[child]? = some cc ∧ cc.percent ≠ 0)
    (horient : env.con_orientation pc =
      if direction == "width" then orientation_t.HORIZ else orientation_t.VERT)
    (hmin : c.percent + (ppt : ℚ) / 100 ≤ 5 / 100 ∨
      ∃ sibling ∈ pc.nodes_head, sibling ≠ current ∧
        (getCon s.all_cons sibling).percent
          - ((ppt : ℚ) / 100) / ((pc.nodes_head.length : ℚ) - 1) ≤ 5 / 100) :
    cmd_resize_tiling_width_height env s current0 way direction ppt
        = some (false, s.ysuccess false) ∧
    (s.ysuccess false).all_cons = s.all_cons ∧
    (s.ysuccess false).cmd_output.needs_tree_render = s.cmd_output.needs_tree_render ∧
    (s.cmd_output.json_gen = true →
      (s.ysuccess false).cmd_output.json = s.cmd_output.json ++ [Reply.success false]) ∧
    (∀ (s0 : State) (tc : Con) (px resize_ppt : Int),
      HANDLE_EMPTY_MATCH env s0 = s → s.owindows = [current0] →
      s.all_cons[current0]? = some tc → tc.window.map (fun w => w.dock) ≠ some true →
      env.con_inside_floating s current0 = none →
      ppt = (if way == "shrink" then resize_ppt * -1 else resize_ppt) →
      cmd_resize env s0 way direction px resize_ppt = some (s.ysuccess false)) := by
  have hfun : cmd_resize_tiling_width_height env s current0 way direction ppt
      = some (false, s.ysuccess false) := by
    rw [cmd_resize_tiling_width_height_eq env s current0 way direction ppt current1 current p
      c pc h1 h2 hc hp hpc]
    unfold cmd_resize_tiling_width_height_at
    simp only []
    rw [if_neg (width_height_orientation_ok env pc direction hdir horient)]
    have hch : ¬ (con_num_children pc = 1) := by
      unfold con_num_children
      omega
    rw [if_neg hch, width_height_defaults_eq_self s.all_cons pc hnz]
    split
    · rfl
    · rename_i hany
      rcases hmin with h | ⟨sibling, hmem, hne, hle⟩
      · rw [getCon_of_getElem? hc, not_definitelyGreaterThan_of_le h]
        simp
      · exfalso
        apply hany
        rw [List.any_eq_true]
        refine ⟨sibling, hmem, ?_⟩
        rw [subtract_percent_eq, not_definitelyGreaterThan_of_le hle]
        simp [hne]
  refine ⟨hfun, rfl, State.ysuccess_needs_tree_render s false, State.ysuccess_json s false, ?_⟩
  intro s0 tc px resize_ppt hs how htc hdock hfloat hppt
  unfold cmd_resize
  simp only [hs, how]
  simp only [cmd_resize_loop, htc, Option.bind_eq_bind, Option.some_bind, if_neg hdock, hfloat]
  have hd : ((direction == "width") = true ∨ (direction == "height") = true) := by
    rcases hdir with h | h <;> subst h <;> simp
  rw [if_pos hd, ← hppt, hfun]
  simp

/-! ### Sums of percentages -/

theorem getCon_modifyCon_ne (cons : List Con) (p : Nat) (f : Con → Con) (i : Nat) (h : p ≠ i) :
    getCon (modifyCon cons p f) i = getCon cons i := by
  have h2 := getElem?_modifyCon cons p f i
  unfold getCon
  rw [List.getD_eq_getElem?_getD, List.getD_eq_getElem?_getD, h2]
  cases cons[i]? with
  | none => rfl
  | some c => simp [h]

theorem getCon_modifyCon_self (cons : List Con) (p : Nat) (f : Con → Con)
    (h : p < cons.length) : getCon (modifyCon cons p f) p = f (getCon cons p) := by
  rw [getCon_modifyCon cons p f p h, if_pos rfl]

theorem sum_map_congr_mem (l : List Nat) (F G : Nat → ℚ) (h : ∀ x ∈ l, G x = F x) :
    (l.map G).sum = (l.map F).sum := by
  rw [List.map_congr_left h]

theorem sum_map_update (l : List Nat) (hnd : l.Nodup) (a : Nat) (ha : a ∈ l) (F G : Nat → ℚ)
    (δ : ℚ) (hGa : G a = F a + δ) (hG : ∀ x ∈ l, x ≠ a → G x = F x) :
    (l.map G).sum = (l.map F).sum + δ := by
  induction l with
  | nil => simp at ha
  | cons b l ih =>
    rw [List.nodup_cons] at hnd
    simp only [List.map_cons, List.sum_cons]
    by_cases hba : b = a
    · subst hba
      have hrest : (l.map G).sum = (l.map F).sum := by
        apply sum_map_congr_mem
        intro x hx
        apply hG x (List.mem_cons_of_mem _ hx)
        intro hxb; subst hxb; exact hnd.1 hx
      rw [hGa, hrest]; ring
    · have hal : a ∈ l := by
        rcases List.mem_cons.mp ha with h | h
        · exact absurd h.symm hba
        · exact h
      rw [ih hnd.2 hal (fun x hx hxa => hG x (List.mem_cons_of_mem _ hx) hxa),
        hG b (List.mem_cons_self _ _) hba]
      ring

theorem sum_map_spread (l : List Nat) (hnd : l.Nodup) (a : Nat) (ha : a ∈ l) (F G : Nat → ℚ)
    (d sub : ℚ) (hGa : G a = F a + d) (hG : ∀ x ∈ l, x ≠ a → G x = F x - sub) :
    (l.map G).sum = (l.map F).sum + d - ((l.length : ℚ) - 1) * sub := by
  induction l with
  | nil => simp at ha
  | cons b l ih =>
    rw [List.nodup_cons] at hnd
    simp only [List.map_cons, List.sum_cons, List.length_cons]
    by_cases hba : b = a
    · subst hba
      have hrest : ∀ (l2 : List Nat), (∀ x ∈ l2, x ∈ l) →
          (l2.map G).sum = (l2.map F).sum - (l2.length : ℚ) * sub := by
        intro l2
        induction l2 with
        | nil => intro _; simp
        | cons y l2 ih2 =>
          intro hsub
          have hy : y ∈ l := hsub y (List.mem_cons_self _ _)
          have hyb : y ≠ b := by intro h; subst h; exact hnd.1 hy
          simp only [List.map_cons, List.sum_cons, List.length_cons]
          rw [ih2 (fun x hx => hsub x (List.mem_cons_of_mem _ hx)),
            hG y (List.mem_cons_of_mem _ hy) hyb]
          push_cast; ring
      rw [hGa, hrest l (fun x hx => hx)]
      push_cast; ring
    · have hal : a ∈ l := by
        rcases List.mem_cons.mp ha with h | h
        · exact absurd h.symm hba
        · exact h
      rw [ih hnd.2 hal (fun x hx hxa => hG x (List.mem_cons_of_mem _ hx) hxa),
        hG b (List.mem_cons_self _ _) hba]
      push_cast; ring

theorem getCon_foldl_skip (f : Con → Con) (current : Nat) (l : List Nat) (hnd : l.Nodup)
    (cons : List Con) (hvalid : ∀ x ∈ l, x < cons.length) (i : Nat) :
    getCon (l.foldl (fun cons child =>
        if child = current then cons else modifyCon cons child f) cons) i
      = if i ∈ l ∧ i ≠ current then f (getCon cons i) else getCon cons i := by
  induction l generalizing cons with
  | nil => simp
  | cons a l ih =>
    rw [List.nodup_cons] at hnd
    rw [List.foldl_cons]
    have hlen : (if a = current then cons else modifyCon cons a f).length = cons.length := by
      split
      · rfl
      · exact length_modifyCon _ _ _
    rw [ih hnd.2 _ (fun x hx => by rw [hlen]; exact hvalid x (List.mem_cons_of_mem _ hx))]
    by_cases hia : i = a
    · subst hia
      have hnotin : ¬ (i ∈ l ∧ i ≠ current) := fun h => hnd.1 h.1
      rw [if_neg hnotin]
      by_cases hic : i = current
      · simp [hic]
      · rw [if_neg hic, getCon_modifyCon_self _ _ _ (hvalid i (List.mem_cons_self _ _))]
        simp [hic]
    · have hmem : (i ∈ a :: l) ↔ i ∈ l := by simp [hia]
      have hget : getCon (if a = current then cons else modifyCon cons a f) i = getCon cons i := by
        split
        · rfl
        · exact getCon_modifyCon_ne _ _ _ _ (Ne.symm hia)
      rw [hget]
      simp only [hmem]

theorem lt_length_of_getElem? {cons : List Con} {p : Nat} {c : Con} (h : cons[p]? = some c) :
    p < cons.length := by
  by_contra hlt
  rw [List.getElem?_eq_none (not_lt.mp hlt)] at h
  cases h

theorem direction_result_applied (cons : List Con) (first second : Nat) (pc f g : Con)
    (ppt : Int) (hf : cons[first]? = some f) (hg : cons[second]? = some g)
    (hf0 : f.percent ≠ 0) (hg0 : g.percent ≠ 0)
    (hok : definitelyGreaterThan (f.percent + (ppt : ℚ) / 100) (5 / 100) DBL_EPSILON = true ∧
      definitelyGreaterThan (g.percent - (ppt : ℚ) / 100) (5 / 100) DBL_EPSILON = true) :
    direction_result cons first second pc ppt =
      modifyCon (modifyCon cons first (add_percent ((ppt : ℚ) / 100))) second
        (add_percent (-((ppt : ℚ) / 100))) := by
  unfold direction_result
  rw [direction_defaults_eq_self cons first second pc f g hf hg hf0 hg0,
    getCon_of_getElem? hf, getCon_of_getElem? hg, if_pos hok]

theorem direction_applied_percents (cons : List Con) (first second : Nat) (f g : Con) (d : ℚ)
    (hf : cons[first]? = some f) (hg : cons[second]? = some g) (hne : first ≠ second) :
    (getCon (modifyCon (modifyCon cons first (add_percent d)) second (add_percent (-d)))
        first).percent = f.percent + d ∧
    (getCon (modifyCon (modifyCon cons first (add_percent d)) second (add_percent (-d)))
        second).percent = g.percent - d := by
  have hfl := lt_length_of_getElem? hf
  have hgl := lt_length_of_getElem? hg
  constructor
  · rw [getCon_modifyCon_ne _ _ _ _ (Ne.symm hne), getCon_modifyCon_self _ _ _ hfl,
      getCon_of_getElem? hf]
    rfl
  · rw [getCon_modifyCon_self _ _ _ (by rw [length_modifyCon]; exact hgl),
      getCon_modifyCon_ne _ _ _ _ hne, getCon_of_getElem? hg]
    simp only [add_percent]
    ring

theorem direction_applied_sum (cons : List Con) (first second : Nat) (f g : Con) (d : ℚ)
    (l : List Nat) (hf : cons[first]? = some f) (hg : cons[second]? = some g)
    (hnd : l.Nodup) (hfm : first ∈ l) (hgm : second ∈ l) :
    percent_sum (modifyCon (modifyCon cons first (add_percent d)) second (add_percent (-d))) l
      = percent_sum cons l := by
  have hfl := lt_length_of_getElem? hf
  have hgl := lt_length_of_getElem? hg
  unfold percent_sum
  rw [sum_map_update l hnd second hgm
      (fun p => (getCon (modifyCon cons first (add_percent d)) p).percent) _ (-d)
      (by
        show (getCon (modifyCon (modifyCon cons first (add_percent d)) second
          (add_percent (-d))) second).percent = _
        rw [getCon_modifyCon_self _ _ _ (by rw [length_modifyCon]; exact hgl)]
        rfl)
      (by
        intro x _ hx
        show (getCon (modifyCon (modifyCon cons first (add_percent d)) second
          (add_percent (-d))) x).percent = _
        rw [getCon_modifyCon_ne _ _ _ _ (Ne.symm hx)]),
    sum_map_update l hnd first hfm (fun p => (getCon cons p).percent) _ d
      (by
        show (getCon (modifyCon cons first (add_percent d)) first).percent = _
        rw [getCon_modifyCon_self _ _ _ hfl]
        rfl)
      (by
        intro x _ hx
        show (getCon (modifyCon cons first (add_percent d)) x).percent = _
        rw [getCon_modifyCon_ne _ _ _ _ (Ne.symm hx)])]
  ring

theorem width_height_at_success (env : Env) (s s2 : State) (current : Nat) (c pc : Con)
    (direction : String) (ppt : Int)
    (hc : s.all_cons[current]? = some c)
    (hnz : ∀ child ∈ pc.nodes_head, ∃ cc, s.all_cons[child]? = some cc ∧ cc.percent ≠ 0)
    (hnd : pc.nodes_head.Nodup) (hmem : current ∈ pc.nodes_head)
    (hres : cmd_resize_tiling_width_height_at env s current pc direction ppt = (true, s2)) :
    (getCon s2.all_cons current).percent = c.percent + (ppt : ℚ) / 100 ∧
    (∀ child ∈ pc.nodes_head, child ≠ current →
      (getCon s2.all_cons child).percent = (getCon s.all_cons child).percent
        - ((ppt : ℚ) / 100) / ((pc.nodes_head.length : ℚ) - 1)) ∧
    percent_sum s2.all_cons pc.nodes_head = percent_sum s.all_cons pc.nodes_head ∧
    (∀ child ∈ pc.nodes_head, 5 / 100 < (getCon s2.all_cons child).percent) := by
  unfold cmd_resize_tiling_width_height_at at hres
  simp only [] at hres
  split at hres
  · simp at hres
  split at hres
  · simp at hres
  rename_i hch
  rw [width_height_defaults_eq_self s.all_cons pc hnz] at hres
  split at hres
  · simp at hres
  rename_i hany
  split at hres
  · simp at hres
  rename_i hgt
  simp only [Prod.mk.injEq, true_and] at hres
  subst hres
  have hcl := lt_length_of_getElem? hc
  have hvalid : ∀ x ∈ pc.nodes_head,
      x < (modifyCon s.all_cons current (add_percent ((ppt : ℚ) / 100))).length := by
    intro x hx
    obtain ⟨cc, hcc, _⟩ := hnz x hx
    rw [length_modifyCon]
    exact lt_length_of_getElem? hcc
  have hget : ∀ i, getCon (width_height_subtract
      (modifyCon s.all_cons current (add_percent ((ppt : ℚ) / 100))) pc current ppt) i
      = if i ∈ pc.nodes_head ∧ i ≠ current then
          add_percent (-subtract_percent pc ppt)
            (getCon (modifyCon s.all_cons current (add_percent ((ppt : ℚ) / 100))) i)
        else getCon (modifyCon s.all_cons current (add_percent ((ppt : ℚ) / 100))) i := by
    intro i
    exact getCon_foldl_skip _ current pc.nodes_head hnd _ hvalid i
  have hcur : (getCon (width_height_subtract
      (modifyCon s.all_cons current (add_percent ((ppt : ℚ) / 100))) pc current ppt)
      current).percent = c.percent + (ppt : ℚ) / 100 := by
    rw [hget current, if_neg (fun h => h.2 rfl), getCon_modifyCon_self _ _ _ hcl,
      getCon_of_getElem? hc]
    rfl
  have hoth : ∀ child ∈ pc.nodes_head, child ≠ current →
      (getCon (width_height_subtract
        (modifyCon s.all_cons current (add_percent ((ppt : ℚ) / 100))) pc current ppt)
        child).percent = (getCon s.all_cons child).percent - subtract_percent pc ppt := by
    intro child hchild hne
    rw [hget child, if_pos ⟨hchild, hne⟩, getCon_modifyCon_ne _ _ _ _ (Ne.symm hne)]
    simp only [add_percent]
    ring
  have hn1 : ((pc.nodes_head.length : ℚ) - 1) ≠ 0 := by
    intro h0
    apply hch
    unfold con_num_children
    have : (pc.nodes_head.length : ℚ) = 1 := by linarith
    exact_mod_cast this
  refine ⟨hcur, ?_, ?_, ?_⟩
  · intro child hchild hne
    rw [hoth child hchild hne, subtract_percent_eq]
  · unfold percent_sum
    rw [sum_map_spread pc.nodes_head hnd current hmem
      (fun p => (getCon s.all_cons p).percent) _ ((ppt : ℚ) / 100) (subtract_percent pc ppt)
      (by show _ = (getCon s.all_cons current).percent + _
          rw [getCon_of_getElem? hc]; exact hcur)
      (fun x hx hxc => hoth x hx hxc)]
    rw [subtract_percent_eq]
    field_simp
    ring
  · intro child hchild
    by_cases hcc : child = current
    · subst hcc
      rw [hcur]
      have h3 : definitelyGreaterThan ((getCon s.all_cons child).percent + (ppt : ℚ) / 100)
          (5 / 100) DBL_EPSILON = true := by
        simpa using hgt
      rw [getCon_of_getElem? hc] at h3
      exact definitelyGreaterThan_gt h3
    · rw [hoth child hchild hcc]
      have h4 : definitelyGreaterThan
          ((getCon s.all_cons child).percent - subtract_percent pc ppt)
          (5 / 100) DBL_EPSILON = true := by
        by_contra hneg
        apply hany
        rw [List.any_eq_true]
        exact ⟨child, hchild, by simp [hcc, hneg]⟩
      exact definitelyGreaterThan_gt h4

theorem width_height_at_applied (env : Env) (s : State) (current : Nat) (c pc : Con)
    (direction : String) (ppt : Int)
    (hdir : direction = "width" ∨ direction = "height")
    (horient : env.con_orientation pc =
      if direction == "width" then orientation_t.HORIZ else orientation_t.VERT)
    (hn : 2 ≤ pc.nodes_head.length)
    (hnz : ∀ child ∈ pc.nodes_head, ∃ cc, s.all_cons[child]? = some cc ∧ cc.percent ≠ 0)
    (hc : s.all_cons[current]? = some c)
    (hcur : definitelyGreaterThan (c.percent + (ppt : ℚ) / 100) (5 / 100) DBL_EPSILON = true)
    (hoth : ∀ child ∈ pc.nodes_head, child ≠ current →
      definitelyGreaterThan ((getCon s.all_cons child).percent
        - ((ppt : ℚ) / 100) / ((pc.nodes_head.length : ℚ) - 1)) (5 / 100) DBL_EPSILON = true) :
    ∃ s2, cmd_resize_tiling_width_height_at env s current pc direction ppt = (true, s2) := by
  unfold cmd_resize_tiling_width_height_at
  simp only []
  rw [if_neg (width_height_orientation_ok env pc direction hdir horient)]
  have hch : ¬ (con_num_children pc = 1) := by
    unfold con_num_children
    omega
  rw [if_neg hch, width_height_defaults_eq_self s.all_cons pc hnz]
  have hany : ¬ (pc.nodes_head.any (fun child => decide (child ≠ current ∧
      ¬ definitelyGreaterThan ((getCon s.all_cons child).percent - subtract_percent pc ppt)
          (5 / 100) DBL_EPSILON = true)) = true) := by
    rw [List.any_eq_true]
    rintro ⟨child, hmem, h⟩
    rw [decide_eq_true_iff, subtract_percent_eq] at h
    exact h.2 (hoth child hmem h.1)
  rw [if_neg hany, getCon_of_getElem? hc, if_neg (by simpa using hcur)]
  exact ⟨_, rfl⟩

/-- C4: every tiling resize preserves the sum of the percentages of the children of
the affected split container (children with non-zero percentages, exact arithmetic).
The direction variant, when applied, moves first by +d and second by -d; the
width/height variant, when it succeeds, moves the target by +d and each of the other
n-1 children by -d/(n-1), with d = ppt/100, and leaves every child above 0.05. -/
theorem tiling_resize_preserves_percent_sum (env : Env) (s : State) :
    (∀ (current : Nat) (way direction : String) (ppt : Int) (first second p : Nat)
        (f g pc : Con) (r : Bool × State),
      env.resize_find_tiling_participants s current (search_direction_of direction)
        = some (first, second) →
      s.all_cons[first]? = some f → s.all_cons[second]? = some g →
      f.parent = some p → s.all_cons[p]? = some pc →
      first ≠ second → pc.nodes_head.Nodup → first ∈ pc.nodes_head → second ∈ pc.nodes_head →
      f.percent ≠ 0 → g.percent ≠ 0 →
      cmd_resize_tiling_direction env s current way direction ppt = some r →
        percent_sum r.2.all_cons pc.nodes_head = percent_sum s.all_cons pc.nodes_head ∧
        (definitelyGreaterThan (f.percent + (ppt : ℚ) / 100) (5 / 100) DBL_EPSILON = true ∧
         definitelyGreaterThan (g.percent - (ppt : ℚ) / 100) (5 / 100) DBL_EPSILON = true →
          (getCon r.2.all_cons first).percent = f.percent + (ppt : ℚ) / 100 ∧
          (getCon r.2.all_cons second).percent = g.percent - (ppt : ℚ) / 100)) ∧
    (∀ (current0 : Nat) (way direction : String) (ppt : Int) (current1 current p : Nat)
        (c pc : Con) (s2 : State),
      skip_stacked_tabbed s.all_cons (s.all_cons.length + 1) current0 = some current1 →
      find_search_orientation env s.all_cons
        (if direction == "width" then orientation_t.HORIZ else orientation_t.VERT)
        (s.all_cons.length + 1) current1 = some current →
      s.all_cons[current]? = some c → c.parent = some p → s.all_cons[p]? = some pc →
      (∀ child ∈ pc.nodes_head, ∃ cc, s.all_cons[child]? = some cc ∧ cc.percent ≠ 0) →
      pc.nodes_head.Nodup → current ∈ pc.nodes_head →
      cmd_resize_tiling_width_height env s current0 way direction ppt = some (true, s2) →
        (getCon s2.all_cons current).percent = c.percent + (ppt : ℚ) / 100 ∧
        (∀ child ∈ pc.nodes_head, child ≠ current →
          (getCon s2.all_cons child).percent = (getCon s.all_cons child).percent
            - ((ppt : ℚ) / 100) / ((pc.nodes_head.length : ℚ) - 1)) ∧
        percent_sum s2.all_cons pc.nodes_head = percent_sum s.all_cons pc.nodes_head ∧
        (∀ child ∈ pc.nodes_head, 5 / 100 < (getCon s2.all_cons child).percent)) := by
  constructor
  · intro current way direction ppt first second p f g pc r hfind hf hg hp hpc hne hnd hfm hgm
      hf0 hg0 hr
    rw [cmd_resize_tiling_direction_eq env s current way direction ppt first second p f pc
      hfind hf hp hpc] at hr
    cases hr
    simp only []
    by_cases hok :
        definitelyGreaterThan (f.percent + (ppt : ℚ) / 100) (5 / 100) DBL_EPSILON = true ∧
        definitelyGreaterThan (g.percent - (ppt : ℚ) / 100) (5 / 100) DBL_EPSILON = true
    · rw [direction_result_applied s.all_cons first second pc f g ppt hf hg hf0 hg0 hok]
      exact ⟨direction_applied_sum s.all_cons first second f g _ pc.nodes_head hf hg hnd hfm hgm,
        fun _ => direction_applied_percents s.all_cons first second f g _ hf hg hne⟩
    · rw [direction_result_not_definitely s.all_cons first second pc f g ppt hf hg hf0 hg0
        (by
          by_cases h1 : definitelyGreaterThan (f.percent + (ppt : ℚ) / 100) (5 / 100)
              DBL_EPSILON = true
          · right
            by_contra h2
            exact hok ⟨h1, by simpa using h2⟩
          · left; simpa using h1)]
      exact ⟨rfl, fun h => absurd h hok⟩
  · intro current0 way direction ppt current1 current p c pc s2 h1 h2 hc hp hpc hnz hnd hmem hr
    rw [cmd_resize_tiling_width_height_eq env s current0 way direction ppt current1 current p
      c pc h1 h2 hc hp hpc] at hr
    exact width_height_at_success env s s2 current c pc direction ppt hc hnz hnd hmem
      (Option.some.inj hr)

theorem cmd_mark_unique_witness :
    (∃ c, (cmd_mark example_env marked_leaves "m" none).all_cons[3]? = some c ∧
      c.mark = some "m") ∧
    ∀ (i : Nat) (c : Con), i ≠ 3 →
      (cmd_mark example_env marked_leaves "m" none).all_cons[i]? = some c → c.mark ≠ some "m" :=
  (cmd_mark_unique example_env marked_leaves "m" none 3 (example_leaf "B" (1 / 2))
    (Or.inl ⟨rfl, rfl⟩) rfl).2.1 (by simp)

theorem cmd_resize_tiling_width_height_refused_witness :
    cmd_resize_tiling_width_height example_env (two_leaves (1 / 2) (1 / 2)) 3 "shrink" "width" (-50)
      = some (false, (two_leaves (1 / 2) (1 / 2)).ysuccess false) :=
  (cmd_resize_tiling_width_height_refused example_env (two_leaves (1 / 2) (1 / 2)) 3
    "shrink" "width" (-50) 3 3 1 (example_leaf "B" (1 / 2)) example_workspace
    (Or.inl rfl) rfl rfl rfl rfl rfl (by decide)
    (by
      intro child hchild
      have h : child = 2 ∨ child = 3 := by simpa [example_workspace] using hchild
      rcases h with h | h
      · subst h; exact ⟨example_leaf "A" (1 / 2), rfl, by norm_num [example_leaf_percent]⟩
      · subst h; exact ⟨example_leaf "B" (1 / 2), rfl, by norm_num [example_leaf_percent]⟩)
    rfl (Or.inl (by norm_num [example_leaf_percent]))).1

theorem tiling_resize_preserves_percent_sum_witness :
    (percent_sum (direction_result (two_leaves (1 / 2) (1 / 2)).all_cons 3 2 example_workspace 10)
        [2, 3]
      = percent_sum (two_leaves (1 / 2) (1 / 2)).all_cons [2, 3] ∧
     (getCon (direction_result (two_leaves (1 / 2) (1 / 2)).all_cons 3 2 example_workspace 10)
        3).percent = 3 / 5 ∧
     (getCon (direction_result (two_leaves (1 / 2) (1 / 2)).all_cons 3 2 example_workspace 10)
        2).percent = 2 / 5) ∧
    (∃ s2, cmd_resize_tiling_width_height example_env three_leaves 3 "grow" "width" 10
        = some (true, s2) ∧
      (getCon s2.all_cons 2).percent = 17 / 60 ∧
      (getCon s2.all_cons 3).percent = 13 / 30 ∧
      (getCon s2.all_cons 4).percent = 17 / 60 ∧
      percent_sum s2.all_cons [2, 3, 4] = percent_sum three_leaves.all_cons [2, 3, 4] ∧
      ∀ child ∈ [2, 3, 4], 5 / 100 < (getCon s2.all_cons child).percent) := by
  constructor
  · have h := (tiling_resize_preserves_percent_sum example_env (two_leaves (1 / 2) (1 / 2))).1
      3 "grow" "left" 10 3 2 1 (example_leaf "B" (1 / 2)) (example_leaf "A" (1 / 2))
      example_workspace
      (true, { two_leaves (1 / 2) (1 / 2) with
        all_cons := direction_result (two_leaves (1 / 2) (1 / 2)).all_cons 3 2 example_workspace 10 })
      rfl rfl rfl rfl rfl (by decide) (by decide) (by decide) (by decide)
      (by norm_num [example_leaf_percent]) (by norm_num [example_leaf_percent])
      (cmd_resize_tiling_direction_eq example_env (two_leaves (1 / 2) (1 / 2)) 3 "grow" "left" 10
        3 2 1 (example_leaf "B" (1 / 2)) example_workspace rfl rfl rfl rfl)
    have h2 := h.2 ⟨by rw [definitelyGreaterThan_iff]; norm_num [example_leaf_percent],
      by rw [definitelyGreaterThan_iff]; norm_num [example_leaf_percent]⟩
    refine ⟨h.1, ?_, ?_⟩
    · rw [h2.1, example_leaf_percent]; norm_num
    · rw [h2.2, example_leaf_percent]; norm_num
  · have hnz : ∀ child ∈ example_workspace_three.nodes_head,
        ∃ cc, three_leaves.all_cons[child]? = some cc ∧ cc.percent ≠ 0 := by
      intro child hchild
      have h : child = 2 ∨ child = 3 ∨ child = 4 := by
        simpa [example_workspace_three] using hchild
      rcases h with h | h | h
      · subst h; exact ⟨example_leaf "A" (1 / 3), rfl, by norm_num [example_leaf_percent]⟩
      · subst h; exact ⟨example_leaf "B" (1 / 3), rfl, by norm_num [example_leaf_percent]⟩
      · subst h; exact ⟨example_leaf "C" (1 / 3), rfl, by norm_num [example_leaf_percent]⟩
    have hget : ∀ child ∈ example_workspace_three.nodes_head,
        (getCon three_leaves.all_cons child).percent = 1 / 3 := by
      intro child hchild
      have h : child = 2 ∨ child = 3 ∨ child = 4 := by
        simpa [example_workspace_three] using hchild
      rcases h with h | h | h <;> subst h <;> rfl
    have hlen : ((example_workspace_three.nodes_head.length : Nat) : ℚ) = 3 := by
      norm_num [example_workspace_three]
    obtain ⟨s2, hs2⟩ := width_height_at_applied example_env three_leaves 3
      (example_leaf "B" (1 / 3)) example_workspace_three "width" 10 (Or.inl rfl) rfl
      (by decide) hnz rfl
      (by rw [definitelyGreaterThan_iff]; norm_num [example_leaf_percent])
      (by
        intro child hchild _
        rw [definitelyGreaterThan_iff, hget child hchild, hlen]
        norm_num)
    have hr : cmd_resize_tiling_width_height example_env three_leaves 3 "grow" "width" 10
        = some (true, s2) := by
      rw [cmd_resize_tiling_width_height_eq example_env three_leaves 3 "grow" "width" 10 3 3 1
        (example_leaf "B" (1 / 3)) example_workspace_three rfl rfl rfl rfl rfl, hs2]
    have h := (tiling_resize_preserves_percent_sum example_env three_leaves).2
      3 "grow" "width" 10 3 3 1 (example_leaf "B" (1 / 3)) example_workspace_three s2
      rfl rfl rfl rfl rfl hnz (by decide) (by decide) hr
    refine ⟨s2, hr, ?_, ?_, ?_, h.2.2.1, h.2.2.2⟩
    · rw [h.2.1 2 (by decide) (by decide), hget 2 (by decide), hlen]; norm_num
    · rw [h.1, example_leaf_percent]; norm_num
    · rw [h.2.1 4 (by decide) (by decide), hget 4 (by decide), hlen]; norm_num

/-! ### `resize grow|shrink <direction>` when it is applied -/

theorem resize_direction_applied_state_eq (env : Env) (s0 : State) (way direction : String)
    (px p : Int) (d : ℚ) (T first second par : Nat) (tc f g pc : Con)
    (hws : (HANDLE_EMPTY_MATCH env s0).owindows = [T])
    (htc : s0.all_cons[T]? = some tc)
    (hdock : tc.window.map (fun w => w.dock) ≠ some true)
    (hfloat : env.con_inside_floating (HANDLE_EMPTY_MATCH env s0) T = none)
    (hdir : direction ≠ "width" ∧ direction ≠ "height")
    (hfind : env.resize_find_tiling_participants (HANDLE_EMPTY_MATCH env s0) T
      (search_direction_of direction) = some (first, second))
    (hf : s0.all_cons[first]? = some f) (hg : s0.all_cons[second]? = some g)
    (hp : f.parent = some par) (hpc : s0.all_cons[par]? = some pc)
    (hf0 : f.percent ≠ 0) (hg0 : g.percent ≠ 0)
    (hd : d = if way == "shrink" then -((p : ℚ) / 100) else (p : ℚ) / 100)
    (hok : definitelyGreaterThan (f.percent + d) (5 / 100) DBL_EPSILON = true ∧
      definitelyGreaterThan (g.percent - d) (5 / 100) DBL_EPSILON = true) :
    cmd_resize env s0 way direction px p
      = some (direction_applied_state env s0 first second d) := by
  have hall : (HANDLE_EMPTY_MATCH env s0).all_cons = s0.all_cons := by
    unfold HANDLE_EMPTY_MATCH; split <;> rfl
  have hd2 : d = (((if way == "shrink" then p * -1 else p : Int) : ℚ) / 100) := by
    rw [hd]
    split
    · push_cast; ring
    · rfl
  have hr := cmd_resize_tiling_direction_eq env (HANDLE_EMPTY_MATCH env s0) T way direction
    (if way == "shrink" then p * -1 else p) first second par f pc hfind
    (by rw [hall]; exact hf) hp (by rw [hall]; exact hpc)
  rw [hall, direction_result_applied s0.all_cons first second pc f g _ hf hg hf0 hg0
    (by rw [← hd2]; exact hok), ← hd2] at hr
  rw [cmd_resize_single_direction env s0 way direction px p T tc _ hws htc hdock hfloat hdir hr]
  rfl

/-- C5, counterexample: with A.percent = 644245099/2^32 (about 0.15000000107) and
B.percent = 3650722197/2^32 (the rest to 1), both of them values of the type `double`,
and B focused, `resize grow left 10 px or 10 ppt` finds first = B, second = A, and both
results B.percent + 10/100 and A.percent - 10/100 are greater than 0.05; yet the
percentages are left as they are: A.percent - 10/100 is about 0.05000000107, and
converted to the `float` parameter of `definitelyGreaterThan` it is 13421773/2^28, the
very value that 0.05 is converted to.  `cmd_resize` ends with the percentages of A and
B unchanged and needs_tree_render set. -/
theorem cmd_resize_direction_margin_counterexample :
    example_env.resize_find_tiling_participants
        (two_leaves (644245099 / 2 ^ 32) (3650722197 / 2 ^ 32)) 3
        (search_direction_of "left") = some (3, 2) ∧
    (5 / 100 < (3650722197 / 2 ^ 32 : ℚ) + ((10 : Int) : ℚ) / 100) ∧
    (5 / 100 < (644245099 / 2 ^ 32 : ℚ) - ((10 : Int) : ℚ) / 100) ∧
    double_to_float ((644245099 / 2 ^ 32 : ℚ) - ((10 : Int) : ℚ) / 100)
      = double_to_float (5 / 100) ∧
    cmd_resize_tiling_direction example_env
        (two_leaves (644245099 / 2 ^ 32) (3650722197 / 2 ^ 32)) 3 "grow" "left" 10
      = some (true, two_leaves (644245099 / 2 ^ 32) (3650722197 / 2 ^ 32)) ∧
    (cmd_resize example_env (two_leaves (644245099 / 2 ^ 32) (3650722197 / 2 ^ 32))
        "grow" "left" 10 10).map
        (fun s => ((getCon s.all_cons 2).percent, (getCon s.all_cons 3).percent,
          s.cmd_output.needs_tree_render))
      = some (644245099 / 2 ^ 32, 3650722197 / 2 ^ 32, true) := by
  have hdir : ∀ ow, cmd_resize_tiling_direction example_env
        (two_leaves_with (644245099 / 2 ^ 32) (3650722197 / 2 ^ 32) ow) 3 "grow" "left" 10
      = some (true, two_leaves_with (644245099 / 2 ^ 32) (3650722197 / 2 ^ 32) ow) := by
    intro ow
    rw [cmd_resize_tiling_direction_eq example_env
      (two_leaves_with (644245099 / 2 ^ 32) (3650722197 / 2 ^ 32) ow) 3 "grow" "left" 10 3 2 1
      (example_leaf "B" (3650722197 / 2 ^ 32)) example_workspace rfl rfl rfl rfl]
    rw [direction_result_not_definitely _ 3 2 example_workspace
      (example_leaf "B" (3650722197 / 2 ^ 32)) (example_leaf "A" (644245099 / 2 ^ 32)) 10
      rfl rfl (by norm_num [example_leaf_percent]) (by norm_num [example_leaf_percent])
      (Or.inr (by
        rw [Bool.eq_false_iff]
        intro h
        have h2 := ((definitelyGreaterThan_iff _).mp h).1
        rw [example_leaf_percent] at h2
        norm_num at h2))]
  refine ⟨rfl, by norm_num, by norm_num, ?_, hdir _, ?_⟩
  · have h : float_round ((644245099 / 2 ^ 32 : ℚ) - ((10 : Int) : ℚ) / 100)
        = 13421773 / 2 ^ 28 := by
      rw [float_round_eq (-5) 13421773 (by norm_num) (by norm_num) (by norm_num) (by norm_num)
        (by norm_num) (by norm_num)]
      norm_num
    rw [double_to_float_min_percent, double_to_float_finite (by rw [h]; norm_num [abs_of_pos]), h]
  · rw [cmd_resize_single_direction example_env
      (two_leaves (644245099 / 2 ^ 32) (3650722197 / 2 ^ 32)) "grow" "left" 10 10 3
      (example_leaf "B" (3650722197 / 2 ^ 32))
      (true, two_leaves_with (644245099 / 2 ^ 32) (3650722197 / 2 ^ 32) [3]) rfl rfl
      (by simp [example_leaf]) rfl (by constructor <;> decide) (hdir [3])]
    simp only [if_true, Option.map_some', State.ysuccess_all_cons,
      State.ysuccess_needs_tree_render, State.set_needs_tree_render]
    rfl

/-- C5, amended: for a single target that is neither a dock window nor floating, and
participants first and second with non-zero percentages, `resize grow <dir> ... or p
ppt` sets first.percent to first.percent + p/100 and second.percent to
second.percent - p/100 whenever both results are definitely greater than 0.05 in the
sense of `definitelyGreaterThan(float, float, float)`, `shrink` does the same with
-p, needs_tree_render is set and the reply is success:true.  A result x passes that
test exactly when 26843547/2^29 <= x < 2^128 - 2^103: converted to `float` it is
finite and above 13421773/2^28, the `float` value of 0.05 (26843547/2^29, about
0.0500000026, is the midpoint between that value and the next `float`).  With A(0.5)
B(0.5), B focused, `resize grow left 10 px or 10 ppt` gives A = 0.4 and B = 0.6. -/
theorem cmd_resize_direction_applied (env : Env) (s0 : State) (way direction : String)
    (px p : Int) (d : ℚ) (T first second par : Nat) (tc f g pc : Con)
    (hws : (HANDLE_EMPTY_MATCH env s0).owindows = [T])
    (htc : s0.all_cons[T]? = some tc)
    (hdock : tc.window.map (fun w => w.dock) ≠ some true)
    (hfloat : env.con_inside_floating (HANDLE_EMPTY_MATCH env s0) T = none)
    (hdir : direction ≠ "width" ∧ direction ≠ "height")
    (hfind : env.resize_find_tiling_participants (HANDLE_EMPTY_MATCH env s0) T
      (search_direction_of direction) = some (first, second))
    (hf : s0.all_cons[first]? = some f) (hg : s0.all_cons[second]? = some g)
    (hp : f.parent = some par) (hpc : s0.all_cons[par]? = some pc)
    (hne : first ≠ second) (hf0 : f.percent ≠ 0) (hg0 : g.percent ≠ 0)
    (hd : d = if way == "shrink" then -((p : ℚ) / 100) else (p : ℚ) / 100)
    (hok : definitelyGreaterThan (f.percent + d) (5 / 100) DBL_EPSILON = true ∧
      definitelyGreaterThan (g.percent - d) (5 / 100) DBL_EPSILON = true) :
    (∃ s2, cmd_resize env s0 way direction px p = some s2 ∧
      (getCon s2.all_cons first).percent = f.percent + d ∧
      (getCon s2.all_cons second).percent = g.percent - d ∧
      s2.cmd_output.needs_tree_render = true ∧
      (s0.cmd_output.json_gen = true →
        s2.cmd_output.json = s0.cmd_output.json ++ [Reply.success true])) ∧
    (cmd_resize example_env (two_leaves (1 / 2) (1 / 2)) "grow" "left" 10 10).map
        (fun s => ((getCon s.all_cons 2).percent, (getCon s.all_cons 3).percent,
          s.cmd_output.needs_tree_render))
      = some (2 / 5, 3 / 5, true) ∧
    (∀ x : ℚ, definitelyGreaterThan x (5 / 100) DBL_EPSILON = true ↔
      26843547 / 2 ^ 29 ≤ x ∧ x < 2 ^ 128 - 2 ^ 103) := by
  have hout : (HANDLE_EMPTY_MATCH env s0).cmd_output = s0.cmd_output := by
    unfold HANDLE_EMPTY_MATCH; split <;> rfl
  refine ⟨?_, ?_, definitelyGreaterThan_iff⟩
  · refine ⟨_, resize_direction_applied_state_eq env s0 way direction px p d T first second par
      tc f g pc hws htc hdock hfloat hdir hfind hf hg hp hpc hf0 hg0 hd hok, ?_, ?_, ?_, ?_⟩
    · exact (direction_applied_percents s0.all_cons first second f g d hf hg hne).1
    · exact (direction_applied_percents s0.all_cons first second f g d hf hg hne).2
    · unfold direction_applied_state
      rw [State.ysuccess_needs_tree_render]; rfl
    · intro hj
      unfold direction_applied_state
      rw [State.ysuccess_json _ _ (by simpa [State.set_needs_tree_render, hout] using hj)]
      simp [State.set_needs_tree_render, hout]
  · have hA : (two_leaves (1 / 2) (1 / 2)).all_cons[2]? = some (example_leaf "A" (1 / 2)) := rfl
    have hB : (two_leaves (1 / 2) (1 / 2)).all_cons[3]? = some (example_leaf "B" (1 / 2)) := rfl
    have hne : (3 : Nat) ≠ 2 := by decide
    rw [resize_direction_applied_state_eq example_env (two_leaves (1 / 2) (1 / 2)) "grow" "left"
      10 10 ((10 : Int) / 100)
      3 3 2 1 (example_leaf "B" (1 / 2)) (example_leaf "B" (1 / 2)) (example_leaf "A" (1 / 2))
      example_workspace rfl rfl (by simp [example_leaf]) rfl (by constructor <;> decide) rfl
      hB hA rfl rfl (by norm_num [example_leaf_percent])
      (by norm_num [example_leaf_percent]) (by simp)
      (by
        constructor
        · rw [definitelyGreaterThan_iff]
          norm_num [example_leaf_percent]
        · rw [definitelyGreaterThan_iff]
          norm_num [example_leaf_percent])]
    have h := direction_applied_percents (two_leaves (1 / 2) (1 / 2)).all_cons 3 2
      (example_leaf "B" (1 / 2)) (example_leaf "A" (1 / 2)) ((10 : Int) / 100) hB hA hne
    have h1 := h.1
    have h2 := h.2
    simp only [example_leaf_percent] at h1 h2
    simp only [Option.map_some', direction_applied_state, State.ysuccess_all_cons,
      State.ysuccess_needs_tree_render, State.set_needs_tree_render]
    rw [h1, h2]
    norm_num

theorem cmd_resize_direction_applied_witness :
    ∃ s2, cmd_resize example_env (two_leaves (1 / 2) (1 / 2)) "shrink" "left" 10 10 = some s2 ∧
      (getCon s2.all_cons 3).percent = 1 / 2 + -(((10 : Int) : ℚ) / 100) ∧
      (getCon s2.all_cons 2).percent = 1 / 2 - -(((10 : Int) : ℚ) / 100) ∧
      s2.cmd_output.needs_tree_render = true ∧
      ((two_leaves (1 / 2) (1 / 2)).cmd_output.json_gen = true →
        s2.cmd_output.json = (two_leaves (1 / 2) (1 / 2)).cmd_output.json ++ [Reply.success true]) :=
  (cmd_resize_direction_applied example_env (two_leaves (1 / 2) (1 / 2)) "shrink" "left" 10 10
    (-(((10 : Int) : ℚ) / 100)) 3 3 2 1 (example_leaf "B" (1 / 2)) (example_leaf "B" (1 / 2))
    (example_leaf "A" (1 / 2)) example_workspace rfl rfl (by simp [example_leaf]) rfl
    (by constructor <;> decide) rfl rfl rfl rfl rfl (by decide)
    (by norm_num [example_leaf_percent]) (by norm_num [example_leaf_percent]) (by simp)
    (by
      constructor
      · rw [definitelyGreaterThan_iff]
        norm_num [example_leaf_percent]
      · rw [definitelyGreaterThan_iff]
        norm_num [example_leaf_percent])).1

/-! ### Refused workspace commands -/

theorem refusedWith_ysuccess (s : State) (b : Bool) :
    RefusedWith s (s.ysuccess b) (Reply.success b) :=
  ⟨rfl, rfl, rfl, rfl, State.ysuccess_needs_tree_render s b, State.ysuccess_json s b⟩

theorem refusedWith_yerror (s : State) (message : String) :
    RefusedWith s (s.yerror message) (Reply.error message) := by
  refine ⟨rfl, rfl, rfl, rfl, ?_, ?_⟩
  · unfold State.yerror I3.yerror
    split <;> rfl
  · intro h
    unfold State.yerror I3.yerror
    simp [h]

theorem strncasecmp_eq_of_prefix (name : String) (h : "__".data <+: name.data) :
    strncasecmp_eq name "__" 2 = true := by
  obtain ⟨t, ht⟩ := h
  unfold strncasecmp_eq
  rw [← ht]
  rfl

/-- C8: for every workspace name that starts with "__", `cmd_workspace_name`,
`cmd_move_con_to_workspace_name` and `cmd_rename_workspace` reply success:false and
change nothing (no container, no call of a tree function, needs_tree_render as it
was); and when `ws_name_to_number` returns -1 for a name, `cmd_workspace_number` and
`cmd_move_con_to_workspace_number` answer with a failing reply and change nothing. -/
theorem internal_workspace_names_rejected (env : Env) (s : State) (name : String)
    (old_name : Option String) (h : "__".data <+: name.data) :
    RefusedWith s (cmd_workspace_name env s name) (Reply.success false) ∧
    RefusedWith s (cmd_move_con_to_workspace_name env s name) (Reply.success false) ∧
    RefusedWith s (cmd_rename_workspace env s old_name name) (Reply.success false) ∧
    (env.ws_name_to_number name = -1 →
      (∃ reply, reply.ok = false ∧ RefusedWith s (cmd_workspace_number env s name) reply) ∧
      (∃ reply, reply.ok = false ∧
        RefusedWith s (cmd_move_con_to_workspace_number env s name) reply)) := by
  have hp := strncasecmp_eq_of_prefix name h
  refine ⟨?_, ?_, ?_, ?_⟩
  · unfold cmd_workspace_name
    rw [if_pos hp]
    exact refusedWith_ysuccess s false
  · unfold cmd_move_con_to_workspace_name
    rw [if_pos hp]
    exact refusedWith_ysuccess s false
  · unfold cmd_rename_workspace
    rw [if_pos hp]
    exact refusedWith_ysuccess s false
  · intro hnum
    constructor
    · unfold cmd_workspace_number
      split
      · exact ⟨Reply.success false, rfl, refusedWith_ysuccess s false⟩
      · simp only [hnum, if_true]
        exact ⟨Reply.error _, rfl, refusedWith_yerror s _⟩
    · unfold cmd_move_con_to_workspace_number
      split
      · exact ⟨Reply.success false, rfl, refusedWith_ysuccess s false⟩
      · simp only [hnum, if_true]
        exact ⟨Reply.error _, rfl, refusedWith_yerror s _⟩

theorem internal_workspace_names_rejected_witness :
    RefusedWith (two_leaves (1 / 2) (1 / 2))
      (cmd_workspace_name example_env (two_leaves (1 / 2) (1 / 2)) "__i3_scratch")
      (Reply.success false) :=
  (internal_workspace_names_rejected example_env (two_leaves (1 / 2) (1 / 2)) "__i3_scratch"
    none ⟨"i3_scratch".data, rfl⟩).1

/-- C9: whenever some container is in global fullscreen, `cmd_workspace`,
`cmd_workspace_number`, `cmd_workspace_back_and_forth` and `cmd_workspace_name` reply
success:false, call none of the workspace switching functions and leave
needs_tree_render as it was. -/
theorem workspace_switch_refused_in_global_fullscreen (env : Env) (s : State)
    (which name : String)
    (hfs : (env.con_get_fullscreen_con s s.croot fullscreen_mode_t.CF_GLOBAL).isSome = true) :
    RefusedWith s (cmd_workspace env s which) (Reply.success false) ∧
    RefusedWith s (cmd_workspace_number env s which) (Reply.success false) ∧
    RefusedWith s (cmd_workspace_back_and_forth env s) (Reply.success false) ∧
    RefusedWith s (cmd_workspace_name env s name) (Reply.success false) := by
  refine ⟨?_, ?_, ?_, ?_⟩
  · unfold cmd_workspace
    rw [if_pos hfs]
    exact refusedWith_ysuccess s false
  · unfold cmd_workspace_number
    rw [if_pos hfs]
    exact refusedWith_ysuccess s false
  · unfold cmd_workspace_back_and_forth
    rw [if_pos hfs]
    exact refusedWith_ysuccess s false
  · unfold cmd_workspace_name
    by_cases hp : strncasecmp_eq name "__" 2 = true
    · rw [if_pos hp]
      exact refusedWith_ysuccess s false
    · rw [if_neg hp, if_pos hfs]
      exact refusedWith_ysuccess s false

theorem workspace_switch_refused_in_global_fullscreen_witness :
    RefusedWith (two_leaves (1 / 2) (1 / 2))
      (cmd_workspace example_env_fullscreen (two_leaves (1 / 2) (1 / 2)) "next")
      (Reply.success false) ∧
    RefusedWith (two_leaves (1 / 2) (1 / 2))
      (cmd_workspace_name example_env_fullscreen (two_leaves (1 / 2) (1 / 2)) "2")
      (Reply.success false) :=
  ⟨(workspace_switch_refused_in_global_fullscreen example_env_fullscreen
      (two_leaves (1 / 2) (1 / 2)) "next" "2" rfl).1,
   (workspace_switch_refused_in_global_fullscreen example_env_fullscreen
      (two_leaves (1 / 2) (1 / 2)) "next" "2" rfl).2.2.2⟩

/-- C10: when criteria were given and matched no container, or no criteria were given
and the focused container is a workspace without children, each of
`cmd_move_con_to_workspace`, `cmd_move_con_to_workspace_name` and
`cmd_move_con_to_workspace_number` replies success:false, moves no container, asks
for no workspace and leaves needs_tree_render as it was. -/
theorem move_to_workspace_refused_without_target (env : Env) (s : State) (which name : String)
    (hnothing : (env.match_is_empty s.current_match = false ∧ s.owindows = []) ∨
      (env.match_is_empty s.current_match = true ∧
        (getCon s.all_cons s.focused).type = con_type_t.CT_WORKSPACE ∧
        env.con_has_children (getCon s.all_cons s.focused) = false)) :
    RefusedWith s (cmd_move_con_to_workspace env s which) (Reply.success false) ∧
    RefusedWith s (cmd_move_con_to_workspace_name env s name) (Reply.success false) ∧
    RefusedWith s (cmd_move_con_to_workspace_number env s which) (Reply.success false) := by
  have hcond : (¬ env.match_is_empty s.current_match = true ∧ s.owindows = []) ∨
      (env.match_is_empty s.current_match = true ∧
        (getCon s.all_cons s.focused).type = con_type_t.CT_WORKSPACE ∧
        ¬ env.con_has_children (getCon s.all_cons s.focused) = true) := by
    rcases hnothing with ⟨h1, h2⟩ | ⟨h1, h2, h3⟩
    · exact Or.inl ⟨by simp [h1], h2⟩
    · exact Or.inr ⟨h1, h2, by simp [h3]⟩
  refine ⟨?_, ?_, ?_⟩
  · unfold cmd_move_con_to_workspace
    rw [if_pos hcond]
    exact refusedWith_ysuccess s false
  · unfold cmd_move_con_to_workspace_name
    split
    · exact refusedWith_ysuccess s false
    · split
      · exact refusedWith_ysuccess s false
      · rename_i hn1
        rcases hcond with h | h
        · exact absurd h hn1
        · rw [if_pos h]
          exact refusedWith_ysuccess s false
  · unfold cmd_move_con_to_workspace_number
    rw [if_pos hcond]
    exact refusedWith_ysuccess s false

theorem move_to_workspace_refused_without_target_witness :
    RefusedWith no_match_leaves (cmd_move_con_to_workspace example_env no_match_leaves "next")
      (Reply.success false) ∧
    RefusedWith no_match_leaves
      (cmd_move_con_to_workspace_name example_env no_match_leaves "2") (Reply.success false) ∧
    RefusedWith no_match_leaves
      (cmd_move_con_to_workspace_number example_env no_match_leaves "next")
      (Reply.success false) :=
  move_to_workspace_refused_without_target example_env no_match_leaves "next" "2"
    (Or.inl ⟨rfl, rfl⟩)

/-! ### Commands without a target -/

theorem HANDLE_EMPTY_MATCH_not_empty (env : Env) (s : State)
    (h : env.match_is_empty s.current_match = false) : HANDLE_EMPTY_MATCH env s = s := by
  unfold HANDLE_EMPTY_MATCH
  simp [h]

/-- C11, counterexample: in the tree with the empty workspace "2" focused and no
criteria, `move left` replies success:true (the workspace is handed to `tree_move`
and needs_tree_render is set). -/
theorem cmd_move_direction_empty_workspace_counterexample :
    workspaces_env.match_is_empty empty_workspace_focused.current_match = true ∧
    (getCon empty_workspace_focused.all_cons empty_workspace_focused.focused).type
      = con_type_t.CT_WORKSPACE ∧
    workspaces_env.con_has_children
      (getCon empty_workspace_focused.all_cons empty_workspace_focused.focused) = false ∧
    (cmd_move_direction workspaces_env empty_workspace_focused "left" 10).map
        (fun r => (r.cmd_output, r.calls))
      = some ({ json_gen := true, json := [Reply.success true], needs_tree_render := true },
              [Call.tree_move 4 direction_t.D_LEFT]) := by
  refine ⟨rfl, rfl, rfl, rfl⟩

/-- C11, amended: `move <direction>` issued without criteria while the focused
container is a workspace that has no children (and is not floating) replies
success:true: `cmd_move_direction` has no failing reply; the workspace is handed to
`tree_move` and needs_tree_render is set. -/
theorem cmd_move_direction_replies_success (env : Env) (s : State) (direction : String)
    (move_px : Int)
    (hempty : env.match_is_empty s.current_match = true)
    (_hws : (getCon s.all_cons s.focused).type = con_type_t.CT_WORKSPACE)
    (_hchildren : env.con_has_children (getCon s.all_cons s.focused) = false)
    (hfloat : env.con_is_floating (HANDLE_EMPTY_MATCH env s) s.focused = false) :
    ∃ r, cmd_move_direction env s direction move_px = some r ∧
      (s.cmd_output.json_gen = true →
        r.cmd_output.json = s.cmd_output.json ++ [Reply.success true]) ∧
      r.cmd_output.needs_tree_render = true ∧
      Call.tree_move s.focused (move_direction_of direction) ∈ r.calls ∧
      r.all_cons = s.all_cons := by
  have hH : HANDLE_EMPTY_MATCH env s = { s with owindows := [s.focused] } := by
    unfold HANDLE_EMPTY_MATCH
    simp [hempty]
  rw [hH] at hfloat
  unfold cmd_move_direction
  rw [hH]
  simp only [cmd_move_direction_loop, hfloat, Option.bind_eq_bind, Option.some_bind,
    Bool.false_eq_true, if_false]
  refine ⟨_, rfl, ?_, ?_, ?_, ?_⟩
  · intro hj
    split
    · rw [State.ysuccess_json _ _ (by simpa [State.call, State.set_needs_tree_render] using hj)]
      simp [State.call, State.set_needs_tree_render]
    · rw [State.ysuccess_json _ _ (by simpa [State.call, State.set_needs_tree_render] using hj)]
      simp [State.call, State.set_needs_tree_render]
  · rw [State.ysuccess_needs_tree_render]
    split <;> rfl
  · rw [State.ysuccess_calls]
    split <;> simp [State.call, State.set_needs_tree_render]
  · rw [State.ysuccess_all_cons]
    split <;> rfl

theorem cmd_move_direction_replies_success_witness :
    ∃ r, cmd_move_direction workspaces_env empty_workspace_focused "left" 10 = some r ∧
      (empty_workspace_focused.cmd_output.json_gen = true →
        r.cmd_output.json = empty_workspace_focused.cmd_output.json ++ [Reply.success true]) ∧
      r.cmd_output.needs_tree_render = true ∧
      Call.tree_move empty_workspace_focused.focused (move_direction_of "left") ∈ r.calls ∧
      r.all_cons = empty_workspace_focused.all_cons :=
  cmd_move_direction_replies_success workspaces_env empty_workspace_focused "left" 10
    rfl rfl rfl rfl

/-- C12, counterexample: after criteria `[class="xterm"]` that matched no container,
each of the six commands replies success:true and sets needs_tree_render. -/
theorem criteria_mismatch_counterexample :
    example_env.match_is_empty no_match_leaves.current_match = false ∧
    no_match_leaves.owindows = [] ∧
    (cmd_border example_env no_match_leaves "normal" none).cmd_output
      = { json_gen := true, json := [Reply.success true], needs_tree_render := true } ∧
    (cmd_floating example_env no_match_leaves "enable").cmd_output
      = { json_gen := true, json := [Reply.success true], needs_tree_render := true } ∧
    (cmd_fullscreen example_env no_match_leaves "toggle" "").cmd_output
      = { json_gen := true, json := [Reply.success true], needs_tree_render := true } ∧
    (cmd_resize example_env no_match_leaves "grow" "width" 10 10).map (fun r => r.cmd_output)
      = some { json_gen := true, json := [Reply.success true], needs_tree_render := true } ∧
    (cmd_title_format example_env no_match_leaves "%class").cmd_output
      = { json_gen := true, json := [Reply.success true], needs_tree_render := true } ∧
    (cmd_move_scratchpad example_env no_match_leaves).cmd_output
      = { json_gen := true, json := [Reply.success true], needs_tree_render := true } := by
  refine ⟨rfl, rfl, rfl, rfl, rfl, rfl, rfl, rfl⟩

/-- C12, amended: for each of `cmd_border`, `cmd_floating`, `cmd_fullscreen`,
`cmd_resize`, `cmd_title_format` and `cmd_move_scratchpad`: when the command carried
criteria and no container matched, nothing is done to any container, needs_tree_render
is set and the reply is success:true. -/
theorem criteria_mismatch_replies_success (env : Env) (s : State)
    (border_style_str floating_mode action fullscreen_mode way direction format : String)
    (border_width : Option Int) (resize_px resize_ppt : Int)
    (hmatch : env.match_is_empty s.current_match = false) (hnone : s.owindows = []) :
    cmd_border env s border_style_str border_width = s.set_needs_tree_render.ysuccess true ∧
    cmd_floating env s floating_mode = s.set_needs_tree_render.ysuccess true ∧
    cmd_fullscreen env s action fullscreen_mode = s.set_needs_tree_render.ysuccess true ∧
    cmd_resize env s way direction resize_px resize_ppt
      = some (s.set_needs_tree_render.ysuccess true) ∧
    cmd_title_format env s format = s.set_needs_tree_render.ysuccess true ∧
    cmd_move_scratchpad env s = s.set_needs_tree_render.ysuccess true ∧
    (s.set_needs_tree_render.ysuccess true).all_cons = s.all_cons ∧
    (s.set_needs_tree_render.ysuccess true).calls = s.calls ∧
    (s.set_needs_tree_render.ysuccess true).cmd_output.needs_tree_render = true ∧
    (s.cmd_output.json_gen = true →
      (s.set_needs_tree_render.ysuccess true).cmd_output.json
        = s.cmd_output.json ++ [Reply.success true]) := by
  have hH := HANDLE_EMPTY_MATCH_not_empty env s hmatch
  refine ⟨?_, ?_, ?_, ?_, ?_, ?_, rfl, rfl, ?_, ?_⟩
  · unfold cmd_border
    simp only [hH, hnone, cmd_border_loop]
  · unfold cmd_floating
    simp only [hH, hnone, List.foldl_nil]
  · unfold cmd_fullscreen
    simp only [hH, hnone, List.foldl_nil]
  · unfold cmd_resize
    simp only [hH, hnone, cmd_resize_loop]
  · have e : ∀ f : List Con → Nat → List Con, s.owindows.foldl f s.all_cons = s.all_cons := by
      intro f; rw [hnone]; rfl
    unfold cmd_title_format
    simp only [hH]
    rw [e]
  · unfold cmd_move_scratchpad
    simp only [hH, hnone, List.foldl_nil]
  · rw [State.ysuccess_needs_tree_render]; rfl
  · intro hj
    rw [State.ysuccess_json _ _ (by simpa [State.set_needs_tree_render] using hj)]
    rfl

theorem criteria_mismatch_replies_success_witness :
    cmd_floating example_env no_match_leaves "enable"
      = no_match_leaves.set_needs_tree_render.ysuccess true :=
  (criteria_mismatch_replies_success example_env no_match_leaves "normal" "enable" "toggle" ""
    "grow" "width" "%class" none 10 10 rfl rfl).2.1

/-- C13, counterexample: with two containers in the working set and the mark "m" on
container 2, `mark m` is rejected with the error reply, and container 2 still holds
"m" afterwards: nothing was cleared. -/
theorem cmd_mark_rejected_keeps_marks_counterexample :
    two_matches.owindows = [2, 3] ∧
    ((two_matches.all_cons[2]?).map (fun c => c.mark)) = some (some "m") ∧
    (cmd_mark example_env two_matches "m" none).cmd_output.json
      = [Reply.error "A mark must not be put onto more than one window"] ∧
    (((cmd_mark example_env two_matches "m" none).all_cons[2]?).map (fun c => c.mark))
      = some (some "m") := by
  refine ⟨rfl, rfl, rfl, rfl⟩

/-- C13, amended: when `cmd_mark` is run with more than one container in the working
set, it rejects the command with the error reply that a mark must not be put onto
more than one window and changes nothing: every container keeps its mark and its
mark_changed flag, needs_tree_render is not set. -/
theorem cmd_mark_rejected_changes_nothing (env : Env) (s : State) (mark : String)
    (toggle : Option String) (a b : Nat) (rest : List Nat)
    (hmany : (HANDLE_EMPTY_MATCH env s).owindows = a :: b :: rest) :
    RefusedWith s (cmd_mark env s mark toggle)
      (Reply.error "A mark must not be put onto more than one window") := by
  have hmatch : env.match_is_empty s.current_match = false := by
    cases h : env.match_is_empty s.current_match with
    | false => rfl
    | true =>
      unfold HANDLE_EMPTY_MATCH at hmany
      simp [h] at hmany
  have hH := HANDLE_EMPTY_MATCH_not_empty env s hmatch
  rw [hH] at hmany
  have : cmd_mark env s mark toggle
      = s.yerror "A mark must not be put onto more than one window" := by
    unfold cmd_mark
    simp only [hH, hmany]
    simp
  rw [this]
  exact refusedWith_yerror s _

theorem cmd_mark_rejected_changes_nothing_witness :
    RefusedWith two_matches (cmd_mark example_env two_matches "m" none)
      (Reply.error "A mark must not be put onto more than one window") :=
  cmd_mark_rejected_changes_nothing example_env two_matches "m" none 2 3 [] rfl

/-! ### `mark m; mark m` -/

theorem cmd_mark_single_state (env : Env) (s : State) (mark : String) (toggle : Option String)
    (T : Nat)
    (hT : env.match_is_empty s.current_match = true ∧ s.focused = T ∨
          env.match_is_empty s.current_match = false ∧ s.owindows = [T]) :
    cmd_mark env s mark toggle =
      { s with
        owindows := [T],
        all_cons := (cmd_mark env s mark toggle).all_cons,
        cmd_output := I3.ysuccess { s.cmd_output with needs_tree_render := true } true } := by
  rcases hT with ⟨h1, h2⟩ | ⟨h1, h2⟩
  · subst h2
    simp [cmd_mark, HANDLE_EMPTY_MATCH, h1, State.ysuccess, State.set_needs_tree_render]
  · cases s
    simp only at h2
    subst h2
    simp [cmd_mark, HANDLE_EMPTY_MATCH, h1, State.ysuccess, State.set_needs_tree_render]

theorem output_ysuccess_needs_tree_render (o : CommandResultIR) (b : Bool) :
    (I3.ysuccess o b).needs_tree_render = o.needs_tree_render := by
  unfold I3.ysuccess
  split <;> rfl

theorem output_ysuccess_json_gen (o : CommandResultIR) (b : Bool) :
    (I3.ysuccess o b).json_gen = o.json_gen := by
  unfold I3.ysuccess
  split <;> rfl

theorem output_ysuccess_json (o : CommandResultIR) (b : Bool) (h : o.json_gen = true) :
    (I3.ysuccess o b).json = o.json ++ [Reply.success b] := by
  unfold I3.ysuccess
  simp [h]

theorem cmd_mark_again (env : Env) (s s1 : State) (mark : String) (T : Nat)
    (hT : env.match_is_empty s.current_match = true ∧ s.focused = T ∨
          env.match_is_empty s.current_match = false ∧ s.owindows = [T])
    (hcons : s1.all_cons = (cmd_mark env s mark none).all_cons)
    (hmatch : s1.current_match = s.current_match) (hfocused : s1.focused = s.focused)
    (howindows : s1.owindows = [T]) :
    cmd_mark env s1 mark none =
      { s1 with cmd_output := I3.ysuccess { s1.cmd_output with needs_tree_render := true } true } := by
  have hT1 : env.match_is_empty s1.current_match = true ∧ s1.focused = T ∨
      env.match_is_empty s1.current_match = false ∧ s1.owindows = [T] := by
    rw [hmatch, hfocused]
    rcases hT with ⟨h1, h2⟩ | ⟨h1, _⟩
    · exact Or.inl ⟨h1, h2⟩
    · exact Or.inr ⟨h1, howindows⟩
  have hsame : (cmd_mark env s1 mark none).all_cons = s1.all_cons := by
    apply List.ext_getElem?
    intro i
    rw [cmd_mark_getElem? env s1 mark none T hT1 i, hcons,
      cmd_mark_getElem? env s mark none T hT i]
    cases s.all_cons[i]? with
    | none => rfl
    | some c =>
      simp only [Option.map_some', Option.some.injEq]
      by_cases hi : T = i
      · simp [hi, cmd_mark_target]
      · simp only [if_neg hi]
        by_cases hm : c.mark = some mark
        · simp [cmd_mark_clear, hi, hm]
        · simp [cmd_mark_clear, hi, hm]
  rw [cmd_mark_single_state env s1 mark none T hT1, hsame]
  cases s1
  simp only at howindows
  subst howindows
  rfl

/-- C14: for every state with a single target container and every mark m, running
`cmd_mark m` without toggle a second time yields exactly the state produced by the
first run.  Started from the command output of the first run, the second run returns
the very same state (marks, mark_changed flags, needs_tree_render, the reply).  Run
directly on the state left by the first run, it leaves every container and
needs_tree_render as they are and writes one more success:true reply. -/
theorem cmd_mark_idempotent (env : Env) (s : State) (mark : String) (T : Nat)
    (hT : env.match_is_empty s.current_match = true ∧ s.focused = T ∨
          env.match_is_empty s.current_match = false ∧ s.owindows = [T]) :
    cmd_mark env { cmd_mark env s mark none with cmd_output := s.cmd_output } mark none
      = cmd_mark env s mark none ∧
    (cmd_mark env (cmd_mark env s mark none) mark none).all_cons
      = (cmd_mark env s mark none).all_cons ∧
    (cmd_mark env (cmd_mark env s mark none) mark none).cmd_output.needs_tree_render
      = (cmd_mark env s mark none).cmd_output.needs_tree_render ∧
    (s.cmd_output.json_gen = true →
      (cmd_mark env s mark none).cmd_output.json = s.cmd_output.json ++ [Reply.success true] ∧
      (cmd_mark env (cmd_mark env s mark none) mark none).cmd_output.json
        = (cmd_mark env s mark none).cmd_output.json ++ [Reply.success true]) := by
  have hs := cmd_mark_single_state env s mark none T hT
  have hcm : (cmd_mark env s mark none).current_match = s.current_match := by rw [hs]
  have hfo : (cmd_mark env s mark none).focused = s.focused := by rw [hs]
  have how : (cmd_mark env s mark none).owindows = [T] := by rw [hs]
  have hout : (cmd_mark env s mark none).cmd_output
      = I3.ysuccess { s.cmd_output with needs_tree_render := true } true := by rw [hs]
  have h1 := cmd_mark_again env s { cmd_mark env s mark none with cmd_output := s.cmd_output }
    mark T hT rfl hcm hfo how
  have h2 := cmd_mark_again env s (cmd_mark env s mark none) mark T hT rfl hcm hfo how
  refine ⟨?_, ?_, ?_, ?_⟩
  · rw [h1]
    conv_rhs => rw [hs]
    simp only []
    rw [hs]
  · rw [h2]
  · rw [h2]
    simp only []
    rw [output_ysuccess_needs_tree_render, hout, output_ysuccess_needs_tree_render]
  · intro hj
    have hgen : (cmd_mark env s mark none).cmd_output.json_gen = true := by
      rw [hout, output_ysuccess_json_gen]; exact hj
    constructor
    · rw [hout]
      exact output_ysuccess_json { s.cmd_output with needs_tree_render := true } true hj
    · rw [h2]
      exact output_ysuccess_json
        { (cmd_mark env s mark none).cmd_output with needs_tree_render := true } true hgen

theorem cmd_mark_idempotent_witness :
    cmd_mark example_env
        { cmd_mark example_env marked_leaves "m" none with cmd_output := marked_leaves.cmd_output }
        "m" none
      = cmd_mark example_env marked_leaves "m" none :=
  (cmd_mark_idempotent example_env marked_leaves "m" 3 (Or.inl ⟨rfl, rfl⟩)).1

/-! ### `workspace <name>` on the focused workspace -/

/-- C15: for `cmd_workspace_name(name)` with no global fullscreen and a name that does
not start with "__": if name is the name of the workspace of the focused container and
workspace_auto_back_and_forth is on, the only call made is `workspace_back_and_forth`
(so `name` is not shown) and needs_tree_render is set; if name differs from that
name, the only call made is `workspace_show_by_name(name)`, needs_tree_render is set
and the reply is success:true.  With workspace "1" current, "2" in the back-and-forth
slot and the option on, `workspace 1` makes "2" current. -/
theorem cmd_workspace_name_back_and_forth (env : Env) (s : State) (name : String)
    (hname : strncasecmp_eq name "__" 2 = false)
    (hfs : (env.con_get_fullscreen_con s s.croot fullscreen_mode_t.CF_GLOBAL).isSome = false) :
    ((getCon s.all_cons (env.con_get_workspace s s.focused)).name = name →
      s.workspace_auto_back_and_forth = true →
        (cmd_workspace_name env s name).calls = s.calls ++ [Call.workspace_back_and_forth] ∧
        (cmd_workspace_name env s name).cmd_output.needs_tree_render = true) ∧
    ((getCon s.all_cons (env.con_get_workspace s s.focused)).name ≠ name →
        (cmd_workspace_name env s name).calls
          = s.calls ++ [Call.workspace_show_by_name name] ∧
        (cmd_workspace_name env s name).cmd_output.needs_tree_render = true ∧
        (s.cmd_output.json_gen = true →
          (cmd_workspace_name env s name).cmd_output.json
            = s.cmd_output.json ++ [Reply.success true])) ∧
    (cmd_workspace_name workspaces_env workspaces_tree_auto "1").calls.foldl Visible.run
        { current := "1", back_and_forth := some "2" }
      = { current := "2", back_and_forth := some "1" } := by
  have hn : ¬ (strncasecmp_eq name "__" 2 = true) := by simp [hname]
  have hf : ¬ ((env.con_get_fullscreen_con s s.croot fullscreen_mode_t.CF_GLOBAL).isSome = true) := by
    simp [hfs]
  refine ⟨?_, ?_, rfl⟩
  · intro hsame hauto
    unfold cmd_workspace_name
    rw [if_neg hn, if_neg hf]
    simp only [maybe_back_and_forth, hsame, ne_eq, not_true_eq_false, if_false, hauto, if_true]
    exact ⟨rfl, rfl⟩
  · intro hdiff
    unfold cmd_workspace_name
    rw [if_neg hn, if_neg hf]
    simp only [maybe_back_and_forth, ne_eq, hdiff, not_false_eq_true, if_true,
      Bool.false_eq_true, if_false]
    refine ⟨rfl, ?_, ?_⟩
    · rw [State.ysuccess_needs_tree_render]; rfl
    · intro hj
      rw [State.ysuccess_json _ _ (by simpa [State.call, State.set_needs_tree_render] using hj)]
      rfl

theorem cmd_workspace_name_back_and_forth_witness :
    (cmd_workspace_name workspaces_env workspaces_tree_auto "1").calls
        = workspaces_tree_auto.calls ++ [Call.workspace_back_and_forth] ∧
    (cmd_workspace_name workspaces_env workspaces_tree_auto "1").cmd_output.needs_tree_render
        = true :=
  (cmd_workspace_name_back_and_forth workspaces_env workspaces_tree_auto "1" rfl rfl).1 rfl rfl

/-- C16: with a JSON generator present, `cmd_workspace_name` and
`cmd_workspace_number` write exactly one reply object on every path except the one
where `maybe_back_and_forth` returns true (the requested workspace is the focused
one), where they write none.  In the tree with workspace "1" focused, `workspace 1`
and `workspace number 1` leave the generator empty, with workspace_auto_back_and_forth
on or off. -/
theorem cmd_workspace_already_focused_no_reply :
    (∀ (env : Env) (s : State) (name : String) [Decidable (name_already_focused env s name)],
      s.cmd_output.json_gen = true →
      (cmd_workspace_name env s name).cmd_output.json.length
        = s.cmd_output.json.length + (if name_already_focused env s name then 0 else 1)) ∧
    (∀ (env : Env) (s : State) (which : String)
        [Decidable (number_already_focused env s which)],
      s.cmd_output.json_gen = true →
      (cmd_workspace_number env s which).cmd_output.json.length
        = s.cmd_output.json.length + (if number_already_focused env s which then 0 else 1)) ∧
    (cmd_workspace_name workspaces_env workspaces_tree "1").cmd_output.json = [] ∧
    (cmd_workspace_name workspaces_env workspaces_tree_auto "1").cmd_output.json = [] ∧
    (cmd_workspace_number workspaces_env workspaces_tree "1").cmd_output.json = [] ∧
    (cmd_workspace_number workspaces_env workspaces_tree_auto "1").cmd_output.json = [] := by
  refine ⟨?_, ?_, rfl, rfl, rfl, rfl⟩
  · intro env s name _ hj
    have hone : ∀ (r : State) (b : Bool), r.cmd_output.json_gen = true →
        r.cmd_output.json = s.cmd_output.json →
        (r.ysuccess b).cmd_output.json.length = s.cmd_output.json.length + 1 := by
      intro r b h1 h2
      rw [State.ysuccess_json r b h1, h2]
      simp
    unfold cmd_workspace_name
    by_cases hn : strncasecmp_eq name "__" 2 = true
    · have hnot : ¬ name_already_focused env s name := fun h => by
        rw [h.1] at hn; cases hn
      rw [if_pos hn, if_neg hnot]
      exact hone s false hj rfl
    rw [if_neg hn]
    by_cases hf : (env.con_get_fullscreen_con s s.croot fullscreen_mode_t.CF_GLOBAL).isSome = true
    · have hnot : ¬ name_already_focused env s name := fun h => by
        rw [h.2.1] at hf; cases hf
      rw [if_pos hf, if_neg hnot]
      exact hone s false hj rfl
    rw [if_neg hf]
    by_cases hsame : (getCon s.all_cons (env.con_get_workspace s s.focused)).name = name
    · have hyes : name_already_focused env s name := ⟨by simpa using hn, by simpa using hf, hsame⟩
      rw [if_pos hyes]
      simp only [maybe_back_and_forth, hsame, ne_eq, not_true_eq_false, if_false]
      split <;> rfl
    · have hnot : ¬ name_already_focused env s name := fun h => hsame h.2.2
      rw [if_neg hnot]
      simp only [maybe_back_and_forth, ne_eq, hsame, not_false_eq_true, if_true,
        Bool.false_eq_true, if_false]
      exact hone _ true hj rfl
  · intro env s which _ hj
    have hone : ∀ (r : State) (b : Bool), r.cmd_output.json_gen = true →
        r.cmd_output.json = s.cmd_output.json →
        (r.ysuccess b).cmd_output.json.length = s.cmd_output.json.length + 1 := by
      intro r b h1 h2
      rw [State.ysuccess_json r b h1, h2]
      simp
    unfold cmd_workspace_number
    by_cases hf : (env.con_get_fullscreen_con s s.croot fullscreen_mode_t.CF_GLOBAL).isSome = true
    · have hnot : ¬ number_already_focused env s which := fun h => by
        rw [h.1] at hf; cases hf
      rw [if_pos hf, if_neg hnot]
      exact hone s false hj rfl
    rw [if_neg hf]
    by_cases hp : env.ws_name_to_number which = -1
    · have hnot : ¬ number_already_focused env s which := fun h => h.2.1 hp
      simp only [hp, if_true, if_neg hnot]
      unfold State.yerror I3.yerror
      simp [hj]
    simp only [hp, if_false]
    cases hg : grep_workspaces env s (fun child => child.num = env.ws_name_to_number which) with
    | none =>
      have hnot : ¬ number_already_focused env s which := fun h => by
        obtain ⟨w, hw, _⟩ := h.2.2
        rw [hg] at hw; cases hw
      rw [if_neg hnot]
      simp only [State.set_needs_tree_render, State.call]
      exact hone s true hj rfl
    | some workspace =>
      simp only []
      by_cases hsame : (getCon s.all_cons (env.con_get_workspace s s.focused)).name
          = (getCon s.all_cons workspace).name
      · have hyes : number_already_focused env s which :=
          ⟨by simpa using hf, hp, workspace, hg, hsame⟩
        rw [if_pos hyes]
        simp only [maybe_back_and_forth, hsame, ne_eq, not_true_eq_false, if_false]
        split <;> rfl
      · have hnot : ¬ number_already_focused env s which := fun h => by
          obtain ⟨w, hw, hw2⟩ := h.2.2
          rw [hg] at hw; cases hw
          exact hsame hw2
        rw [if_neg hnot]
        simp only [maybe_back_and_forth, ne_eq, hsame, not_false_eq_true, if_true,
          Bool.false_eq_true, if_false]
        exact hone _ true hj rfl

/-! ### `focus <direction>` -/

/-- C17, counterexample: with container 3 in global fullscreen and a `tree_next` that
leaves the focus where it is, `focus left` replies success:true and sets
needs_tree_render. -/
theorem cmd_focus_direction_render_counterexample :
    (example_env_fullscreen.con_get_fullscreen_con (two_leaves (1 / 2) (1 / 2)) 0
        fullscreen_mode_t.CF_GLOBAL) = some 3 ∧
    example_env_fullscreen.focused_after (cmd_focus_direction (two_leaves (1 / 2) (1 / 2)) "left")
      = (two_leaves (1 / 2) (1 / 2)).focused ∧
    (cmd_focus_direction (two_leaves (1 / 2) (1 / 2)) "left").cmd_output
      = { json_gen := true, json := [Reply.success true], needs_tree_render := true } := by
  refine ⟨rfl, rfl, rfl⟩

/-- C17, amended: when a leaf is in global fullscreen and `focus left` (or right, up,
down) is issued, with `tree_next` leaving the focus where it is: the reply is
success:true, the only call made is `tree_next`, so the focused container is
unchanged, no container changes, and needs_tree_render is set by the command. -/
theorem cmd_focus_direction_valid (env : Env) (s : State) (direction : String)
    (way : Char) (orientation : orientation_t)
    (_hfs : (env.con_get_fullscreen_con s s.croot fullscreen_mode_t.CF_GLOBAL).isSome = true)
    (hdir : (direction = "left" ∧ way = 'p' ∧ orientation = orientation_t.HORIZ) ∨
      (direction = "right" ∧ way = 'n' ∧ orientation = orientation_t.HORIZ) ∨
      (direction = "up" ∧ way = 'p' ∧ orientation = orientation_t.VERT) ∨
      (direction = "down" ∧ way = 'n' ∧ orientation = orientation_t.VERT))
    (hnext : ∀ o : CommandResultIR,
      env.focused_after { s.call (Call.tree_next way orientation) with cmd_output := o }
        = s.focused) :
    (cmd_focus_direction s direction).calls = s.calls ++ [Call.tree_next way orientation] ∧
    env.focused_after (cmd_focus_direction s direction) = s.focused ∧
    (cmd_focus_direction s direction).all_cons = s.all_cons ∧
    (cmd_focus_direction s direction).cmd_output.needs_tree_render = true ∧
    (s.cmd_output.json_gen = true →
      (cmd_focus_direction s direction).cmd_output.json
        = s.cmd_output.json ++ [Reply.success true]) := by
  have key : cmd_focus_direction s direction
      = ((s.call (Call.tree_next way orientation)).set_needs_tree_render).ysuccess true := by
    rcases hdir with ⟨h1, h2, h3⟩ | ⟨h1, h2, h3⟩ | ⟨h1, h2, h3⟩ | ⟨h1, h2, h3⟩ <;>
      subst h1 <;> subst h2 <;> subst h3 <;> rfl
  rw [key]
  refine ⟨rfl, hnext _, rfl, ?_, ?_⟩
  · rw [State.ysuccess_needs_tree_render]; rfl
  · intro hj
    rw [State.ysuccess_json _ _ (by simpa [State.call, State.set_needs_tree_render] using hj)]
    rfl

theorem cmd_focus_direction_valid_witness :
    (cmd_focus_direction (two_leaves (1 / 2) (1 / 2)) "left").cmd_output.needs_tree_render
      = true :=
  (cmd_focus_direction_valid example_env_fullscreen (two_leaves (1 / 2) (1 / 2)) "left" 'p'
    orientation_t.HORIZ rfl (Or.inl ⟨rfl, rfl, rfl⟩) (fun _ => rfl)).2.2.2.1

/-! ### The criteria filter -/

theorem cmd_criteria_match_windows_loop_eq (env : Env) (s : State) (old owindows : List Nat) :
    cmd_criteria_match_windows_loop env s old owindows
      = owindows ++ old.filter
          (fun con => @decide (criteria_keep env s con) (Classical.propDecidable _)) := by
  induction old generalizing owindows with
  | nil => simp [cmd_criteria_match_windows_loop]
  | cons current next ih =>
    unfold cmd_criteria_match_windows_loop
    cases hid : s.current_match.con_id with
    | some con_id =>
      by_cases h : con_id = current
      · have hk : criteria_keep env s current := Or.inl ⟨con_id, hid, h⟩
        simp [h, ih, hk]
      · have hk : ¬ criteria_keep env s current := by
          rintro (⟨i, hi, hi2⟩ | ⟨hn, _⟩)
          · rw [hid] at hi; cases hi; exact h hi2
          · rw [hid] at hn; cases hn
        simp [h, ih, hk]
    | none =>
      simp only []
      split
      · rename_i hmark
        have hk : criteria_keep env s current := by
          refine Or.inr ⟨hid, Or.inl ?_⟩
          revert hmark
          cases hp : s.current_match.mark <;> cases hm : (getCon s.all_cons current).mark <;>
            simp
        simp [ih, hk]
      · rename_i hmark
        split
        · rename_i hwin
          have hk : criteria_keep env s current := by
            refine Or.inr ⟨hid, Or.inr ?_⟩
            revert hwin
            cases hw : (getCon s.all_cons current).window <;> simp
          simp [ih, hk]
        · rename_i hwin
          have hk : ¬ criteria_keep env s current := by
            rintro (⟨i, hi, _⟩ | ⟨_, ⟨p, m, hp, hm, hr⟩ | ⟨w, hw, hr⟩⟩)
            · rw [hid] at hi; cases hi
            · apply hmark; simp [hp, hm, hr]
            · apply hwin; simp [hw, hr]
          simp [ih, hk]

/-- C18, counterexample: with the criteria `[con_id=2 class="XTerm"]` container 2, a
Firefox window that `match_matches_window` rejects, is kept; with the criteria
`[con_mark="m" class="XTerm"]` both windows are kept, the Firefox window by its mark
alone and the XTerm window although it carries no mark. -/
theorem cmd_criteria_match_windows_union_counterexample :
    (cmd_criteria_match_windows example_env
        (criteria_leaves { con_id := some 2, class_ := some "XTerm" })).owindows = [2] ∧
    ((criteria_leaves {}).all_cons[2]?).map
        (fun c => c.window.map
          (example_env.match_matches_window { con_id := some 2, class_ := some "XTerm" }))
      = some (some false) ∧
    (cmd_criteria_match_windows example_env
        (criteria_leaves { mark := some "m", class_ := some "XTerm" })).owindows = [2, 3] ∧
    ((criteria_leaves {}).all_cons[2]?).map
        (fun c => c.window.map
          (example_env.match_matches_window { mark := some "m", class_ := some "XTerm" }))
      = some (some false) ∧
    ((criteria_leaves {}).all_cons[3]?).map (fun c => c.mark) = some none := by
  refine ⟨rfl, rfl, rfl, rfl, rfl⟩

/-- C18, amended: `cmd_criteria_match_windows` filters the working set and keeps the
order: a container is kept if and only if, when a con_id is specified, it is that
container, and otherwise its mark matches the specified mark regex or it has a window
that `match_matches_window` accepts.  Nothing but the working set changes. -/
theorem cmd_criteria_match_windows_filter (env : Env) (s : State) :
    (∃ keep : Nat → Bool, (∀ con, keep con = true ↔ criteria_keep env s con) ∧
      (cmd_criteria_match_windows env s).owindows = s.owindows.filter keep) ∧
    (∀ con, con ∈ (cmd_criteria_match_windows env s).owindows ↔
      con ∈ s.owindows ∧ criteria_keep env s con) ∧
    List.Sublist (cmd_criteria_match_windows env s).owindows s.owindows ∧
    cmd_criteria_match_windows env s
      = { s with owindows := (cmd_criteria_match_windows env s).owindows } := by
  have key := cmd_criteria_match_windows_loop_eq env s s.owindows []
  rw [List.nil_append] at key
  refine ⟨⟨fun con => @decide (criteria_keep env s con) (Classical.propDecidable _), ?_, key⟩,
    ?_, ?_, rfl⟩
  · intro con
    simp
  · intro con
    show con ∈ cmd_criteria_match_windows_loop env s s.owindows [] ↔ _
    rw [key]
    simp [List.mem_filter]
  · show List.Sublist (cmd_criteria_match_windows_loop env s s.owindows []) _
    rw [key]
    exact List.filter_sublist _

/-! ### `rename workspace` -/

theorem GREP_FIRST_foldl_some (env : Env) (s : State) (condition : Con → Bool)
    (outputs : List Nat) (dest : Option Nat) (w : Nat)
    (h : outputs.foldl
      (fun dest output => GREP_FIRST s.all_cons dest (env.output_get_content s output) condition)
      dest = some w) :
    dest = some w ∨ ∃ output ∈ outputs,
      w ∈ (getCon s.all_cons (env.output_get_content s output)).nodes_head ∧
      condition (getCon s.all_cons w) = true := by
  induction outputs generalizing dest with
  | nil => exact Or.inl h
  | cons output rest ih =>
    rw [List.foldl_cons] at h
    rcases ih _ h with h1 | ⟨o, ho, h2⟩
    · unfold GREP_FIRST at h1
      split at h1
      · rename_i child hfind
        cases h1
        refine Or.inr ⟨output, List.mem_cons_self _ _, List.mem_of_find?_eq_some hfind, ?_⟩
        exact @List.find?_some _ (fun child => condition (getCon s.all_cons child)) _ _ hfind
      · exact Or.inl h1
    · exact Or.inr ⟨o, List.mem_cons_of_mem _ ho, h2⟩

theorem GREP_FIRST_foldl_none (env : Env) (s : State) (condition : Con → Bool)
    (outputs : List Nat) (dest : Option Nat)
    (h : outputs.foldl
      (fun dest output => GREP_FIRST s.all_cons dest (env.output_get_content s output) condition)
      dest = none) :
    dest = none ∧ ∀ output ∈ outputs,
      ∀ child ∈ (getCon s.all_cons (env.output_get_content s output)).nodes_head,
      condition (getCon s.all_cons child) = false := by
  induction outputs generalizing dest with
  | nil => exact ⟨h, fun _ ho => absurd ho (List.not_mem_nil _)⟩
  | cons output rest ih =>
    rw [List.foldl_cons] at h
    obtain ⟨h1, h2⟩ := ih _ h
    unfold GREP_FIRST at h1
    split at h1
    · cases h1
    · rename_i hfind
      refine ⟨h1, ?_⟩
      intro o ho child hchild
      rcases List.mem_cons.mp ho with rfl | ho
      · have := List.find?_eq_none.mp hfind child hchild
        simpa using this
      · exact h2 o ho child hchild

theorem grep_workspaces_some (env : Env) (s : State) (condition : Con → Bool) (w : Nat)
    (h : grep_workspaces env s condition = some w) : workspace_with env s condition w := by
  rcases GREP_FIRST_foldl_some env s condition _ none w h with h1 | h1
  · cases h1
  · exact h1

theorem grep_workspaces_none (env : Env) (s : State) (condition : Con → Bool)
    (h : grep_workspaces env s condition = none) (w : Nat) :
    ¬ workspace_with env s condition w := by
  rintro ⟨output, ho, hw, hc⟩
  have := (GREP_FIRST_foldl_none env s condition _ none h).2 output ho w hw
  rw [this] at hc
  cases hc

theorem grep_workspaces_isSome_iff (env : Env) (s : State) (condition : Con → Bool) :
    (grep_workspaces env s condition).isSome = true ↔ ∃ w, workspace_with env s condition w := by
  cases h : grep_workspaces env s condition with
  | none =>
    simp only [Option.isSome_none, Bool.false_eq_true, false_iff]
    rintro ⟨w, hw⟩
    exact grep_workspaces_none env s condition h w hw
  | some w =>
    simp only [Option.isSome_some, true_iff]
    exact ⟨w, grep_workspaces_some env s condition w h⟩

theorem cmd_rename_workspace_renames (env : Env) (s : State) (old_name : Option String)
    (new_name : String) (ws : Nat)
    (hname : strncasecmp_eq new_name "__" 2 = false)
    (hws : (match old_name with
      | some old => grep_workspaces env s (fun child => strcasecmp_eq child.name old)
      | none => some (env.con_get_workspace s s.focused)) = some ws)
    (hnew : (grep_workspaces env s (fun child => strcasecmp_eq child.name new_name)).isSome
      = false) :
    (cmd_rename_workspace env s old_name new_name).all_cons
      = modifyCon s.all_cons ws
          (fun c => { c with name := new_name, num := env.ws_name_to_number new_name }) ∧
    Call.con_detach ws ∈ (cmd_rename_workspace env s old_name new_name).calls ∧
    (cmd_rename_workspace env s old_name new_name).cmd_output.needs_tree_render = true ∧
    (s.cmd_output.json_gen = true →
      (cmd_rename_workspace env s old_name new_name).cmd_output.json
        = s.cmd_output.json ++ [Reply.success true]) := by
  have hn : ¬ (strncasecmp_eq new_name "__" 2 = true) := by simp [hname]
  have hnew2 : ¬ ((grep_workspaces env s
      (fun child => strcasecmp_eq child.name new_name)).isSome = true) := by simp [hnew]
  unfold cmd_rename_workspace
  rw [if_neg hn]
  simp only [hws, if_neg hnew2]
  split
  · refine ⟨rfl, ?_, ?_, ?_⟩
    · simp [State.call, State.ysuccess, State.set_needs_tree_render]
    · simp only [State.call]
      rw [State.ysuccess_needs_tree_render]
      rfl
    · intro hj
      simp only [State.call]
      rw [State.ysuccess_json _ _ (by simpa [State.set_needs_tree_render] using hj)]
      rfl
  · refine ⟨rfl, ?_, ?_, ?_⟩
    · simp [State.call, State.ysuccess, State.set_needs_tree_render]
    · simp only [State.call]
      rw [State.ysuccess_needs_tree_render]
      rfl
    · intro hj
      simp only [State.call]
      rw [State.ysuccess_json _ _ (by simpa [State.set_needs_tree_render] using hj)]
      rfl

theorem renamed_workspace_found (env : Env) (s : State) (old_name : Option String) (ws : Nat) :
    renamed_workspace env s old_name ws →
    (match old_name with
      | some old => grep_workspaces env s (fun child => strcasecmp_eq child.name old)
      | none => some (env.con_get_workspace s s.focused)) = some ws := by
  intro hws
  cases old_name with
  | none => exact congrArg some hws.symm
  | some old => exact hws.1

/-- C19: for `cmd_rename_workspace(old, new)` with new not starting with "__": if some
workspace on some output has a name equal to new (compared without regard to case,
the workspace to rename included), the reply is an error and no container, so no
name or number, changes, no call (no re-attach) is made and needs_tree_render keeps
its value; likewise if old is given and no workspace has that name (compared the
same way).  Otherwise the renamed workspace gets name = new and
num = ws_name_to_number(new), is re-attached, needs_tree_render is set and the reply
is success:true. -/
theorem cmd_rename_workspace_checked (env : Env) (s : State) (old_name : Option String)
    (new_name : String) (hname : strncasecmp_eq new_name "__" 2 = false) :
    ((∃ w, workspace_with env s (fun child => strcasecmp_eq child.name new_name) w) →
      ∃ message, RefusedWith s (cmd_rename_workspace env s old_name new_name)
        (Reply.error message)) ∧
    (∀ old, old_name = some old →
      (¬ ∃ w, workspace_with env s (fun child => strcasecmp_eq child.name old) w) →
      ∃ message, RefusedWith s (cmd_rename_workspace env s old_name new_name)
        (Reply.error message)) ∧
    ((¬ ∃ w, workspace_with env s (fun child => strcasecmp_eq child.name new_name) w) →
      ∀ ws, renamed_workspace env s old_name ws →
        (cmd_rename_workspace env s old_name new_name).all_cons
          = modifyCon s.all_cons ws
              (fun c => { c with name := new_name, num := env.ws_name_to_number new_name }) ∧
        (∀ c, s.all_cons[ws]? = some c →
          (cmd_rename_workspace env s old_name new_name).all_cons[ws]?
            = some { c with name := new_name, num := env.ws_name_to_number new_name }) ∧
        Call.con_detach ws ∈ (cmd_rename_workspace env s old_name new_name).calls ∧
        (cmd_rename_workspace env s old_name new_name).cmd_output.needs_tree_render = true ∧
        (s.cmd_output.json_gen = true →
          (cmd_rename_workspace env s old_name new_name).cmd_output.json
            = s.cmd_output.json ++ [Reply.success true])) := by
  have hn : ¬ (strncasecmp_eq new_name "__" 2 = true) := by simp [hname]
  refine ⟨?_, ?_, ?_⟩
  · intro hex
    have hsome := (grep_workspaces_isSome_iff env s _).mpr hex
    unfold cmd_rename_workspace
    rw [if_neg hn]
    simp only [hsome, if_true]
    split
    · exact ⟨_, refusedWith_yerror s _⟩
    · exact ⟨_, refusedWith_yerror s _⟩
  · intro old hold hex
    subst hold
    have hnone : grep_workspaces env s (fun child => strcasecmp_eq child.name old) = none := by
      cases h : grep_workspaces env s (fun child => strcasecmp_eq child.name old) with
      | none => rfl
      | some w => exact absurd ⟨w, grep_workspaces_some env s _ w h⟩ hex
    unfold cmd_rename_workspace
    rw [if_neg hn]
    simp only [hnone]
    exact ⟨_, refusedWith_yerror s _⟩
  · intro hex ws hws
    have hnew : (grep_workspaces env s
        (fun child => strcasecmp_eq child.name new_name)).isSome = false := by
      cases h : (grep_workspaces env s
          (fun child => strcasecmp_eq child.name new_name)).isSome with
      | false => rfl
      | true => exact absurd ((grep_workspaces_isSome_iff env s _).mp h) hex
    have hfound := renamed_workspace_found env s old_name ws hws
    obtain ⟨h1, h2, h3, h4⟩ :=
      cmd_rename_workspace_renames env s old_name new_name ws hname hfound hnew
    refine ⟨h1, ?_, h2, h3, h4⟩
    intro c hc
    rw [h1, getElem?_modifyCon, hc]
    simp

theorem cmd_rename_workspace_checked_witness :
    (∃ message, RefusedWith workspaces_tree
      (cmd_rename_workspace workspaces_env workspaces_tree none "2") (Reply.error message)) ∧
    ((cmd_rename_workspace workspaces_env workspaces_tree (some "2") "3").all_cons[4]?).map
        (fun c => (c.name, c.num)) = some ("3", 3) := by
  refine ⟨(cmd_rename_workspace_checked workspaces_env workspaces_tree none "2" rfl).1
    ⟨4, 1, by decide, by decide, rfl⟩, ?_⟩
  rfl

/-! ### `gaps` -/

theorem gaps_fix_workspace_nodes_head (inner reset : Bool) (current_value : Int) (c : Con) :
    (gaps_fix_workspace inner reset current_value c).nodes_head = c.nodes_head := by
  unfold gaps_fix_workspace
  split
  · rfl
  · split <;> rfl

theorem get_gap_set_gap (inner : Bool) (g : gaps_t) (value : Int) :
    get_gap inner (set_gap inner g value) = value := by
  cases inner <;> rfl

theorem get_gap_set_gap_other (inner : Bool) (g : gaps_t) (value : Int) :
    get_gap (!inner) (set_gap inner g value) = get_gap (!inner) g := by
  cases inner <;> rfl

theorem set_gap_set_gap (inner : Bool) (g : gaps_t) (a b : Int) :
    set_gap inner (set_gap inner g a) b = set_gap inner g b := by
  cases inner <;> rfl

theorem gaps_fix_workspace_idem (inner reset : Bool) (current_value : Int) (c : Con) :
    gaps_fix_workspace inner reset current_value
        (gaps_fix_workspace inner reset current_value c)
      = gaps_fix_workspace inner reset current_value c := by
  cases reset with
  | true =>
    simp only [gaps_fix_workspace, if_true, set_gap_set_gap]
  | false =>
    by_cases h : current_value + get_gap inner c.gaps < 0
    · have e : gaps_fix_workspace inner false current_value c
          = { c with gaps := set_gap inner c.gaps (-current_value) } := by
        simp [gaps_fix_workspace, h]
      rw [e]
      simp [gaps_fix_workspace, get_gap_set_gap]
    · have e : gaps_fix_workspace inner false current_value c = c := by
        simp [gaps_fix_workspace, h]
      rw [e, e]

theorem gaps_fix_workspace_nonneg (inner reset : Bool) (current_value : Int) (c : Con)
    (h : 0 ≤ current_value) :
    0 ≤ current_value + get_gap inner (gaps_fix_workspace inner reset current_value c).gaps := by
  unfold gaps_fix_workspace
  split
  · simp only [get_gap_set_gap]; omega
  · split
    · simp only [get_gap_set_gap]; omega
    · omega

theorem gaps_fix_workspace_reset (inner : Bool) (current_value : Int) (c : Con) :
    get_gap inner (gaps_fix_workspace inner true current_value c).gaps = 0 := by
  simp [gaps_fix_workspace, get_gap_set_gap]

theorem gaps_fix_workspace_other (inner reset : Bool) (current_value : Int) (c : Con) :
    get_gap (!inner) (gaps_fix_workspace inner reset current_value c).gaps
      = get_gap (!inner) c.gaps := by
  unfold gaps_fix_workspace
  split
  · exact get_gap_set_gap_other _ _ _
  · split
    · exact get_gap_set_gap_other _ _ _
    · rfl

theorem updated_by_mono (g : Con → Con) (orig cons : List Con) (V W : Nat → Prop)
    (hVW : ∀ i, W i → V i) (h : updated_by g orig cons V) : updated_by g orig cons W :=
  ⟨h.1, fun i c hc => ⟨(h.2 i c hc).1, fun hw => (h.2 i c hc).2 (hVW i hw)⟩⟩

theorem updated_by_modifyCon (g : Con → Con) (hg : ∀ c, g (g c) = g c) (orig cons : List Con)
    (V : Nat → Prop) (p : Nat) (h : updated_by g orig cons V) :
    updated_by g orig (modifyCon cons p g) (fun i => V i ∨ i = p) := by
  refine ⟨by rw [length_modifyCon]; exact h.1, ?_⟩
  intro i c hc
  obtain ⟨h1, h2⟩ := h.2 i c hc
  rw [getElem?_modifyCon]
  by_cases hp : p = i
  · have e : (cons[i]?).map (fun c => if p = i then g c else c) = some (g c) := by
      rcases h1 with h1 | h1 <;> simp [h1, hp, hg]
    exact ⟨Or.inr e, fun _ => e⟩
  · have e : (cons[i]?).map (fun c => if p = i then g c else c) = cons[i]? := by
      cases cons[i]? <;> simp [hp]
    rw [e]
    refine ⟨h1, ?_⟩
    rintro (hv | hv)
    · exact h2 hv
    · exact absurd hv.symm hp

theorem updated_by_foldl (g : Con → Con) (hg : ∀ c, g (g c) = g c) (orig : List Con)
    (l : List Nat) (cons : List Con) (V : Nat → Prop) (h : updated_by g orig cons V) :
    updated_by g orig (l.foldl (fun cons p => modifyCon cons p g) cons)
      (fun i => V i ∨ i ∈ l) := by
  induction l generalizing cons V with
  | nil =>
    refine updated_by_mono g orig cons V _ ?_ h
    rintro i (hv | hv)
    · exact hv
    · cases hv
  | cons p rest ih =>
    rw [List.foldl_cons]
    refine updated_by_mono g orig _ _ _ ?_ (ih _ _ (updated_by_modifyCon g hg orig cons V p h))
    rintro i (hv | hv)
    · exact Or.inl (Or.inl hv)
    · rcases List.mem_cons.mp hv with hv | hv
      · exact Or.inl (Or.inr hv)
      · exact Or.inr hv

theorem updated_by_getCon (g : Con → Con) (orig cons : List Con) (V : Nat → Prop)
    (h : updated_by g orig cons V) (i : Nat) :
    getCon cons i = getCon orig i ∨ getCon cons i = g (getCon orig i) := by
  cases hc : orig[i]? with
  | none =>
    have hlen : orig.length ≤ i := List.getElem?_eq_none_iff.mp hc
    have hc2 : cons[i]? = none := List.getElem?_eq_none_iff.mpr (by rw [h.1]; exact hlen)
    left
    simp [getCon, List.getD_eq_getElem?_getD, hc, hc2]
  | some c =>
    rcases (h.2 i c hc).1 with h1 | h1
    · left; rw [getCon_of_getElem? h1, getCon_of_getElem? hc]
    · right; rw [getCon_of_getElem? h1, getCon_of_getElem? hc]

theorem updated_by_outer (g : Con → Con) (hg : ∀ c, g (g c) = g c)
    (hnodes : ∀ c, (g c).nodes_head = c.nodes_head) (orig : List Con) (content : Nat → Nat)
    (outputs : List Nat) (cons : List Con) (V : Nat → Prop) (h : updated_by g orig cons V) :
    updated_by g orig
      (outputs.foldl
        (fun cons output =>
          (getCon cons (content output)).nodes_head.foldl (fun cons p => modifyCon cons p g) cons)
        cons)
      (fun i => V i ∨ ∃ output ∈ outputs, i ∈ (getCon orig (content output)).nodes_head) := by
  induction outputs generalizing cons V with
  | nil =>
    refine updated_by_mono g orig cons V _ ?_ h
    rintro i (hv | ⟨o, ho, _⟩)
    · exact hv
    · cases ho
  | cons output rest ih =>
    rw [List.foldl_cons]
    have hsame : (getCon cons (content output)).nodes_head
        = (getCon orig (content output)).nodes_head := by
      rcases updated_by_getCon g orig cons V h (content output) with e | e
      · rw [e]
      · rw [e, hnodes]
    rw [hsame]
    refine updated_by_mono g orig _ _ _ ?_
      (ih _ _ (updated_by_foldl g hg orig (getCon orig (content output)).nodes_head cons V h))
    rintro i (hv | ⟨o, ho, hi⟩)
    · exact Or.inl (Or.inl hv)
    · rcases List.mem_cons.mp ho with rfl | ho
      · exact Or.inl (Or.inr hi)
      · exact Or.inr ⟨o, ho, hi⟩

theorem gaps_new_value_of_requested (mode : String) (old px v : Int)
    (h : gaps_requested mode old px = some v) :
    gaps_new_value mode old px = some (max 0 v, decide (mode = "set")) := by
  unfold gaps_requested at h
  unfold gaps_new_value
  have hmax : ∀ x : Int, (if x < 0 then 0 else x) = max 0 x := by
    intro x
    split <;> omega
  by_cases h1 : mode = "plus"
  · subst h1
    simp only [if_true] at h
    cases h
    simp [hmax]
  · by_cases h2 : mode = "minus"
    · subst h2
      simp only [if_neg h1, if_true] at h
      cases h
      simp [hmax]
    · by_cases h3 : mode = "set"
      · subst h3
        simp only [if_neg h1, if_neg h2, if_true] at h
        cases h
        simp [hmax]
      · simp [h1, h2, h3] at h

theorem getCon_modifyCon_cases (cons : List Con) (p : Nat) (f : Con → Con) (i : Nat) :
    getCon (modifyCon cons p f) i = getCon cons i ∨
    getCon (modifyCon cons p f) i = f (getCon cons i) := by
  by_cases hp : p = i
  · by_cases hi : i < cons.length
    · right
      rw [getCon_modifyCon cons p f i hi, if_pos hp]
    · left
      have h1 : cons[i]? = none := List.getElem?_eq_none_iff.mpr (by omega)
      have h2 : (modifyCon cons p f)[i]? = none := by rw [getElem?_modifyCon, h1]; rfl
      simp [getCon, List.getD_eq_getElem?_getD, h1, h2]
  · left
    exact getCon_modifyCon_ne cons p f i hp

theorem gaps_fix_all_updated (env : Env) (s : State) (inner reset : Bool) (current_value : Int) :
    updated_by (gaps_fix_workspace inner reset current_value) s.all_cons
      (gaps_fix_all env s inner reset current_value)
      (fun i => workspace_with env s (fun _ => true) i) := by
  have h0 : updated_by (gaps_fix_workspace inner reset current_value) s.all_cons s.all_cons
      (fun _ => False) :=
    ⟨rfl, fun i c hc => ⟨Or.inl hc, fun hf => hf.elim⟩⟩
  refine updated_by_mono _ _ _ _ _ ?_
    (updated_by_outer _ (gaps_fix_workspace_idem inner reset current_value)
      (gaps_fix_workspace_nodes_head inner reset current_value) s.all_cons
      (env.output_get_content s) (getCon s.all_cons s.croot).nodes_head s.all_cons _ h0)
  rintro i ⟨output, ho, hi, _⟩
  exact Or.inr ⟨output, ho, hi⟩

theorem CMD_GAPS_other (env : Env) (s : State) (inner : Bool) (scope mode : String)
    (pixels : Int) :
    get_gap (!inner) (CMD_GAPS env s inner scope mode pixels).2.config_gaps
      = get_gap (!inner) s.config_gaps ∧
    ∀ i, get_gap (!inner) (getCon (CMD_GAPS env s inner scope mode pixels).2.all_cons i).gaps
      = get_gap (!inner) (getCon s.all_cons i).gaps := by
  unfold CMD_GAPS
  simp only []
  split
  · exact ⟨rfl, fun _ => rfl⟩
  · rename_i current_value reset _
    split
    · refine ⟨get_gap_set_gap_other _ _ _, ?_⟩
      intro i
      rcases updated_by_getCon _ _ _ _ (gaps_fix_all_updated env s inner reset current_value) i
        with e | e
      · simp only [e]
      · simp only [e]
        exact gaps_fix_workspace_other _ _ _ _
    · refine ⟨rfl, ?_⟩
      intro i
      rcases getCon_modifyCon_cases s.all_cons (env.con_get_workspace s s.focused)
        (fun c => { c with
          gaps := set_gap inner c.gaps (current_value - get_gap inner s.config_gaps) })
        i with e | e
      · simp only [e]
      · simp only [e]
        exact get_gap_set_gap_other _ _ _

theorem cmd_gaps_fields (env : Env) (s : State) (type scope mode : String) (value : Int)
    (inner : Bool)
    (htype : (type = "inner" ∧ inner = true) ∨ (type = "outer" ∧ inner = false)) :
    (cmd_gaps env s type scope mode value).all_cons
      = (CMD_GAPS env s inner scope mode value).2.all_cons ∧
    (cmd_gaps env s type scope mode value).config_gaps
      = (CMD_GAPS env s inner scope mode value).2.config_gaps ∧
    ((CMD_GAPS env s inner scope mode value).1 = true →
      (cmd_gaps env s type scope mode value).cmd_output
        = ysuccess { (CMD_GAPS env s inner scope mode value).2.cmd_output with
            needs_tree_render := true } true) := by
  have key : cmd_gaps env s type scope mode value
      = if (CMD_GAPS env s inner scope mode value).1 then
          (CMD_GAPS env s inner scope mode value).2.set_needs_tree_render.ysuccess true
        else (CMD_GAPS env s inner scope mode value).2 := by
    rcases htype with ⟨h1, h2⟩ | ⟨h1, h2⟩ <;> subst h1 <;> subst h2 <;> rfl
  rw [key]
  cases h : (CMD_GAPS env s inner scope mode value).1 with
  | true => exact ⟨rfl, rfl, fun _ => rfl⟩
  | false =>
    refine ⟨rfl, rfl, fun hf => ?_⟩
    cases hf

theorem CMD_GAPS_current (env : Env) (s : State) (inner : Bool) (mode : String)
    (pixels v : Int)
    (h : gaps_requested mode (effective_gap inner s (env.con_get_workspace s s.focused)) pixels
      = some v) :
    (CMD_GAPS env s inner "current" mode pixels).1 = true ∧
    (CMD_GAPS env s inner "current" mode pixels).2.all_cons
      = modifyCon s.all_cons (env.con_get_workspace s s.focused)
          (fun c => { c with
            gaps := set_gap inner c.gaps (max 0 v - get_gap inner s.config_gaps) }) ∧
    (CMD_GAPS env s inner "current" mode pixels).2.config_gaps = s.config_gaps ∧
    (CMD_GAPS env s inner "current" mode pixels).2.cmd_output = s.cmd_output := by
  have h2 := gaps_new_value_of_requested mode _ pixels v h
  unfold effective_gap at h2
  unfold CMD_GAPS
  have e1 : ("current" == "current") = true := by decide
  have e2 : ("current" == "all") = false := by decide
  simp only [e1, e2, if_true, h2, Bool.false_eq_true, if_false]
  refine ⟨?_, ?_, ?_, ?_⟩ <;> trivial

theorem CMD_GAPS_all (env : Env) (s : State) (inner : Bool) (mode : String) (pixels v : Int)
    (h : gaps_requested mode (get_gap inner s.config_gaps) pixels = some v) :
    (CMD_GAPS env s inner "all" mode pixels).1 = true ∧
    (CMD_GAPS env s inner "all" mode pixels).2.all_cons
      = gaps_fix_all env s inner (decide (mode = "set")) (max 0 v) ∧
    (CMD_GAPS env s inner "all" mode pixels).2.config_gaps
      = set_gap inner s.config_gaps (max 0 v) ∧
    (CMD_GAPS env s inner "all" mode pixels).2.cmd_output = s.cmd_output := by
  have h2 := gaps_new_value_of_requested mode _ pixels v h
  unfold CMD_GAPS
  have e1 : ("all" == "current") = false := by decide
  have e2 : ("all" == "all") = true := by decide
  simp only [e1, e2, if_true, h2, Bool.false_eq_true, if_false]
  refine ⟨?_, ?_, ?_, ?_⟩ <;> trivial

/-- C20: after `cmd_gaps(type, scope, mode, px)` with type `inner` or `outer` and a
valid mode, on unbounded integers: with scope `current` the effective gap
config.gaps.type + workspace.gaps.type of the workspace of the focused container is
max(0, v), where v is the old effective gap plus px, minus px, or px itself for
`set`, and config.gaps is unchanged; with scope `all`, config.gaps.type is max(0, v)
for v computed from the old global value, and every workspace on every output has an
effective gap >= 0 afterwards, its own offset being 0 after `set`.  In both scopes
the reply is success:true and needs_tree_render is set.  The gap of the other type is
unchanged in the configuration and in every container. -/
theorem cmd_gaps_clamped (env : Env) (s : State) (type scope mode : String) (value : Int)
    (inner : Bool) (v : Int)
    (htype : (type = "inner" ∧ inner = true) ∨ (type = "outer" ∧ inner = false)) :
    (scope = "current" →
      env.con_get_workspace s s.focused < s.all_cons.length →
      gaps_requested mode (effective_gap inner s (env.con_get_workspace s s.focused)) value
        = some v →
      effective_gap inner (cmd_gaps env s type scope mode value)
          (env.con_get_workspace s s.focused) = max 0 v ∧
      (cmd_gaps env s type scope mode value).config_gaps = s.config_gaps ∧
      (cmd_gaps env s type scope mode value).cmd_output
        = ysuccess { s.cmd_output with needs_tree_render := true } true) ∧
    (scope = "all" →
      gaps_requested mode (get_gap inner s.config_gaps) value = some v →
      get_gap inner (cmd_gaps env s type scope mode value).config_gaps = max 0 v ∧
      (∀ w, workspace_with env s (fun _ => true) w →
        0 ≤ effective_gap inner (cmd_gaps env s type scope mode value) w ∧
        (mode = "set" →
          get_gap inner (getCon (cmd_gaps env s type scope mode value).all_cons w).gaps = 0)) ∧
      (cmd_gaps env s type scope mode value).cmd_output
        = ysuccess { s.cmd_output with needs_tree_render := true } true) ∧
    (get_gap (!inner) (cmd_gaps env s type scope mode value).config_gaps
        = get_gap (!inner) s.config_gaps ∧
      ∀ i, get_gap (!inner) (getCon (cmd_gaps env s type scope mode value).all_cons i).gaps
        = get_gap (!inner) (getCon s.all_cons i).gaps) := by
  obtain ⟨hcons, hconfig, hout⟩ := cmd_gaps_fields env s type scope mode value inner htype
  refine ⟨?_, ?_, ?_⟩
  · intro hscope hws hv
    subst hscope
    obtain ⟨e1, e2, e3, e4⟩ := CMD_GAPS_current env s inner mode value v hv
    rw [e2] at hcons
    rw [e3] at hconfig
    rw [e4] at hout
    refine ⟨?_, hconfig, hout e1⟩
    unfold effective_gap
    rw [hcons, hconfig, getCon_modifyCon_self _ _ _ hws]
    simp only [get_gap_set_gap]
    omega
  · intro hscope hv
    subst hscope
    obtain ⟨e1, e2, e3, e4⟩ := CMD_GAPS_all env s inner mode value v hv
    rw [e2] at hcons
    rw [e3] at hconfig
    rw [e4] at hout
    have hupd := gaps_fix_all_updated env s inner (decide (mode = "set")) (max 0 v)
    refine ⟨?_, ?_, hout e1⟩
    · rw [hconfig]
      exact get_gap_set_gap _ _ _
    · intro w hw
      have hw2 : getCon (gaps_fix_all env s inner (decide (mode = "set")) (max 0 v)) w
            = gaps_fix_workspace inner (decide (mode = "set")) (max 0 v) (getCon s.all_cons w) ∨
          (getCon (gaps_fix_all env s inner (decide (mode = "set")) (max 0 v)) w = default ∧
            s.all_cons[w]? = none) := by
        cases hc : s.all_cons[w]? with
        | some c =>
          left
          rw [getCon_of_getElem? ((hupd.2 w c hc).2 hw), getCon_of_getElem? hc]
        | none =>
          right
          have hlen : s.all_cons.length ≤ w := List.getElem?_eq_none_iff.mp hc
          have hc2 : (gaps_fix_all env s inner (decide (mode = "set")) (max 0 v))[w]? = none :=
            List.getElem?_eq_none_iff.mpr (by rw [hupd.1]; exact hlen)
          exact ⟨by simp [getCon, List.getD_eq_getElem?_getD, hc2], rfl⟩
      unfold effective_gap
      rw [hcons, hconfig]
      simp only [get_gap_set_gap]
      rcases hw2 with e2 | ⟨e2, _⟩
      · rw [e2]
        refine ⟨gaps_fix_workspace_nonneg _ _ _ _ (le_max_left 0 v), ?_⟩
        intro hset
        subst hset
        exact gaps_fix_workspace_reset _ _ _
      · rw [e2]
        have hd : get_gap inner (default : Con).gaps = 0 := by cases inner <;> rfl
        rw [hd]
        exact ⟨by have := le_max_left 0 v; omega, fun _ => rfl⟩
  · rw [hcons, hconfig]
    exact CMD_GAPS_other env s inner scope mode value

theorem cmd_gaps_clamped_witness :
    effective_gap true (cmd_gaps workspaces_env workspaces_tree "inner" "current" "minus" 10) 3
        = max 0 (-10) ∧
    (cmd_gaps workspaces_env workspaces_tree "inner" "current" "minus" 10).config_gaps
        = workspaces_tree.config_gaps ∧
    (cmd_gaps workspaces_env workspaces_tree "inner" "current" "minus" 10).cmd_output
        = ysuccess { workspaces_tree.cmd_output with needs_tree_render := true } true :=
  (cmd_gaps_clamped workspaces_env workspaces_tree "inner" "current" "minus" 10 true (-10)
    (Or.inl ⟨rfl, rfl⟩)).1 rfl (by decide) rfl

/-! ### `border toggle` -/

theorem cmd_border_loop_toggle (env : Env) (border_width : Option Int) (l : List Nat)
    (s : State) :
    cmd_border_loop env "toggle" border_width l s
      = ({ s with calls := s.calls ++ l.map (toggle_call env border_width s.all_cons) }
          ).set_needs_tree_render.ysuccess true := by
  induction l generalizing s with
  | nil =>
    simp [cmd_border_loop]
  | cons current rest ih =>
    unfold cmd_border_loop
    have e : ("toggle" == "toggle") = true := by decide
    simp only [e, if_true]
    rw [ih]
    simp [State.call, toggle_call, toggled_style, List.append_assoc]

theorem foldl_apply_border_call (F G : Nat → Int) (l : List Nat) (cons : List Con) :
    (l.map (fun con => Call.con_set_border_style con (F con) (G con))).foldl
        apply_border_call cons
      = l.foldl (fun cons con => modifyCon cons con (fun c => { c with border_style := F con }))
          cons := by
  induction l generalizing cons with
  | nil => rfl
  | cons a l ih =>
    simp only [List.map_cons, List.foldl_cons, apply_border_call]
    exact ih _

theorem getCon_foldl_set_border_style (F : Nat → Int) (l : List Nat) (hnd : l.Nodup)
    (cons : List Con) (i : Nat) (hi : i < cons.length) :
    getCon (l.foldl (fun cons con =>
        modifyCon cons con (fun c => { c with border_style := F con })) cons) i
      = if i ∈ l then { getCon cons i with border_style := F i } else getCon cons i := by
  induction l generalizing cons with
  | nil => simp
  | cons a l ih =>
    rw [List.nodup_cons] at hnd
    rw [List.foldl_cons, ih hnd.2 _ (by rw [length_modifyCon]; exact hi)]
    by_cases ha : a = i
    · subst ha
      rw [getCon_modifyCon_self _ _ _ hi]
      simp [hnd.1]
    · rw [getCon_modifyCon_ne _ _ _ _ ha]
      have : (i ∈ a :: l) ↔ i ∈ l := by
        simp [List.mem_cons, Ne.symm ha]
      simp only [this]

theorem toggled_style_cycle (b : Int) (hb : b = 0 ∨ b = 1 ∨ b = 2) :
    toggled_style (toggled_style (toggled_style b)) = b := by
  rcases hb with h | h | h <;> subst h <;> rfl

theorem cmd_border_toggle_eq (env : Env) (s : State) (border_width : Option Int) :
    cmd_border env s "toggle" border_width
      = ({ HANDLE_EMPTY_MATCH env s with
            calls := s.calls ++ (HANDLE_EMPTY_MATCH env s).owindows.map
              (toggle_call env border_width s.all_cons) }).set_needs_tree_render.ysuccess true := by
  unfold cmd_border
  simp only []
  rw [cmd_border_loop_toggle]
  have h1 : (HANDLE_EMPTY_MATCH env s).calls = s.calls := by
    unfold HANDLE_EMPTY_MATCH; split <;> rfl
  have h2 : (HANDLE_EMPTY_MATCH env s).all_cons = s.all_cons := by
    unfold HANDLE_EMPTY_MATCH; split <;> rfl
  rw [h1, h2]

theorem border_toggle_all_cons (env : Env) (s : State) :
    (border_toggle env s).all_cons
      = (HANDLE_EMPTY_MATCH env s).owindows.foldl
          (fun cons con => modifyCon cons con
            (fun c => { c with border_style := toggled_style (getCon s.all_cons con).border_style }))
          s.all_cons := by
  have h2 : (HANDLE_EMPTY_MATCH env s).all_cons = s.all_cons := by
    unfold HANDLE_EMPTY_MATCH; split <;> rfl
  unfold border_toggle
  simp only [cmd_border_toggle_eq]
  show List.foldl apply_border_call (HANDLE_EMPTY_MATCH env s).all_cons
      (List.drop s.calls.length (s.calls ++ _)) = _
  rw [List.drop_left, h2]
  exact foldl_apply_border_call
    (fun con => toggled_style (getCon s.all_cons con).border_style) _ _ _

theorem border_toggle_working_set (env : Env) (s : State) :
    (HANDLE_EMPTY_MATCH env (border_toggle env s)).owindows
      = (HANDLE_EMPTY_MATCH env s).owindows ∧
    (border_toggle env s).all_cons.length = s.all_cons.length := by
  constructor
  · have e : border_toggle env s = { (HANDLE_EMPTY_MATCH env s) with
        all_cons := (border_toggle env s).all_cons,
        calls := (border_toggle env s).calls,
        cmd_output := (border_toggle env s).cmd_output } := by
      unfold border_toggle
      simp only [cmd_border_toggle_eq]
      rfl
    rw [e]
    unfold HANDLE_EMPTY_MATCH
    split <;> simp_all
  · rw [border_toggle_all_cons]
    have : ∀ (F : Nat → Int) (l : List Nat) (cons : List Con),
        (l.foldl (fun cons con => modifyCon cons con
          (fun c => { c with border_style := F con })) cons).length = cons.length := by
      intro F l
      induction l with
      | nil => intro cons; rfl
      | cons a l ih => intro cons; rw [List.foldl_cons, ih, length_modifyCon]
    exact this (fun con => toggled_style (getCon s.all_cons con).border_style) _ s.all_cons

theorem border_toggle_style (env : Env) (s : State) (con : Nat)
    (hnd : (HANDLE_EMPTY_MATCH env s).owindows.Nodup)
    (hcon : con ∈ (HANDLE_EMPTY_MATCH env s).owindows) (hvalid : con < s.all_cons.length) :
    getCon (border_toggle env s).all_cons con
      = { getCon s.all_cons con with
          border_style := toggled_style (getCon s.all_cons con).border_style } := by
  rw [border_toggle_all_cons,
    getCon_foldl_set_border_style
      (fun con => toggled_style (getCon s.all_cons con).border_style) _ hnd _ _ hvalid,
    if_pos hcon]

/-- C21, counterexample: with BS_NORMAL = 0, BS_NONE = 1 and BS_PIXEL = 2, a `border
toggle` on the focused leaf, whose style is Normal, hands the style None (with width
0) to `con_set_border_style`, not Pixel. -/
theorem cmd_border_toggle_order_counterexample :
    (example_env.BS_NORMAL, example_env.BS_NONE, example_env.BS_PIXEL) = (0, 1, 2) ∧
    (getCon (two_leaves (1 / 2) (1 / 2)).all_cons 3).border_style = example_env.BS_NORMAL ∧
    (cmd_border example_env (two_leaves (1 / 2) (1 / 2)) "toggle" none).calls
      = [Call.con_set_border_style 3 example_env.BS_NONE 0] := by
  refine ⟨rfl, rfl, rfl⟩

/-- C21, amended: `border toggle` hands to `con_set_border_style`, for every container
of the working set, the style (old style + 1) modulo 3; with BS_NORMAL = 0,
BS_NONE = 1 and BS_PIXEL = 2 the styles cycle in the order Normal → None → Pixel (and
from Pixel back to Normal), with the border widths 0 for None, 1 for Pixel and 2 for
Normal.  Once the calls have stored their styles, the style of a target container is
the next one of the cycle, and three successive toggles restore the original style. -/
theorem cmd_border_toggle_cycle (env : Env) (s : State) (con : Nat)
    (hN : env.BS_NORMAL = 0) (hO : env.BS_NONE = 1) (hP : env.BS_PIXEL = 2)
    (hnd : (HANDLE_EMPTY_MATCH env s).owindows.Nodup)
    (hcon : con ∈ (HANDLE_EMPTY_MATCH env s).owindows) (hvalid : con < s.all_cons.length)
    (hstyle : (getCon s.all_cons con).border_style = env.BS_NORMAL ∨
      (getCon s.all_cons con).border_style = env.BS_NONE ∨
      (getCon s.all_cons con).border_style = env.BS_PIXEL) :
    (((getCon s.all_cons con).border_style = env.BS_NORMAL →
        Call.con_set_border_style con env.BS_NONE 0
          ∈ (cmd_border env s "toggle" none).calls) ∧
      ((getCon s.all_cons con).border_style = env.BS_NONE →
        Call.con_set_border_style con env.BS_PIXEL 1
          ∈ (cmd_border env s "toggle" none).calls) ∧
      ((getCon s.all_cons con).border_style = env.BS_PIXEL →
        Call.con_set_border_style con env.BS_NORMAL 2
          ∈ (cmd_border env s "toggle" none).calls)) ∧
    (cmd_border env s "toggle" none).cmd_output.needs_tree_render = true ∧
    (s.cmd_output.json_gen = true →
      (cmd_border env s "toggle" none).cmd_output.json
        = s.cmd_output.json ++ [Reply.success true]) ∧
    (getCon (border_toggle env s).all_cons con).border_style
      = toggled_style (getCon s.all_cons con).border_style ∧
    (getCon (border_toggle env (border_toggle env (border_toggle env s))).all_cons con).border_style
      = (getCon s.all_cons con).border_style := by
  have hcall : toggle_call env none s.all_cons con ∈ (cmd_border env s "toggle" none).calls := by
    rw [cmd_border_toggle_eq]
    show _ ∈ s.calls ++ _
    exact List.mem_append_right _ (List.mem_map_of_mem _ hcon)
  have hcmd : (HANDLE_EMPTY_MATCH env s).cmd_output = s.cmd_output := by
    unfold HANDLE_EMPTY_MATCH; split <;> rfl
  have t1 : Int.tmod 1 3 = 1 := rfl
  have t2 : Int.tmod 2 3 = 2 := rfl
  have t3 : Int.tmod 3 3 = 0 := rfl
  refine ⟨⟨?_, ?_, ?_⟩, ?_, ?_, ?_, ?_⟩
  · intro h
    have e : toggle_call env none s.all_cons con = Call.con_set_border_style con env.BS_NONE 0 := by
      simp [toggle_call, toggled_style, h, hN, hO, hP, t1, t2, t3]
    rw [← e]; exact hcall
  · intro h
    have e : toggle_call env none s.all_cons con = Call.con_set_border_style con env.BS_PIXEL 1 := by
      simp [toggle_call, toggled_style, h, hN, hO, hP, t1, t2, t3]
    rw [← e]; exact hcall
  · intro h
    have e : toggle_call env none s.all_cons con = Call.con_set_border_style con env.BS_NORMAL 2 := by
      simp [toggle_call, toggled_style, h, hN, hO, hP, t1, t2, t3]
    rw [← e]; exact hcall
  · rw [cmd_border_toggle_eq, State.ysuccess_needs_tree_render]
    rfl
  · intro hj
    rw [cmd_border_toggle_eq, State.ysuccess_json _ _
      (by simpa [State.set_needs_tree_render, hcmd] using hj)]
    simp [State.set_needs_tree_render, hcmd]
  · rw [border_toggle_style env s con hnd hcon hvalid]
  · have w1 := border_toggle_working_set env s
    have w2 := border_toggle_working_set env (border_toggle env s)
    have s1 := border_toggle_style env s con hnd hcon hvalid
    have s2 := border_toggle_style env (border_toggle env s) con (by rw [w1.1]; exact hnd)
      (by rw [w1.1]; exact hcon) (by rw [w1.2]; exact hvalid)
    have s3 := border_toggle_style env (border_toggle env (border_toggle env s)) con
      (by rw [w2.1, w1.1]; exact hnd) (by rw [w2.1, w1.1]; exact hcon)
      (by rw [w2.2, w1.2]; exact hvalid)
    rw [s3, s2, s1]
    simp only []
    apply toggled_style_cycle
    rw [hN, hO, hP] at hstyle
    exact hstyle

theorem cmd_border_toggle_cycle_witness :
    (getCon (border_toggle example_env (two_leaves (1 / 2) (1 / 2))).all_cons 3).border_style
      = toggled_style (getCon (two_leaves (1 / 2) (1 / 2)).all_cons 3).border_style ∧
    (getCon (border_toggle example_env (border_toggle example_env
        (border_toggle example_env (two_leaves (1 / 2) (1 / 2))))).all_cons 3).border_style
      = (getCon (two_leaves (1 / 2) (1 / 2)).all_cons 3).border_style :=
  (cmd_border_toggle_cycle example_env (two_leaves (1 / 2) (1 / 2)) 3 rfl rfl rfl
    (by simp [HANDLE_EMPTY_MATCH, example_env, two_leaves, two_leaves_with])
    (by simp [HANDLE_EMPTY_MATCH, example_env, two_leaves, two_leaves_with])
    (by simp [two_leaves, two_leaves_with]) (Or.inl rfl)).2.2.2

/-! ### `title_format` -/

theorem set_title_format_eq (format : String) (w : Window) :
    set_title_format format w
      = { w with
          title_format := if strcasecmp_eq format "%title" = true then none else some format,
          name_x_changed := true } := by
  unfold set_title_format
  by_cases h : strcasecmp_eq format "%title" = true <;> simp [h]

theorem set_title_format_idem (format : String) (w : Window) :
    set_title_format format (set_title_format format w) = set_title_format format w := by
  simp only [set_title_format_eq]

theorem getElem?_foldl_modifyCon_not_mem (g : Con → Con) (l : List Nat) (cons : List Con)
    (i : Nat) (hi : i ∉ l) :
    (l.foldl (fun cons p => modifyCon cons p g) cons)[i]? = cons[i]? := by
  induction l generalizing cons with
  | nil => rfl
  | cons a l ih =>
    rw [List.foldl_cons, ih _ (fun h => hi (List.mem_cons_of_mem _ h)), getElem?_modifyCon]
    have ha : a ≠ i := fun h => hi (h ▸ List.mem_cons_self _ _)
    cases cons[i]? <;> simp [ha]

/-- C22: after `cmd_title_format(fmt)`, every container of the working set that has a
window has window.title_format = null if fmt equals "%title" (compared without regard
to case) and = fmt otherwise, and name_x_changed = true, the rest of the window and of
the container being as before; containers of the working set without a window, and
all containers outside the working set, are unchanged; needs_tree_render is set and
the reply is success:true. -/
theorem cmd_title_format_sets (env : Env) (s : State) (format : String) :
    (∀ con ∈ (HANDLE_EMPTY_MATCH env s).owindows, ∀ c, s.all_cons[con]? = some c →
      (∀ w, c.window = some w →
        (cmd_title_format env s format).all_cons[con]?
          = some { c with window := some { w with
              title_format :=
                if strcasecmp_eq format "%title" = true then none else some format,
              name_x_changed := true } }) ∧
      (c.window = none → (cmd_title_format env s format).all_cons[con]? = some c)) ∧
    (∀ i, i ∉ (HANDLE_EMPTY_MATCH env s).owindows →
      (cmd_title_format env s format).all_cons[i]? = s.all_cons[i]?) ∧
    (cmd_title_format env s format).cmd_output.needs_tree_render = true ∧
    (s.cmd_output.json_gen = true →
      (cmd_title_format env s format).cmd_output.json
        = s.cmd_output.json ++ [Reply.success true]) := by
  have h2 : (HANDLE_EMPTY_MATCH env s).all_cons = s.all_cons := by
    unfold HANDLE_EMPTY_MATCH; split <;> rfl
  have hcmd : (HANDLE_EMPTY_MATCH env s).cmd_output = s.cmd_output := by
    unfold HANDLE_EMPTY_MATCH; split <;> rfl
  have hcons : (cmd_title_format env s format).all_cons
      = (HANDLE_EMPTY_MATCH env s).owindows.foldl
          (fun cons current => modifyCon cons current
            (fun c => { c with window := c.window.map (set_title_format format) }))
          s.all_cons := by
    unfold cmd_title_format
    simp only [h2]
    rfl
  have hidem : ∀ c : Con,
      (fun c : Con => { c with window := c.window.map (set_title_format format) })
        ((fun c : Con => { c with window := c.window.map (set_title_format format) }) c)
      = (fun c : Con => { c with window := c.window.map (set_title_format format) }) c := by
    intro c
    cases hw : c.window <;> simp [hw, set_title_format_idem]
  have h0 : updated_by (fun c : Con => { c with window := c.window.map (set_title_format format) })
      s.all_cons s.all_cons (fun _ => False) :=
    ⟨rfl, fun i c hc => ⟨Or.inl hc, fun hf => hf.elim⟩⟩
  have hupd := updated_by_foldl _ hidem s.all_cons (HANDLE_EMPTY_MATCH env s).owindows
    s.all_cons _ h0
  refine ⟨?_, ?_, ?_, ?_⟩
  · intro con hcon c hc
    have hnew := (hupd.2 con c hc).2 (Or.inr hcon)
    rw [hcons, hnew]
    constructor
    · intro w hw
      simp [hw, set_title_format_eq]
    · intro hw
      cases c
      simp_all
  · intro i hi
    rw [hcons]
    exact getElem?_foldl_modifyCon_not_mem _ _ _ _ hi
  · unfold cmd_title_format
    rw [State.ysuccess_needs_tree_render]
    rfl
  · intro hj
    unfold cmd_title_format
    rw [State.ysuccess_json _ _ (by simpa [State.set_needs_tree_render, hcmd] using hj)]
    simp [State.set_needs_tree_render, hcmd]

/-! ### Floating resize -/

theorem u32_cast (n : Int) : ((u32 n : Nat) : Int) = n % 2 ^ 32 := by
  unfold u32
  have : 0 ≤ n % 2 ^ 32 := Int.emod_nonneg _ (by norm_num)
  omega

theorem u32_anchor (y h2 h0 : Nat) :
    u32 (((u32 ((y : Int) - u32 ((h2 : Int) - h0)) : Nat) : Int) + h2) = u32 ((y : Int) + h0) := by
  have e : ∀ a b : Int, a % 2 ^ 32 = b % 2 ^ 32 → u32 a = u32 b := by
    intro a b h; unfold u32; rw [h]
  apply e
  rw [u32_cast, u32_cast]
  omega

theorem scratchpad_changed_rect (c : Con) :
    (if c.scratchpad_state = scratchpad_state_t.SCRATCHPAD_FRESH then
      { c with scratchpad_state := scratchpad_state_t.SCRATCHPAD_CHANGED } else c).rect
      = c.rect := by
  split <;> rfl

theorem cmd_resize_floating_tail (direction : String) (fc : Nat) (old_rect : Rect)
    (cons2 : List Con) (hv : fc < cons2.length) :
    (getCon
      (if (getCon cons2 fc).rect = old_rect then cons2
       else
        modifyCon
          (if direction == "up" then
            modifyCon cons2 fc (fun c => { c with rect := { c.rect with
              y := u32 ((c.rect.y : Int) - u32 ((c.rect.height : Int) - old_rect.height)) } })
          else if direction == "left" then
            modifyCon cons2 fc (fun c => { c with rect := { c.rect with
              x := u32 ((c.rect.x : Int) - u32 ((c.rect.width : Int) - old_rect.width)) } })
          else cons2)
          fc
          (fun c =>
            if c.scratchpad_state = scratchpad_state_t.SCRATCHPAD_FRESH then
              { c with scratchpad_state := scratchpad_state_t.SCRATCHPAD_CHANGED }
            else c)) fc).rect
      = (if (getCon cons2 fc).rect = old_rect then (getCon cons2 fc).rect
         else if direction = "up" then
          { (getCon cons2 fc).rect with
            y := u32 (((getCon cons2 fc).rect.y : Int)
              - u32 (((getCon cons2 fc).rect.height : Int) - old_rect.height)) }
         else if direction = "left" then
          { (getCon cons2 fc).rect with
            x := u32 (((getCon cons2 fc).rect.x : Int)
              - u32 (((getCon cons2 fc).rect.width : Int) - old_rect.width)) }
         else (getCon cons2 fc).rect) := by
  by_cases h : (getCon cons2 fc).rect = old_rect
  · rw [if_pos h, if_pos h]
  · rw [if_neg h, if_neg h]
    simp only [beq_iff_eq]
    by_cases hu : direction = "up"
    · rw [if_pos hu, if_pos hu,
        getCon_modifyCon_self _ _ _ (by rw [length_modifyCon]; exact hv),
        scratchpad_changed_rect, getCon_modifyCon_self _ _ _ hv]
    · rw [if_neg hu, if_neg hu]
      by_cases hl : direction = "left"
      · rw [if_pos hl, if_pos hl,
          getCon_modifyCon_self _ _ _ (by rw [length_modifyCon]; exact hv),
          scratchpad_changed_rect, getCon_modifyCon_self _ _ _ hv]
      · rw [if_neg hl, if_neg hl, getCon_modifyCon_self _ _ _ hv, scratchpad_changed_rect]

theorem cmd_resize_floating_request (s : State) (direction : String) (fc : Nat) (q : Int)
    (hvalid : fc < s.all_cons.length) :
    (if direction == "up" then
        modifyCon s.all_cons fc
          (fun c => { c with rect := { c.rect with height := u32 (c.rect.height + q) } })
      else if direction == "down" ∨ direction == "height" then
        modifyCon s.all_cons fc
          (fun c => { c with rect := { c.rect with height := u32 (c.rect.height + q) } })
      else if direction == "left" then
        modifyCon s.all_cons fc
          (fun c => { c with rect := { c.rect with width := u32 (c.rect.width + q) } })
      else
        modifyCon s.all_cons fc
          (fun c => { c with rect := { c.rect with width := u32 (c.rect.width + q) } })).length
      = s.all_cons.length ∧
    (getCon
      (if direction == "up" then
        modifyCon s.all_cons fc
          (fun c => { c with rect := { c.rect with height := u32 (c.rect.height + q) } })
      else if direction == "down" ∨ direction == "height" then
        modifyCon s.all_cons fc
          (fun c => { c with rect := { c.rect with height := u32 (c.rect.height + q) } })
      else if direction == "left" then
        modifyCon s.all_cons fc
          (fun c => { c with rect := { c.rect with width := u32 (c.rect.width + q) } })
      else
        modifyCon s.all_cons fc
          (fun c => { c with rect := { c.rect with width := u32 (c.rect.width + q) } })) fc).rect
      = (if direction = "up" ∨ direction = "down" ∨ direction = "height" then
          { (getCon s.all_cons fc).rect with
            height := u32 ((getCon s.all_cons fc).rect.height + q) }
        else
          { (getCon s.all_cons fc).rect with
            width := u32 ((getCon s.all_cons fc).rect.width + q) }) := by
  simp only [beq_iff_eq]
  by_cases hu : direction = "up"
  · rw [if_pos hu, if_pos (Or.inl hu), getCon_modifyCon_self _ _ _ hvalid, length_modifyCon]
    exact ⟨rfl, rfl⟩
  · rw [if_neg hu]
    by_cases hd : direction = "down" ∨ direction = "height"
    · rw [if_pos hd, if_pos (Or.inr hd), getCon_modifyCon_self _ _ _ hvalid, length_modifyCon]
      exact ⟨rfl, rfl⟩
    · have hno : ¬ (direction = "up" ∨ direction = "down" ∨ direction = "height") := by
        rintro (h | h)
        · exact hu h
        · exact hd h
      rw [if_neg hd, if_neg hno]
      by_cases hl : direction = "left"
      · rw [if_pos hl, getCon_modifyCon_self _ _ _ hvalid, length_modifyCon]
        exact ⟨rfl, rfl⟩
      · rw [if_neg hl, getCon_modifyCon_self _ _ _ hvalid, length_modifyCon]
        exact ⟨rfl, rfl⟩

/-- The rectangle of the floating container after `cmd_resize_floating`, from the
rectangle that `floating_check_size` left. -/
theorem cmd_resize_floating_rect (env : Env) (s : State) (way direction : String) (fc : Nat)
    (px : Int) (hvalid : fc < s.all_cons.length)
    (hlen : ∀ cons, (env.floating_check_size cons fc).length = cons.length) :
    ∃ cons1 : List Con,
      cons1.length = s.all_cons.length ∧
      (getCon cons1 fc).rect
        = (if direction = "up" ∨ direction = "down" ∨ direction = "height" then
            { (getCon s.all_cons fc).rect with
              height := u32 ((getCon s.all_cons fc).rect.height
                + cmd_resize_floating_px direction
                    (getCon s.all_cons (env.con_descend_focused s fc)) px) }
          else
            { (getCon s.all_cons fc).rect with
              width := u32 ((getCon s.all_cons fc).rect.width
                + cmd_resize_floating_px direction
                    (getCon s.all_cons (env.con_descend_focused s fc)) px) }) ∧
      (getCon (cmd_resize_floating env s way direction fc px).all_cons fc).rect
        = (if (getCon (env.floating_check_size cons1 fc) fc).rect = (getCon s.all_cons fc).rect
           then (getCon (env.floating_check_size cons1 fc) fc).rect
           else if direction = "up" then
            { (getCon (env.floating_check_size cons1 fc) fc).rect with
              y := u32 (((getCon (env.floating_check_size cons1 fc) fc).rect.y : Int)
                - u32 (((getCon (env.floating_check_size cons1 fc) fc).rect.height : Int)
                    - (getCon s.all_cons fc).rect.height)) }
           else if direction = "left" then
            { (getCon (env.floating_check_size cons1 fc) fc).rect with
              x := u32 (((getCon (env.floating_check_size cons1 fc) fc).rect.x : Int)
                - u32 (((getCon (env.floating_check_size cons1 fc) fc).rect.width : Int)
                    - (getCon s.all_cons fc).rect.width)) }
           else (getCon (env.floating_check_size cons1 fc) fc).rect) := by
  obtain ⟨h1, h2⟩ := cmd_resize_floating_request s direction fc
    (cmd_resize_floating_px direction (getCon s.all_cons (env.con_descend_focused s fc)) px)
    hvalid
  refine ⟨_, h1, h2, ?_⟩
  unfold cmd_resize_floating
  simp only [apply_ite State.all_cons]
  exact cmd_resize_floating_tail direction fc _ _ (by rw [hlen, h1]; exact hvalid)

theorem cmd_resize_floating_px_eq (direction : String) (focused_con : Con) (px : Int) :
    ((direction = "up" ∨ direction = "down" ∨ direction = "height") →
      cmd_resize_floating_px direction focused_con px
        = applied_px focused_con.height_increment px) ∧
    ((direction = "left" ∨ direction = "right") →
      cmd_resize_floating_px direction focused_con px
        = applied_px focused_con.width_increment px) ∧
    (direction = "width" → cmd_resize_floating_px direction focused_con px = px) := by
  have key : ∀ inc : Int,
      (if px < 0 then (if -px < inc then -inc else px) else (if px < inc then inc else px))
        = applied_px inc px := by
    intro inc
    unfold applied_px
    rcases abs_cases px with ⟨h1, h2⟩ | ⟨h1, h2⟩
    · rw [h1, if_neg (by omega), if_neg (by omega : ¬ px < 0)]
    · rw [h1, if_pos h2]
      split <;> rfl
  refine ⟨?_, ?_, ?_⟩
  · intro h
    unfold cmd_resize_floating_px
    simp only [beq_iff_eq]
    rw [if_pos h]
    exact key _
  · intro h
    have hno : ¬ (direction = "up" ∨ direction = "down" ∨ direction = "height") := by
      rcases h with h | h <;> subst h <;> decide
    unfold cmd_resize_floating_px
    simp only [beq_iff_eq]
    rw [if_neg hno, if_pos h]
    exact key _
  · intro h
    subst h
    rfl

/-- C28: a floating resize anchors the opposite edge.  For every floating container
(a valid pointer) and every px, given that `floating_check_size` only adjusts width
and height: `cmd_resize_floating` with direction `up` leaves the bottom edge
rect.y + rect.height unchanged (and rect.x), with direction `left` leaves the right
edge rect.x + rect.width unchanged (and rect.y), both in 32-bit unsigned arithmetic,
and with `down`, `right`, `width` or `height` leaves rect.x and rect.y unchanged.  The
px applied to an up/down/height (left/right) resize is the requested px unless its
magnitude is smaller than the height (width) increment of the focused window, in
which case it is the increment with the sign of px; for `width` it is px.  When
`floating_check_size` accepts the rectangle as it is, the new height (width) is the
old one plus the applied px. -/
theorem cmd_resize_floating_anchors (env : Env) (s : State) (way direction : String)
    (fc : Nat) (px : Int) (hvalid : fc < s.all_cons.length)
    (hcheck : ∀ cons, (env.floating_check_size cons fc).length = cons.length ∧
      (getCon (env.floating_check_size cons fc) fc).rect.x = (getCon cons fc).rect.x ∧
      (getCon (env.floating_check_size cons fc) fc).rect.y = (getCon cons fc).rect.y) :
    (direction = "up" →
      u32 (((getCon (cmd_resize_floating env s way direction fc px).all_cons fc).rect.y : Int)
          + (getCon (cmd_resize_floating env s way direction fc px).all_cons fc).rect.height)
        = u32 (((getCon s.all_cons fc).rect.y : Int) + (getCon s.all_cons fc).rect.height) ∧
      (getCon (cmd_resize_floating env s way direction fc px).all_cons fc).rect.x
        = (getCon s.all_cons fc).rect.x) ∧
    (direction = "left" →
      u32 (((getCon (cmd_resize_floating env s way direction fc px).all_cons fc).rect.x : Int)
          + (getCon (cmd_resize_floating env s way direction fc px).all_cons fc).rect.width)
        = u32 (((getCon s.all_cons fc).rect.x : Int) + (getCon s.all_cons fc).rect.width) ∧
      (getCon (cmd_resize_floating env s way direction fc px).all_cons fc).rect.y
        = (getCon s.all_cons fc).rect.y) ∧
    (direction = "down" ∨ direction = "right" ∨ direction = "width" ∨ direction = "height" →
      (getCon (cmd_resize_floating env s way direction fc px).all_cons fc).rect.x
        = (getCon s.all_cons fc).rect.x ∧
      (getCon (cmd_resize_floating env s way direction fc px).all_cons fc).rect.y
        = (getCon s.all_cons fc).rect.y) ∧
    ((direction = "up" ∨ direction = "down" ∨ direction = "height") →
      cmd_resize_floating_px direction (getCon s.all_cons (env.con_descend_focused s fc)) px
        = applied_px (getCon s.all_cons (env.con_descend_focused s fc)).height_increment px) ∧
    ((direction = "left" ∨ direction = "right") →
      cmd_resize_floating_px direction (getCon s.all_cons (env.con_descend_focused s fc)) px
        = applied_px (getCon s.all_cons (env.con_descend_focused s fc)).width_increment px) ∧
    (direction = "width" →
      cmd_resize_floating_px direction (getCon s.all_cons (env.con_descend_focused s fc)) px
        = px) ∧
    ((∀ cons, (getCon (env.floating_check_size cons fc) fc).rect = (getCon cons fc).rect) →
      ((direction = "up" ∨ direction = "down" ∨ direction = "height") →
        (getCon (cmd_resize_floating env s way direction fc px).all_cons fc).rect.height
          = u32 ((getCon s.all_cons fc).rect.height
              + cmd_resize_floating_px direction
                  (getCon s.all_cons (env.con_descend_focused s fc)) px)) ∧
      ((direction = "left" ∨ direction = "right" ∨ direction = "width") →
        (getCon (cmd_resize_floating env s way direction fc px).all_cons fc).rect.width
          = u32 ((getCon s.all_cons fc).rect.width
              + cmd_resize_floating_px direction
                  (getCon s.all_cons (env.con_descend_focused s fc)) px))) := by
  obtain ⟨cons1, _, hr1, hres⟩ :=
    cmd_resize_floating_rect env s way direction fc px hvalid (fun cons => (hcheck cons).1)
  have hx2 := (hcheck cons1).2.1
  have hy2 := (hcheck cons1).2.2
  have hx1 : (getCon cons1 fc).rect.x = (getCon s.all_cons fc).rect.x := by
    rw [hr1]; split <;> rfl
  have hy1 : (getCon cons1 fc).rect.y = (getCon s.all_cons fc).rect.y := by
    rw [hr1]; split <;> rfl
  have hpx := cmd_resize_floating_px_eq direction
    (getCon s.all_cons (env.con_descend_focused s fc)) px
  refine ⟨?_, ?_, ?_, hpx.1, hpx.2.1, hpx.2.2, ?_⟩
  · intro hu
    rw [hres]
    by_cases he : (getCon (env.floating_check_size cons1 fc) fc).rect = (getCon s.all_cons fc).rect
    · rw [if_pos he, he]
      exact ⟨rfl, rfl⟩
    · rw [if_neg he, if_pos hu]
      simp only []
      rw [hy2, hy1, hx2, hx1]
      exact ⟨u32_anchor _ _ _, rfl⟩
  · intro hl
    have hu : ¬ direction = "up" := by subst hl; decide
    rw [hres]
    by_cases he : (getCon (env.floating_check_size cons1 fc) fc).rect = (getCon s.all_cons fc).rect
    · rw [if_pos he, he]
      exact ⟨rfl, rfl⟩
    · rw [if_neg he, if_neg hu, if_pos hl]
      simp only []
      rw [hy2, hy1, hx2, hx1]
      exact ⟨u32_anchor _ _ _, rfl⟩
  · intro hd
    have hu : ¬ direction = "up" := by
      rcases hd with h | h | h | h <;> subst h <;> decide
    have hl : ¬ direction = "left" := by
      rcases hd with h | h | h | h <;> subst h <;> decide
    rw [hres]
    by_cases he : (getCon (env.floating_check_size cons1 fc) fc).rect = (getCon s.all_cons fc).rect
    · rw [if_pos he, he]
      exact ⟨rfl, rfl⟩
    · rw [if_neg he, if_neg hu, if_neg hl, hy2, hy1, hx2, hx1]
      exact ⟨rfl, rfl⟩
  · intro hid
    have hR : (getCon (env.floating_check_size cons1 fc) fc).rect = (getCon cons1 fc).rect :=
      hid cons1
    have hh : (getCon (cmd_resize_floating env s way direction fc px).all_cons fc).rect.height
        = (getCon cons1 fc).rect.height := by
      rw [hres, hR]
      split
      · rfl
      · split
        · rfl
        · split <;> rfl
    have hw : (getCon (cmd_resize_floating env s way direction fc px).all_cons fc).rect.width
        = (getCon cons1 fc).rect.width := by
      rw [hres, hR]
      split
      · rfl
      · split
        · rfl
        · split <;> rfl
    constructor
    · intro hdir
      rw [hh, hr1, if_pos hdir]
    · intro hdir
      have hno : ¬ (direction = "up" ∨ direction = "down" ∨ direction = "height") := by
        rcases hdir with h | h | h <;> subst h <;> decide
      rw [hw, hr1, if_neg hno]

theorem cmd_resize_floating_anchors_witness :
    u32 (((getCon (cmd_resize_floating example_env floating_tree "grow" "up" 2 10).all_cons
            2).rect.y : Int)
        + (getCon (cmd_resize_floating example_env floating_tree "grow" "up" 2 10).all_cons
            2).rect.height)
      = u32 (((getCon floating_tree.all_cons 2).rect.y : Int)
          + (getCon floating_tree.all_cons 2).rect.height) ∧
    (getCon (cmd_resize_floating example_env floating_tree "grow" "up" 2 10).all_cons 2).rect.x
      = (getCon floating_tree.all_cons 2).rect.x :=
  (cmd_resize_floating_anchors example_env floating_tree "grow" "up" 2 10 (by decide)
    (fun _ => ⟨rfl, rfl, rfl⟩)).1 rfl

end I3

/-! ## Theorems on the status line -/

namespace I3bar

theorem u32_lt (n : Int) : I3.u32 n < 2 ^ 32 := by
  unfold I3.u32
  have h1 : 0 ≤ n % 2 ^ 32 := Int.emod_nonneg _ (by norm_num)
  have h2 : n % 2 ^ 32 < 2 ^ 32 := Int.emod_lt_of_pos _ (by norm_num)
  omega

theorem u32_natCast (n : Nat) : I3.u32 (n : Int) = n % 2 ^ 32 := by
  unfold I3.u32
  omega

theorem u32_sep (w x : Nat) : I3.u32 ((w : Int) + (x : Int)) = (w + x) % 2 ^ 32 := by
  unfold I3.u32
  omega

theorem u32_step (w a b c : Nat) :
    I3.u32 ((w : Int) + ((a : Int) + (b : Int) + (c : Int))) = (w + (a + b + c)) % 2 ^ 32 := by
  unfold I3.u32
  omega

theorem refresh_statusline_loop_eq (env : BarEnv) (use_short_text : Bool)
    (l : List status_block) (w : Nat) (hw : w < 2 ^ 32) :
    (refresh_statusline_loop env use_short_text l w).1 = l.map (refresh_block env use_short_text) ∧
    (refresh_statusline_loop env use_short_text l w).2
      = (w + statusline_total (l.map (refresh_block env use_short_text))) % 2 ^ 32 := by
  induction l generalizing w with
  | nil =>
    simp only [refresh_statusline_loop, List.map_nil, statusline_total, Nat.add_zero, true_and]
    exact (Nat.mod_eq_of_lt hw).symm
  | cons b rest ih =>
    simp only [refresh_statusline_loop, List.map_cons, statusline_total]
    by_cases hempty : i3string_get_num_bytes (refresh_block env use_short_text b).full_text = 0
    · simp only [hempty, if_true]
      obtain ⟨h1, h2⟩ := ih w hw
      refine ⟨by rw [h1], ?_⟩
      rw [h2]
      simp
    · simp only [hempty, if_false]
      have hmap : (List.map (refresh_block env use_short_text) rest ≠ []) ↔ rest ≠ [] := by
        simp
      obtain ⟨h1, h2⟩ := ih _ (u32_lt _)
      refine ⟨by rw [h1], ?_⟩
      rw [h2]
      by_cases hrest : rest = []
      · subst hrest
        simp only [ne_eq, not_true_eq_false, if_false, List.map_nil, statusline_total]
        rw [u32_step]
        omega
      · have hm := hmap.mpr hrest
        simp only [ne_eq, hrest, not_false_eq_true, if_true, hm]
        rw [u32_sep, u32_step]
        omega

theorem refresh_statusline_head (env : BarEnv) (s : BarState) (use_short_text : Bool) :
    (refresh_statusline env s use_short_text).statusline_head
      = s.statusline_head.map (refresh_block env use_short_text) := by
  unfold refresh_statusline
  simp only []
  split
  · exact (refresh_statusline_loop_eq env use_short_text s.statusline_head 0 (by norm_num)).1
  · exact (refresh_statusline_loop_eq env use_short_text s.statusline_head 0 (by norm_num)).1

theorem statusline_width_mod_eq (env : BarEnv) (s : BarState) (use_short_text : Bool) :
    (refresh_statusline env s use_short_text).statusline_width
      = statusline_total (s.statusline_head.map (refresh_block env use_short_text)) % 2 ^ 32 := by
  have h := (refresh_statusline_loop_eq env use_short_text s.statusline_head 0 (by norm_num)).2
  rw [Nat.zero_add] at h
  unfold refresh_statusline
  simp only []
  split
  · exact h
  · exact h


theorem align_in_min_width_frame (block : status_block) :
    (align_in_min_width block).full_text = block.full_text ∧
    (align_in_min_width block).width = block.width ∧
    (align_in_min_width block).min_width = block.min_width ∧
    (align_in_min_width block).align = block.align ∧
    (align_in_min_width block).border_left = block.border_left ∧
    (align_in_min_width block).border_right = block.border_right := by
  unfold align_in_min_width
  split
  · simp
  · cases block.align <;> simp

theorem apply_short_text_frame (use_short_text : Bool) (block : status_block) :
    (apply_short_text use_short_text block).x_offset = block.x_offset ∧
    (apply_short_text use_short_text block).x_append = block.x_append ∧
    (apply_short_text use_short_text block).min_width = block.min_width ∧
    (apply_short_text use_short_text block).align = block.align ∧
    (apply_short_text use_short_text block).border_left = block.border_left ∧
    (apply_short_text use_short_text block).border_right = block.border_right := by
  unfold apply_short_text
  split <;> simp

theorem refresh_block_of_text (env : BarEnv) (use_short_text : Bool) (block0 : status_block)
    (h : i3string_get_num_bytes (refresh_block env use_short_text block0).full_text ≠ 0) :
    refresh_block env use_short_text block0 =
      align_in_min_width { apply_short_text use_short_text block0 with
        width := padded_width env (apply_short_text use_short_text block0) } := by
  unfold refresh_block at h ⊢
  simp only [] at h ⊢
  split
  · rename_i h0
    rw [if_pos h0] at h
    exact absurd h0 h
  · rfl

theorem padded_width_eq (env : BarEnv) (block : status_block) :
    padded_width env block = I3.u32 (env.predict_text_width block.full_text + env.logical_px 2
      + block.border_left + block.border_right) := by
  unfold padded_width I3.u32
  omega

/-- C6, counterexample: three blocks that each ask for a minimum width of
1500000000 pixels add up to 4500000000, but the `uint32_t` variable
`statusline_width` holds 205032704 after `refresh_statusline`. -/
theorem statusline_width_wraps_counterexample :
    (refresh_statusline example_bar_env wide_blocks false).statusline_width = 205032704 ∧
    statusline_total (refresh_statusline example_bar_env wide_blocks false).statusline_head
      = 4500000000 := by
  decide

/-- C6, amended: after `refresh_statusline`, `statusline_width` equals, modulo 2^32
(so exactly, whenever the total is below 2^32), the sum over the blocks with
non-empty text of width + x_offset + x_append, plus sep_block_width for every such
block except the last block of the list, where width is the predicted text width +
logical_px(2) + border_left + border_right as a `uint32_t`.  For the three blocks of
widths 30, 50 (min_width 80, centred) and 10 with separator width 9 the total is 138. -/
theorem refresh_statusline_width (env : BarEnv) (s : BarState) (use_short_text : Bool) :
    (refresh_statusline env s use_short_text).statusline_width
      = statusline_total (refresh_statusline env s use_short_text).statusline_head % 2 ^ 32 ∧
    (statusline_total (refresh_statusline env s use_short_text).statusline_head < 2 ^ 32 →
      (refresh_statusline env s use_short_text).statusline_width
        = statusline_total (refresh_statusline env s use_short_text).statusline_head) ∧
    (∀ block ∈ (refresh_statusline env s use_short_text).statusline_head,
      i3string_get_num_bytes block.full_text ≠ 0 →
      block.width = I3.u32 (env.predict_text_width block.full_text + env.logical_px 2
        + block.border_left + block.border_right)) ∧
    (refresh_statusline example_bar_env three_blocks false).statusline_width
      = 30 + 9 + 80 + 9 + 10 := by
  have hw : (refresh_statusline env s use_short_text).statusline_width
      = statusline_total (refresh_statusline env s use_short_text).statusline_head % 2 ^ 32 := by
    rw [refresh_statusline_head, statusline_width_mod_eq]
  refine ⟨hw, ?_, ?_, by decide⟩
  · intro hlt
    rw [hw, Nat.mod_eq_of_lt hlt]
  · intro block hmem htext
    rw [refresh_statusline_head, List.mem_map] at hmem
    obtain ⟨block0, _, rfl⟩ := hmem
    have heq := refresh_block_of_text env use_short_text block0 htext
    have hfr := align_in_min_width_frame { apply_short_text use_short_text block0 with
        width := padded_width env (apply_short_text use_short_text block0) }
    rw [← heq] at hfr
    obtain ⟨h1, h2, -, -, h5, h6⟩ := hfr
    rw [h1, h2, h5, h6]
    exact padded_width_eq env (apply_short_text use_short_text block0)

theorem align_in_min_width_spec (block : status_block)
    (h0 : block.x_offset = 0) (h1 : block.x_append = 0) :
    (block.min_width ≤ block.width →
      (align_in_min_width block).x_offset = 0 ∧ (align_in_min_width block).x_append = 0) ∧
    (block.width < block.min_width →
      (block.align = blockalign_t.ALIGN_LEFT →
        (align_in_min_width block).x_offset = 0 ∧
        (align_in_min_width block).x_append = block.min_width - block.width) ∧
      (block.align = blockalign_t.ALIGN_RIGHT →
        (align_in_min_width block).x_offset = block.min_width - block.width ∧
        (align_in_min_width block).x_append = 0) ∧
      (block.align = blockalign_t.ALIGN_CENTER →
        (align_in_min_width block).x_offset = (block.min_width - block.width) / 2 ∧
        (align_in_min_width block).x_append = (block.min_width - block.width + 1) / 2)) ∧
    block.width + (align_in_min_width block).x_offset + (align_in_min_width block).x_append
      = max block.width block.min_width := by
  unfold align_in_min_width
  by_cases hle : block.min_width ≤ block.width
  · rw [if_pos hle]
    refine ⟨fun _ => ⟨rfl, rfl⟩, fun hlt => absurd hle (not_le.mpr hlt), ?_⟩
    rw [Nat.max_eq_left hle]
    rfl
  · rw [if_neg hle]
    have hlt : block.width < block.min_width := not_le.mp hle
    refine ⟨fun h => absurd h hle, fun _ => ?_, ?_⟩
    · refine ⟨?_, ?_, ?_⟩
      · intro ha; rw [ha]; exact ⟨h0, rfl⟩
      · intro ha; rw [ha]; exact ⟨rfl, h1⟩
      · intro ha; rw [ha]
        refine ⟨rfl, ?_⟩
        show (block.min_width - block.width) / 2 + (block.min_width - block.width) % 2 = _
        omega
    · rw [Nat.max_eq_right hlt.le]
      cases ha : block.align
      · show block.width + block.x_offset + (block.min_width - block.width) = _
        omega
      · show block.width + (block.min_width - block.width) / 2
          + ((block.min_width - block.width) / 2 + (block.min_width - block.width) % 2) = _
        omega
      · show block.width + (block.min_width - block.width) + block.x_append = _
        omega

/-- C7: for every block of the list whose x_offset and x_append start at 0 and whose
text is not empty, `refresh_statusline` leaves both at 0 when min_width <= width
and otherwise distributes pad = min_width - width by alignment: Left gives
(0, pad), Right gives (pad, 0), Center gives (floor(pad/2), ceil(pad/2)); in every
case width + x_offset + x_append = max(width, min_width).  For width 50, min_width
80, Center the result is x_offset = 15 and x_append = 15. -/
theorem refresh_statusline_alignment (env : BarEnv) (s : BarState) (use_short_text : Bool)
    (i : Nat) (block0 : status_block)
    (hi : s.statusline_head[i]? = some block0)
    (h0 : block0.x_offset = 0) (h1 : block0.x_append = 0) :
    (∃ block, (refresh_statusline env s use_short_text).statusline_head[i]? = some block ∧
      (i3string_get_num_bytes block.full_text ≠ 0 →
        (block.min_width ≤ block.width → block.x_offset = 0 ∧ block.x_append = 0) ∧
        (block.width < block.min_width →
          (block.align = blockalign_t.ALIGN_LEFT →
            block.x_offset = 0 ∧ block.x_append = block.min_width - block.width) ∧
          (block.align = blockalign_t.ALIGN_RIGHT →
            block.x_offset = block.min_width - block.width ∧ block.x_append = 0) ∧
          (block.align = blockalign_t.ALIGN_CENTER →
            block.x_offset = (block.min_width - block.width) / 2 ∧
            block.x_append = (block.min_width - block.width + 1) / 2)) ∧
        block.width + block.x_offset + block.x_append = max block.width block.min_width)) ∧
    ((refresh_statusline example_bar_env three_blocks false).statusline_head[1]?).map
        (fun b => (b.width, b.min_width, b.align, b.x_offset, b.x_append))
      = some (50, 80, blockalign_t.ALIGN_CENTER, 15, 15) := by
  refine ⟨⟨refresh_block env use_short_text block0, ?_, ?_⟩, by decide⟩
  · rw [refresh_statusline_head, List.getElem?_map, hi]
    rfl
  · intro htext
    have heq := refresh_block_of_text env use_short_text block0 htext
    have hs := apply_short_text_frame use_short_text block0
    have hspec := align_in_min_width_spec { apply_short_text use_short_text block0 with
        width := padded_width env (apply_short_text use_short_text block0) }
      (by show (apply_short_text use_short_text block0).x_offset = 0; rw [hs.1, h0])
      (by show (apply_short_text use_short_text block0).x_append = 0; rw [hs.2.1, h1])
    have hfr := align_in_min_width_frame { apply_short_text use_short_text block0 with
        width := padded_width env (apply_short_text use_short_text block0) }
    rw [← heq] at hspec hfr
    obtain ⟨-, f2, f3, f4, -, -⟩ := hfr
    rw [f2, f3, f4]
    exact hspec

theorem refresh_statusline_alignment_witness :
    ∃ block, (refresh_statusline example_bar_env three_blocks true).statusline_head[1]?
        = some block ∧
      (i3string_get_num_bytes block.full_text ≠ 0 →
        (block.min_width ≤ block.width → block.x_offset = 0 ∧ block.x_append = 0) ∧
        (block.width < block.min_width →
          (block.align = blockalign_t.ALIGN_LEFT →
            block.x_offset = 0 ∧ block.x_append = block.min_width - block.width) ∧
          (block.align = blockalign_t.ALIGN_RIGHT →
            block.x_offset = block.min_width - block.width ∧ block.x_append = 0) ∧
          (block.align = blockalign_t.ALIGN_CENTER →
            block.x_offset = (block.min_width - block.width) / 2 ∧
            block.x_append = (block.min_width - block.width + 1) / 2)) ∧
        block.width + block.x_offset + block.x_append = max block.width block.min_width) :=
  (refresh_statusline_alignment example_bar_env three_blocks true 1
    { full_text := "barbaz", min_width := 80, align := blockalign_t.ALIGN_CENTER,
      sep_block_width := 9 } rfl rfl rfl).1

/-! ### The tray -/

theorem configure_trayclients_loop_eq (env : BarEnv) (s : Bars) (output : i3_output)
    (l : List trayclient) (n : Nat) (requests : List Request) :
    configure_trayclients_loop env s output l (n : Int) requests
      = requests ++ ((l.filter (fun tc => tc.mapped)).enumFrom n).map
          (fun p => Request.set_window_x p.2.win
            (I3.u32 (tray_x env s output ((p.1 : Int) + 1)))) := by
  induction l generalizing n requests with
  | nil => simp [configure_trayclients_loop]
  | cons tc rest ih =>
    unfold configure_trayclients_loop
    by_cases hm : tc.mapped = true
    · have h1 : ¬ ¬ tc.mapped = true := by simp [hm]
      rw [if_neg h1]
      simp only []
      have hcast : ((n : Int) + 1) = ((n + 1 : Nat) : Int) := by push_cast; rfl
      rw [hcast, ih]
      simp [List.filter_cons, hm, List.enumFrom_cons, tray_x]
    · rw [if_pos hm, ih]
      simp [List.filter_cons, hm]

theorem configure_trayclients_output (env : BarEnv) (s : Bars) (output : i3_output)
    (requests : List Request) :
    configure_trayclients_loop env s output output.trayclients.reverse 0 requests
      = requests ++ tray_positions env s output := by
  have h := configure_trayclients_loop_eq env s output output.trayclients.reverse 0 requests
  simpa [tray_positions, List.enum] using h

theorem configure_trayclients_foldl (env : BarEnv) (outputs : List i3_output) (s : Bars) :
    (outputs.foldl
      (fun s output =>
        if ¬ output.active then s
        else
          { s with requests :=
              configure_trayclients_loop env s output output.trayclients.reverse 0 s.requests })
      s)
      = { s with requests := s.requests
            ++ (outputs.filter (fun o => o.active)).flatMap (tray_positions env s) } := by
  induction outputs generalizing s with
  | nil => simp
  | cons output rest ih =>
    rw [List.foldl_cons]
    by_cases ha : output.active = true
    · have h1 : ¬ ¬ output.active = true := by simp [ha]
      rw [if_neg h1, ih, configure_trayclients_output]
      have e : (output :: rest).filter (fun o => o.active)
          = output :: rest.filter (fun o => o.active) := by simp [ha]
      rw [e, List.flatMap_cons, ← List.append_assoc]
      rfl
    · rw [if_pos ha, ih]
      simp [List.filter_cons, ha]

theorem getElem?_append_cons_length {α : Type} (A B : List α) (x : α) :
    (A ++ x :: B)[A.length]? = some x := by
  rw [List.getElem?_append_right (Nat.le_refl _)]
  simp

theorem tray_positions_mem (env : BarEnv) (s : Bars) (output : i3_output)
    (pre post : List trayclient) (tc : trayclient)
    (hlist : output.trayclients = pre ++ tc :: post) (hm : tc.mapped = true) :
    Request.set_window_x tc.win
        (I3.u32 (tray_x env s output ((post.countP (fun c => c.mapped) : Int) + 1)))
      ∈ tray_positions env s output := by
  unfold tray_positions
  rw [List.mem_map]
  refine ⟨(post.countP (fun c => c.mapped), tc), ?_, rfl⟩
  rw [List.mk_mem_enum_iff_getElem?, hlist]
  have e : (pre ++ tc :: post).reverse.filter (fun c => c.mapped)
      = (post.reverse.filter (fun c => c.mapped))
          ++ tc :: (pre.reverse.filter (fun c => c.mapped)) := by
    simp [List.filter_append, List.filter_cons, hm]
  have hlen : (post.reverse.filter (fun c => c.mapped)).length
      = post.countP (fun c => c.mapped) := by
    rw [← List.countP_eq_length_filter, List.countP_reverse]
  rw [e, ← hlen]
  exact getElem?_append_cons_length _ _ _

/-- C23, counterexample: on an output 1920 pixels wide with one mapped tray client,
icons of 20 pixels and a padding of 2 pixels, `configure_trayclients` places the
client, whose index from the right is 0, at x = 1898 = 1920 - 1 * 22, not at
1920 - 0 * 22 = 1920. -/
theorem configure_trayclients_index_counterexample :
    (configure_trayclients example_bar_env tray_bars).requests
      = [Request.set_window_x 7 1898] ∧
    tray_x example_bar_env tray_bars tray_output 0 = 1920 ∧
    tray_x example_bar_env tray_bars tray_output 1 = 1898 := by
  refine ⟨rfl, rfl, rfl⟩

/-- C23, amended: `configure_trayclients` sends, for every active output in turn, one
request for every mapped tray client, from the tail of the queue: the mapped client
with index idx, counted from the rightmost mapped client starting at 0, is placed at
x = output.w - (idx + 1) * (icon_size + logical_px(tray_padding)), as a `uint32_t`;
unmapped clients are not positioned and do not consume an index. -/
theorem configure_trayclients_positions (env : BarEnv) (s : Bars) :
    (configure_trayclients env s).requests
      = s.requests ++ (s.outputs.filter (fun o => o.active)).flatMap (tray_positions env s) ∧
    (∀ output, (tray_positions env s output).length
      = output.trayclients.countP (fun tc => tc.mapped)) ∧
    (∀ output pre post tc, output.trayclients = pre ++ tc :: post → tc.mapped = true →
      Request.set_window_x tc.win
          (I3.u32 (output.rect.w - ((post.countP (fun c => c.mapped) : Int) + 1)
            * (s.icon_size + env.logical_px s.config.tray_padding)))
        ∈ tray_positions env s output) := by
  refine ⟨?_, ?_, ?_⟩
  · unfold configure_trayclients
    rw [configure_trayclients_foldl]
  · intro output
    unfold tray_positions
    rw [List.length_map, List.enum_length, ← List.countP_eq_length_filter, List.countP_reverse]
  · intro output pre post tc hlist hm
    exact tray_positions_mem env s output pre post tc hlist hm

theorem refresh_statusline_pm (env : BarEnv) (s : BarState) (use_short_text : Bool) :
    (refresh_statusline env s use_short_text).root_screen_width_in_pixels
      = s.root_screen_width_in_pixels ∧
    (refresh_statusline env s use_short_text).statusline_pm_width
      = (if (refresh_statusline env s use_short_text).statusline_width
              > s.root_screen_width_in_pixels ∧
            (refresh_statusline env s use_short_text).statusline_width > s.statusline_width
         then (max s.root_screen_width_in_pixels
            (refresh_statusline env s use_short_text).statusline_width) % 2 ^ 16
         else s.statusline_pm_width) := by
  unfold refresh_statusline
  simp only []
  split
  · rename_i h
    refine ⟨rfl, ?_⟩
    simp only [realloc_sl_buffer]
    rw [if_pos h]
  · exact ⟨rfl, rfl⟩

theorem refresh_calls_cons (env : BarEnv) (s : BarState) (call : List status_block × Bool)
    (rest : List (List status_block × Bool)) :
    refresh_calls env s (call :: rest)
      = refresh_calls env
          (refresh_statusline env { s with statusline_head := call.1 } call.2) rest := rfl

theorem refresh_calls_append (env : BarEnv) (s : BarState)
    (a b : List (List status_block × Bool)) :
    refresh_calls env s (a ++ b) = refresh_calls env (refresh_calls env s a) b := by
  induction a generalizing s with
  | nil => rfl
  | cons c a ih =>
    rw [List.cons_append, refresh_calls_cons, refresh_calls_cons]
    exact ih _

theorem refresh_calls_root (env : BarEnv) (s : BarState)
    (calls : List (List status_block × Bool)) :
    (refresh_calls env s calls).root_screen_width_in_pixels = s.root_screen_width_in_pixels := by
  induction calls generalizing s with
  | nil => rfl
  | cons c calls ih =>
    rw [refresh_calls_cons, ih, (refresh_statusline_pm env _ _).1]

theorem refresh_statusline_wide_enough (env : BarEnv) (s : BarState) (use_short_text : Bool)
    (hroot : s.root_screen_width_in_pixels ≤ s.statusline_pm_width)
    (hwidth : s.statusline_width ≤ s.statusline_pm_width)
    (hsmall : (refresh_statusline env s use_short_text).statusline_width < 2 ^ 16) :
    (refresh_statusline env s use_short_text).root_screen_width_in_pixels
      ≤ (refresh_statusline env s use_short_text).statusline_pm_width ∧
    (refresh_statusline env s use_short_text).statusline_width
      ≤ (refresh_statusline env s use_short_text).statusline_pm_width := by
  obtain ⟨h1, h2⟩ := refresh_statusline_pm env s use_short_text
  rw [h1, h2]
  generalize (refresh_statusline env s use_short_text).statusline_width = w at hsmall
  split
  · rename_i h
    have hmax : max s.root_screen_width_in_pixels w = w := max_eq_right (le_of_lt h.1)
    rw [hmax, Nat.mod_eq_of_lt hsmall]
    exact ⟨le_of_lt h.1, le_refl _⟩
  · rename_i h
    refine ⟨hroot, ?_⟩
    by_cases h1 : w > s.root_screen_width_in_pixels
    · have : ¬ w > s.statusline_width := fun h2 => h ⟨h1, h2⟩
      omega
    · omega

theorem refresh_calls_wide_enough (env : BarEnv) (calls : List (List status_block × Bool))
    (s : BarState)
    (hroot : s.root_screen_width_in_pixels ≤ s.statusline_pm_width)
    (hwidth : s.statusline_width ≤ s.statusline_pm_width)
    (hsmall : ∀ pre suf, calls = pre ++ suf → pre ≠ [] →
      (refresh_calls env s pre).statusline_width < 2 ^ 16) :
    (refresh_calls env s calls).root_screen_width_in_pixels
      ≤ (refresh_calls env s calls).statusline_pm_width ∧
    (refresh_calls env s calls).statusline_width
      ≤ (refresh_calls env s calls).statusline_pm_width := by
  induction calls generalizing s with
  | nil => exact ⟨hroot, hwidth⟩
  | cons c calls ih =>
    rw [refresh_calls_cons]
    have h1 := hsmall [c] calls rfl (by simp)
    rw [refresh_calls_cons] at h1
    have hstep := refresh_statusline_wide_enough env { s with statusline_head := c.1 } c.2
      hroot hwidth h1
    refine ih _ hstep.1 hstep.2 ?_
    intro pre suf hcalls hne
    have := hsmall (c :: pre) suf (by rw [hcalls]; rfl) (by simp)
    rw [refresh_calls_cons] at this
    exact this

/-- C24, counterexample: on a root screen of 1920 pixels, one call of
`refresh_statusline` with a block of 70000 pixels leaves statusline_width = 70000 and
a pixmap created with the width 4464 = 70000 mod 2^16. -/
theorem statusline_pm_truncated_counterexample :
    (refresh_calls example_bar_env (initial_bar 1920) [(wide_block 70000, false)]).statusline_width
      = 70000 ∧
    (refresh_calls example_bar_env (initial_bar 1920)
      [(wide_block 70000, false)]).statusline_pm_width = 4464 := by
  refine ⟨by decide, by decide⟩

/-- C24, amended: starting from the initial state (status line pixmap as wide as the
root screen, statusline_width = 0), after every call of `refresh_statusline` in any
sequence of calls with arbitrary block lists in which statusline_width stays below
2^16, the width of the status line pixmap is at least statusline_width and at least
the root screen width. -/
theorem statusline_pm_wide_enough (env : BarEnv) (width_in_pixels : Nat)
    (calls : List (List status_block × Bool))
    (hsmall : ∀ pre suf, calls = pre ++ suf →
      (refresh_calls env (initial_bar width_in_pixels) pre).statusline_width < 2 ^ 16) :
    ∀ pre suf, calls = pre ++ suf →
      width_in_pixels
        ≤ (refresh_calls env (initial_bar width_in_pixels) pre).statusline_pm_width ∧
      (refresh_calls env (initial_bar width_in_pixels) pre).statusline_width
        ≤ (refresh_calls env (initial_bar width_in_pixels) pre).statusline_pm_width := by
  intro pre suf hcalls
  have h := refresh_calls_wide_enough env pre (initial_bar width_in_pixels) (le_refl _)
    (Nat.zero_le _)
    (fun p q hpq _ => hsmall p (q ++ suf) (by rw [hcalls, hpq, List.append_assoc]))
  rw [refresh_calls_root] at h
  exact h

theorem statusline_pm_wide_enough_witness :
    1920 ≤ (refresh_calls example_bar_env (initial_bar 1920)
        [(wide_block 3000, false)]).statusline_pm_width ∧
    (refresh_calls example_bar_env (initial_bar 1920)
        [(wide_block 3000, false)]).statusline_width
      ≤ (refresh_calls example_bar_env (initial_bar 1920)
        [(wide_block 3000, false)]).statusline_pm_width :=
  statusline_pm_wide_enough example_bar_env 1920 [(wide_block 3000, false)]
    (by
      intro pre suf h
      rcases pre with _ | ⟨c, pre⟩
      · decide
      · rcases pre with _ | ⟨d, pre⟩
        · simp only [List.cons_append, List.nil_append, List.cons.injEq] at h
          rw [← h.1]
          decide
        · simp at h)
    [(wide_block 3000, false)] [] rfl

theorem refresh_statusline_tight (env : BarEnv) (s : BarState) (use_short_text : Bool)
    (htight : s.statusline_pm_width = max s.root_screen_width_in_pixels s.statusline_width)
    (hgrow : s.statusline_width ≤ (refresh_statusline env s use_short_text).statusline_width)
    (hsmall : (refresh_statusline env s use_short_text).statusline_width < 2 ^ 16) :
    (refresh_statusline env s use_short_text).statusline_pm_width
      = max s.root_screen_width_in_pixels
          (refresh_statusline env s use_short_text).statusline_width ∧
    s.statusline_pm_width ≤ (refresh_statusline env s use_short_text).statusline_pm_width := by
  obtain ⟨_, h2⟩ := refresh_statusline_pm env s use_short_text
  rw [h2, htight]
  generalize (refresh_statusline env s use_short_text).statusline_width = w at hsmall hgrow
  split
  · rename_i h
    have hmax : max s.root_screen_width_in_pixels w = w := max_eq_right (le_of_lt h.1)
    rw [hmax, Nat.mod_eq_of_lt hsmall]
    exact ⟨rfl, max_le (le_of_lt h.1) hgrow⟩
  · rename_i h
    refine ⟨?_, le_refl _⟩
    by_cases h1 : w > s.root_screen_width_in_pixels
    · have h3 : ¬ w > s.statusline_width := fun h2 => h ⟨h1, h2⟩
      have : w = s.statusline_width := by omega
      rw [this]
    · have hw : w ≤ s.root_screen_width_in_pixels := by omega
      rw [max_eq_left hw, max_eq_left (le_trans hgrow hw)]

theorem refresh_calls_concat (env : BarEnv) (s : BarState)
    (pre : List (List status_block × Bool)) (c : List status_block × Bool) :
    refresh_calls env s (pre ++ [c])
      = refresh_statusline env
          { refresh_calls env s pre with statusline_head := c.1 } c.2 := by
  rw [refresh_calls_append]
  rfl

theorem refresh_calls_tight (env : BarEnv) (width_in_pixels : Nat)
    (calls : List (List status_block × Bool))
    (hgrow : ∀ pre c suf, calls = pre ++ c :: suf →
      (refresh_calls env (initial_bar width_in_pixels) pre).statusline_width
        ≤ (refresh_calls env (initial_bar width_in_pixels) (pre ++ [c])).statusline_width ∧
      (refresh_calls env (initial_bar width_in_pixels) (pre ++ [c])).statusline_width < 2 ^ 16)
    (pre suf : List (List status_block × Bool)) (hcalls : calls = pre ++ suf) :
    (refresh_calls env (initial_bar width_in_pixels) pre).statusline_pm_width
      = max width_in_pixels
          (refresh_calls env (initial_bar width_in_pixels) pre).statusline_width := by
  induction pre using List.reverseRecOn generalizing suf with
  | nil => simp [refresh_calls, initial_bar]
  | append_singleton pre c ih =>
    have hpre := ih (c :: suf) (by rw [hcalls]; simp)
    obtain ⟨hg, hs⟩ := hgrow pre c suf (by rw [hcalls]; simp)
    rw [refresh_calls_concat] at hg hs ⊢
    have hroot : (refresh_calls env (initial_bar width_in_pixels) pre).root_screen_width_in_pixels
        = width_in_pixels := refresh_calls_root env _ _
    have := (refresh_statusline_tight env
      { refresh_calls env (initial_bar width_in_pixels) pre with statusline_head := c.1 } c.2
      (by simpa [hroot] using hpre) hg hs).1
    simpa [hroot] using this

/-- C25, counterexample: on a root screen of 1000 pixels, status lines of 3000, 500
and 2000 pixels in turn leave the pixmap 3000 pixels wide after the second call and
2000 pixels wide after the third: the third call made the pixmap narrower. -/
theorem statusline_pm_shrinks_counterexample :
    (refresh_calls example_bar_env (initial_bar 1000)
      [(wide_block 3000, false), (wide_block 500, false)]).statusline_pm_width = 3000 ∧
    (refresh_calls example_bar_env (initial_bar 1000)
      [(wide_block 3000, false), (wide_block 500, false),
       (wide_block 2000, false)]).statusline_pm_width = 2000 := by
  refine ⟨by decide, by decide⟩

/-- C25, amended: a call of `refresh_statusline` creates the status line pixmap anew
exactly when the new statusline_width exceeds both the root screen width and the
statusline_width of the call before, and then with the width MAX(root screen width,
statusline_width) taken modulo 2^16 (the width of a pixmap is a `uint16_t`); in every
other call the pixmap keeps its width.  So in a call that leaves statusline_width
below 2^16 the pixmap does not get narrower if before the call it was no wider than
MAX(root screen width, statusline_width of the call before); in particular, from the
initial state, over every sequence of calls in which statusline_width never decreases
and stays below 2^16, the width of the pixmap after a call is never smaller than its
width before the call.  On a root screen of 1000 pixels a first status line of 3000
pixels gives a pixmap of 3000 pixels; without the bound 2^16 the pixmap can get
narrower: on a root screen of 1920 pixels a first status line of 66000 pixels leaves
a pixmap 464 pixels wide. -/
theorem statusline_pm_change (env : BarEnv) (s : BarState) (use_short_text : Bool) :
    (refresh_statusline env s use_short_text).statusline_pm_width
      = (if (refresh_statusline env s use_short_text).statusline_width
              > s.root_screen_width_in_pixels ∧
            (refresh_statusline env s use_short_text).statusline_width > s.statusline_width
         then (max s.root_screen_width_in_pixels
            (refresh_statusline env s use_short_text).statusline_width) % 2 ^ 16
         else s.statusline_pm_width) ∧
    ((refresh_statusline env s use_short_text).statusline_width < 2 ^ 16 →
      s.statusline_pm_width ≤ max s.root_screen_width_in_pixels s.statusline_width →
      s.statusline_pm_width ≤ (refresh_statusline env s use_short_text).statusline_pm_width) ∧
    (∀ (width_in_pixels : Nat) (calls : List (List status_block × Bool)),
      (∀ pre c suf, calls = pre ++ c :: suf →
        (refresh_calls env (initial_bar width_in_pixels) pre).statusline_width
          ≤ (refresh_calls env (initial_bar width_in_pixels) (pre ++ [c])).statusline_width ∧
        (refresh_calls env (initial_bar width_in_pixels) (pre ++ [c])).statusline_width
          < 2 ^ 16) →
      ∀ pre c suf, calls = pre ++ c :: suf →
        (refresh_calls env (initial_bar width_in_pixels) pre).statusline_pm_width
          ≤ (refresh_calls env (initial_bar width_in_pixels) (pre ++ [c])).statusline_pm_width) ∧
    (refresh_calls example_bar_env (initial_bar 1000)
      [(wide_block 3000, false)]).statusline_pm_width = 3000 ∧
    ((refresh_calls example_bar_env (initial_bar 1920)
        [(wide_block 66000, false)]).statusline_width = 66000 ∧
      (refresh_calls example_bar_env (initial_bar 1920)
        [(wide_block 66000, false)]).statusline_pm_width = 464) := by
  obtain ⟨_, h2⟩ := refresh_statusline_pm env s use_short_text
  refine ⟨h2, ?_, ?_, by decide, by decide, by decide⟩
  · intro hsmall hle
    rw [h2]
    generalize (refresh_statusline env s use_short_text).statusline_width = w at hsmall
    split
    · rename_i h
      have hmax : max s.root_screen_width_in_pixels w = w := max_eq_right (le_of_lt h.1)
      rw [hmax, Nat.mod_eq_of_lt hsmall]
      exact le_trans hle (max_le (le_of_lt h.1) (le_of_lt h.2))
    · exact le_refl _
  · intro width_in_pixels calls hgrow pre c suf hcalls
    have htight := refresh_calls_tight env width_in_pixels calls hgrow pre (c :: suf) hcalls
    obtain ⟨hg, hs⟩ := hgrow pre c suf hcalls
    rw [refresh_calls_concat] at hg hs ⊢
    have hroot : (refresh_calls env (initial_bar width_in_pixels) pre).root_screen_width_in_pixels
        = width_in_pixels := refresh_calls_root env _ _
    exact (refresh_statusline_tight env
      { refresh_calls env (initial_bar width_in_pixels) pre with statusline_head := c.1 } c.2
      (by simpa [hroot] using htight) hg hs).2

/-! ### Visibility of the bars -/

theorem window_mapped_foldl_true (window : Nat) (app : List Request) (mapped : Bool)
    (hno : ∀ r ∈ app, r ≠ Request.unmap_window window ∧ r ≠ Request.destroy_window window)
    (hmap : Request.map_window window ∈ app ∨ mapped = true) :
    app.foldl
      (fun mapped request =>
        match request with
        | Request.map_window w => if w = window then true else mapped
        | Request.unmap_window w => if w = window then false else mapped
        | Request.destroy_window w => if w = window then false else mapped
        | _ => mapped)
      mapped = true := by
  induction app generalizing mapped with
  | nil =>
    rcases hmap with h | h
    · cases h
    · exact h
  | cons r app ih =>
    rw [List.foldl_cons]
    apply ih _ (fun r2 h2 => hno r2 (List.mem_cons_of_mem _ h2))
    have hr := hno r (List.mem_cons_self _ _)
    rcases hmap with h | h
    · rcases List.mem_cons.mp h with h | h
      · right
        rw [← h]
        simp
      · exact Or.inl h
    · right
      subst h
      cases r with
      | map_window w => by_cases hw : w = window <;> simp [hw]
      | unmap_window w =>
        have : w ≠ window := fun e => hr.1 (by rw [e])
        simp [this]
      | destroy_window w =>
        have : w ≠ window := fun e => hr.2 (by rw [e])
        simp [this]
      | _ => rfl

theorem window_mapped_append (requests app : List Request) (window : Nat)
    (hno : ∀ r ∈ app, r ≠ Request.unmap_window window ∧ r ≠ Request.destroy_window window)
    (hmap : Request.map_window window ∈ app) :
    window_mapped (requests ++ app) window = true := by
  unfold window_mapped
  rw [List.foldl_append]
  exact window_mapped_foldl_true window app _ hno (Or.inl hmap)

theorem unhide_bars_output_foldl (outputs : List i3_output) (s : Bars) :
    (outputs.foldl unhide_bars_output s).outputs = s.outputs ∧
    (outputs.foldl unhide_bars_output s).config = s.config ∧
    (outputs.foldl unhide_bars_output s).mod_pressed = s.mod_pressed ∧
    (outputs.foldl unhide_bars_output s).activated_mode = s.activated_mode ∧
    ∃ app, (outputs.foldl unhide_bars_output s).requests = s.requests ++ app ∧
      (∀ r ∈ app, (∃ w, r = Request.map_window w) ∨
        (∃ w x y width height, r = Request.configure_window w x y width height)) ∧
      (∀ output ∈ outputs, output.bar ≠ XCB_NONE → Request.map_window output.bar ∈ app) := by
  induction outputs generalizing s with
  | nil =>
    refine ⟨rfl, rfl, rfl, rfl, [], by simp, by simp, by simp⟩
  | cons walk rest ih =>
    rw [List.foldl_cons]
    obtain ⟨h1, h2, h3, h4, app, h5, h6, h7⟩ := ih (unhide_bars_output s walk)
    by_cases hb : walk.bar = XCB_NONE
    · have e : unhide_bars_output s walk = s := by unfold unhide_bars_output; rw [if_pos hb]
      rw [e] at h1 h2 h3 h4 h5 ⊢
      refine ⟨h1, h2, h3, h4, app, h5, h6, ?_⟩
      intro o ho hob
      rcases List.mem_cons.mp ho with rfl | ho
      · exact absurd hb hob
      · exact h7 o ho hob
    · have e : ∃ x y width height,
          unhide_bars_output s walk
            = (s.send (Request.configure_window walk.bar x y width height)).send
                (Request.map_window walk.bar) := by
        unfold unhide_bars_output
        rw [if_neg hb]
        exact ⟨_, _, _, _, rfl⟩
      obtain ⟨x, y, width, height, e⟩ := e
      rw [e] at h1 h2 h3 h4 h5 ⊢
      refine ⟨h1, h2, h3, h4,
        Request.configure_window walk.bar x y width height :: Request.map_window walk.bar :: app,
        ?_, ?_, ?_⟩
      · rw [h5]
        simp [Bars.send]
      · intro r hr
        rcases List.mem_cons.mp hr with rfl | hr
        · exact Or.inr ⟨_, _, _, _, _, rfl⟩
        · rcases List.mem_cons.mp hr with rfl | hr
          · exact Or.inl ⟨_, rfl⟩
          · exact h6 r hr
      · intro o ho hob
        rcases List.mem_cons.mp ho with rfl | ho
        · simp
        · exact List.mem_cons_of_mem _ (List.mem_cons_of_mem _ (h7 o ho hob))

theorem unhide_bars_shown (s : Bars)
    (hmode : s.config.hide_on_modifier = bar_display_mode_t.M_HIDE) :
    bars_shown (unhide_bars s) ∧
    (unhide_bars s).outputs = s.outputs ∧
    (unhide_bars s).config = s.config ∧
    (unhide_bars s).mod_pressed = s.mod_pressed ∧
    (unhide_bars s).activated_mode = s.activated_mode ∧
    Request.cont_child ∈ (unhide_bars s).requests := by
  have hne : ¬ (s.config.hide_on_modifier ≠ bar_display_mode_t.M_HIDE) := by simp [hmode]
  have e : unhide_bars s = s.outputs.foldl unhide_bars_output (s.send Request.cont_child) := by
    unfold unhide_bars
    rw [if_neg hne]
    rfl
  obtain ⟨h1, h2, h3, h4, app, h5, h6, h7⟩ :=
    unhide_bars_output_foldl s.outputs (s.send Request.cont_child)
  rw [e]
  refine ⟨?_, h1, h2, h3, h4, ?_⟩
  · intro output ho hbar
    rw [h1] at ho
    rw [h5]
    apply window_mapped_append
    · intro r hr
      rcases h6 r hr with ⟨w, rfl⟩ | ⟨w, x, y, width, height, rfl⟩
      · exact ⟨by simp, by simp⟩
      · exact ⟨by simp, by simp⟩
    · exact h7 output ho hbar
  · rw [h5]
    simp [Bars.send]

theorem same_layout_refl (a : Bars) : same_layout a a := ⟨rfl, rfl, rfl, rfl⟩

theorem same_layout_trans {a b c : Bars} (h1 : same_layout a b) (h2 : same_layout b c) :
    same_layout a c :=
  ⟨h1.1.trans h2.1, h1.2.1.trans h2.2.1, h1.2.2.1.trans h2.2.2.1, h1.2.2.2.trans h2.2.2.2⟩

theorem same_layout_send (s : Bars) (r : Request) : same_layout (s.send r) s :=
  ⟨rfl, rfl, rfl, rfl⟩

theorem map_set_same {α β : Type} (f : α → β) (l : List α) (i : Nat) (x y : α)
    (hi : l[i]? = some x) (hf : f y = f x) : (l.set i y).map f = l.map f := by
  apply List.ext_getElem?
  intro j
  simp only [List.getElem?_map, List.getElem?_set]
  by_cases hij : i = j
  · subst hij
    have hlt : i < l.length := by
      by_contra hge
      rw [List.getElem?_eq_none (by omega)] at hi
      cases hi
    simp [hlt, hi, hf]
  · simp [hij]

theorem destroy_window_same_layout (s : Bars) (i : Nat) : same_layout (destroy_window s i) s := by
  unfold destroy_window
  cases ho : s.outputs[i]? with
  | none => exact same_layout_refl s
  | some output =>
    simp only []
    split
    · exact same_layout_refl s
    · have hfold : ∀ (l : List trayclient) (t : Bars),
          (l.foldl (fun s tc => s.send (Request.unmap_window tc.win)) t).config = t.config ∧
          (l.foldl (fun s tc => s.send (Request.unmap_window tc.win)) t).binding_name
            = t.binding_name ∧
          (l.foldl (fun s tc => s.send (Request.unmap_window tc.win)) t).mod_pressed
            = t.mod_pressed ∧
          (l.foldl (fun s tc => s.send (Request.unmap_window tc.win)) t).outputs = t.outputs := by
        intro l
        induction l with
        | nil => intro t; exact ⟨rfl, rfl, rfl, rfl⟩
        | cons a l ih => intro t; rw [List.foldl_cons]; exact ih _
      obtain ⟨h1, h2, h3, h4⟩ := hfold output.trayclients s
      refine ⟨h1, h2, h3, ?_⟩
      show (List.set _ i _).map _ = _
      have h5 : ((output.trayclients.foldl
          (fun s tc => s.send (Request.unmap_window tc.win)) s).send
            (Request.destroy_window output.bar)).outputs = s.outputs := h4
      rw [h5]
      exact map_set_same _ s.outputs i output _ ho rfl

theorem reconfig_windows_tray_same_layout (s : Bars) :
    same_layout (reconfig_windows_tray s) s := by
  unfold reconfig_windows_tray
  simp only []
  split
  · split
    · exact ⟨rfl, rfl, rfl, rfl⟩
    · exact ⟨rfl, rfl, rfl, rfl⟩
  · exact same_layout_refl s

theorem reconfig_windows_output_same_layout (redraw_bars : Bool) (s : Bars) (i : Nat) :
    same_layout (reconfig_windows_output redraw_bars s i) s := by
  unfold reconfig_windows_output
  cases ho : s.outputs[i]? with
  | none => exact same_layout_refl s
  | some walk =>
    simp only []
    split
    · exact destroy_window_same_layout s i
    · split
      · have hmap : (s.outputs.set i { walk with bar := s.next_id }).map
            (fun o => (o.active, o.workspaces))
            = s.outputs.map (fun o => (o.active, o.workspaces)) :=
          map_set_same _ s.outputs i walk _ ho rfl
        split
        · exact same_layout_trans (reconfig_windows_tray_same_layout _) ⟨rfl, rfl, rfl, hmap⟩
        · exact same_layout_trans (reconfig_windows_tray_same_layout _) ⟨rfl, rfl, rfl, hmap⟩
      · split
        · split
          · exact ⟨rfl, rfl, rfl, rfl⟩
          · exact ⟨rfl, rfl, rfl, rfl⟩
        · exact ⟨rfl, rfl, rfl, rfl⟩

theorem reconfig_windows_same_layout (s : Bars) (redraw_bars : Bool) :
    same_layout (reconfig_windows s redraw_bars) s := by
  unfold reconfig_windows
  generalize List.range s.outputs.length = l
  have : ∀ (l : List Nat) (t : Bars),
      same_layout (l.foldl (reconfig_windows_output redraw_bars) t) t := by
    intro l
    induction l with
    | nil => intro t; exact same_layout_refl t
    | cons a l ih =>
      intro t
      rw [List.foldl_cons]
      exact same_layout_trans (ih _) (reconfig_windows_output_same_layout redraw_bars t a)
  exact this l s

theorem foldl_urgent (l : List i3_ws) (unhide : Bool)
    (h : unhide = true ∨ ∃ ws ∈ l, ws.urgent = true) :
    l.foldl (fun unhide ws_walk => if ws_walk.urgent then true else unhide) unhide = true := by
  induction l generalizing unhide with
  | nil =>
    rcases h with h | ⟨ws, hws, _⟩
    · exact h
    · cases hws
  | cons a l ih =>
    rw [List.foldl_cons]
    apply ih
    rcases h with h | ⟨ws, hws, hu⟩
    · left
      subst h
      split <;> rfl
    · rcases List.mem_cons.mp hws with rfl | hws
      · left
        rw [if_pos hu]
      · exact Or.inr ⟨ws, hws, hu⟩

theorem draw_bars_unhide_true (s : Bars) (outputs_walk : i3_output) (unhide : Bool)
    (h : unhide = true ∨
      (s.config.disable_ws = false ∧ ∃ ws ∈ outputs_walk.workspaces, ws.urgent = true)) :
    draw_bars_unhide s outputs_walk unhide = true := by
  unfold draw_bars_unhide
  simp only []
  split
  · rfl
  · rcases h with h | ⟨hws, hu⟩
    · split
      · exact foldl_urgent _ _ (Or.inl h)
      · exact h
    · have hd : ¬ (s.config.disable_ws = true) := by simp [hws]
      rw [if_pos hd]
      exact foldl_urgent _ _ (Or.inr hu)

theorem same_layout_getElem? {a b : Bars} (h : same_layout a b) (i : Nat) (o : i3_output)
    (ho : b.outputs[i]? = some o) :
    ∃ o2, a.outputs[i]? = some o2 ∧ o2.active = o.active ∧ o2.workspaces = o.workspaces := by
  have h4 := congrArg (fun l => l[i]?) h.2.2.2
  simp only [List.getElem?_map, ho] at h4
  cases ha : a.outputs[i]? with
  | none => rw [ha] at h4; cases h4
  | some o2 =>
    rw [ha] at h4
    have h5 : (o2.active, o2.workspaces) = (o.active, o.workspaces) := Option.some.inj h4
    exact ⟨o2, rfl, (Prod.mk.inj h5).1, (Prod.mk.inj h5).2⟩

theorem draw_bars_loop_spec (l : List Nat) (s : Bars) (unhide : Bool) :
    same_layout (draw_bars_loop s l unhide).1 s ∧
    (unhide = true → (draw_bars_loop s l unhide).2 = true) ∧
    (s.config.disable_ws = false →
      ∀ i ∈ l, ∀ o, s.outputs[i]? = some o → o.active = true →
        (∃ ws ∈ o.workspaces, ws.urgent = true) → (draw_bars_loop s l unhide).2 = true) := by
  induction l generalizing s unhide with
  | nil =>
    refine ⟨same_layout_refl s, fun h => h, ?_⟩
    intro _ i hi
    cases hi
  | cons j l ih =>
    unfold draw_bars_loop
    cases hj : s.outputs[j]? with
    | none =>
      simp only []
      obtain ⟨h1, h2, h3⟩ := ih s unhide
      refine ⟨h1, h2, ?_⟩
      intro hws i hi o ho hact hurg
      rcases List.mem_cons.mp hi with rfl | hi
      · rw [hj] at ho; cases ho
      · exact h3 hws i hi o ho hact hurg
    | some outputs_walk =>
      simp only []
      by_cases hactive : outputs_walk.active = true
      · have hn : ¬ ¬ outputs_walk.active = true := by simp [hactive]
        rw [if_neg hn]
        have hlay : same_layout
            (if outputs_walk.bar = XCB_NONE then reconfig_windows s false else s) s := by
          split
          · exact reconfig_windows_same_layout s false
          · exact same_layout_refl s
        generalize (if outputs_walk.bar = XCB_NONE then reconfig_windows s false else s) = s1
          at hlay ⊢
        obtain ⟨h1, h2, h3⟩ := ih s1 (draw_bars_unhide s1 outputs_walk unhide)
        refine ⟨same_layout_trans h1 hlay, ?_, ?_⟩
        · intro hu
          exact h2 (draw_bars_unhide_true s1 outputs_walk unhide (Or.inl hu))
        · intro hws i hi o ho hact hurg
          have hws1 : s1.config.disable_ws = false := by rw [hlay.1]; exact hws
          rcases List.mem_cons.mp hi with rfl | hi
          · rw [hj] at ho
            cases ho
            exact h2 (draw_bars_unhide_true s1 outputs_walk unhide (Or.inr ⟨hws1, hurg⟩))
          · obtain ⟨o2, ho2, ha2, hw2⟩ := same_layout_getElem? hlay i o ho
            exact h3 hws1 i hi o2 ho2 (by rw [ha2]; exact hact) (by rw [hw2]; exact hurg)
      · rw [if_pos hactive]
        obtain ⟨h1, h2, h3⟩ := ih s unhide
        refine ⟨h1, h2, ?_⟩
        intro hws i hi o ho hact hurg
        rcases List.mem_cons.mp hi with rfl | hi
        · rw [hj] at ho
          cases ho
          exact absurd hact hactive
        · exact h3 hws i hi o ho hact hurg

/-- C26, counterexample: in Hide mode with the workspace buttons switched off
(`disable_ws`), `draw_bars` does not look at the workspaces: with an urgent workspace
on the active output, the modifier released and hidden_state = hide, it runs
`hide_bars`, and the bar window 3 ends unmapped. -/
theorem draw_bars_urgent_hidden_counterexample :
    urgent_without_buttons.config.hide_on_modifier = bar_display_mode_t.M_HIDE ∧
    (∃ output ∈ urgent_without_buttons.outputs, output.active = true ∧
      ∃ ws ∈ output.workspaces, ws.urgent = true) ∧
    (draw_bars urgent_without_buttons false).requests
      = [Request.unmap_window 3, Request.stop_child] ∧
    window_mapped (draw_bars urgent_without_buttons false).requests 3 = false := by
  refine ⟨rfl, ⟨_, List.mem_cons_self _ _, rfl, _, List.mem_cons_self _ _, rfl⟩, ?_, ?_⟩
  · decide
  · decide

/-- C26, amended: in Hide mode (hide_on_modifier = hide) with the workspace buttons
drawn (`disable_ws` off), every `draw_bars` call made while any workspace of an active
output is urgent ends with the bars Shown: `unhide_bars` is run (the child is
continued) and the bar window of every output that has one is mapped, whatever the
modifier state, the hidden_state setting, the argument of the call and the other
options are. -/
theorem draw_bars_urgent_shown (s : Bars) (unhide : Bool)
    (hmode : s.config.hide_on_modifier = bar_display_mode_t.M_HIDE)
    (hws : s.config.disable_ws = false)
    (hurgent : ∃ output ∈ s.outputs, output.active = true ∧
      ∃ ws ∈ output.workspaces, ws.urgent = true) :
    bars_shown (draw_bars s unhide) ∧
    Request.cont_child ∈ (draw_bars s unhide).requests ∧
    draw_bars s unhide
      = unhide_bars (draw_bars_loop s (List.range s.outputs.length) unhide).1 := by
  obtain ⟨h1, _, h3⟩ := draw_bars_loop_spec (List.range s.outputs.length) s unhide
  obtain ⟨output, hmem, hact, hurg⟩ := hurgent
  obtain ⟨i, hi, hget⟩ := List.mem_iff_getElem.mp hmem
  have hr2 : (draw_bars_loop s (List.range s.outputs.length) unhide).2 = true :=
    h3 hws i (List.mem_range.mpr hi) output (by rw [List.getElem?_eq_getElem hi, hget]) hact hurg
  have e : draw_bars s unhide
      = unhide_bars (draw_bars_loop s (List.range s.outputs.length) unhide).1 := by
    unfold draw_bars
    simp only [hr2, or_true, if_true]
  have hm : (draw_bars_loop s (List.range s.outputs.length) unhide).1.config.hide_on_modifier
      = bar_display_mode_t.M_HIDE := by rw [h1.1]; exact hmode
  obtain ⟨hs, _, _, _, _, hc⟩ := unhide_bars_shown _ hm
  rw [e]
  exact ⟨hs, hc, rfl⟩

theorem draw_bars_urgent_shown_witness :
    bars_shown (draw_bars { urgent_without_buttons with config := hide_mode_bars.config } false) ∧
    Request.cont_child
      ∈ (draw_bars { urgent_without_buttons with config := hide_mode_bars.config } false).requests :=
  ⟨(draw_bars_urgent_shown { urgent_without_buttons with config := hide_mode_bars.config } false
      rfl rfl ⟨_, List.mem_cons_self _ _, rfl, _, List.mem_cons_self _ _, rfl⟩).1,
   (draw_bars_urgent_shown { urgent_without_buttons with config := hide_mode_bars.config } false
      rfl rfl ⟨_, List.mem_cons_self _ _, rfl, _, List.mem_cons_self _ _, rfl⟩).2.1⟩

theorem window_mapped_foldl_false (window : Nat) (app : List Request) (mapped : Bool)
    (hno : ∀ r ∈ app, r ≠ Request.map_window window)
    (hunmap : Request.unmap_window window ∈ app ∨ mapped = false) :
    app.foldl
      (fun mapped request =>
        match request with
        | Request.map_window w => if w = window then true else mapped
        | Request.unmap_window w => if w = window then false else mapped
        | Request.destroy_window w => if w = window then false else mapped
        | _ => mapped)
      mapped = false := by
  induction app generalizing mapped with
  | nil =>
    rcases hunmap with h | h
    · cases h
    · exact h
  | cons r app ih =>
    rw [List.foldl_cons]
    apply ih _ (fun r2 h2 => hno r2 (List.mem_cons_of_mem _ h2))
    have hr := hno r (List.mem_cons_self _ _)
    rcases hunmap with h | h
    · rcases List.mem_cons.mp h with h | h
      · right
        rw [← h]
        simp
      · exact Or.inl h
    · right
      subst h
      cases r with
      | map_window w =>
        have : w ≠ window := fun e => hr (by rw [e])
        simp [this]
      | unmap_window w => by_cases hw : w = window <;> simp [hw]
      | destroy_window w => by_cases hw : w = window <;> simp [hw]
      | _ => rfl

theorem hide_bars_foldl (outputs : List i3_output) (s : Bars) :
    outputs.foldl
        (fun s walk => if ¬ walk.active then s else s.send (Request.unmap_window walk.bar)) s
      = { s with requests := s.requests
            ++ (outputs.filter (fun o => o.active)).map (fun o => Request.unmap_window o.bar) }
    := by
  induction outputs generalizing s with
  | nil => simp
  | cons walk rest ih =>
    rw [List.foldl_cons, ih]
    by_cases ha : walk.active = true
    · simp [ha, Bars.send, List.filter_cons]
    · simp [ha, List.filter_cons]

theorem hide_bars_hidden (s : Bars)
    (hmode : s.config.hide_on_modifier = bar_display_mode_t.M_HIDE)
    (hstate : s.config.hidden_state = hidden_state_t.S_HIDE) :
    bars_hidden (hide_bars s) ∧
    (hide_bars s).requests
      = s.requests ++ (s.outputs.filter (fun o => o.active)).map
          (fun o => Request.unmap_window o.bar) ++ [Request.stop_child] ∧
    (hide_bars s).outputs = s.outputs ∧
    (hide_bars s).activated_mode = s.activated_mode := by
  have hcond : ¬ (s.config.hide_on_modifier = bar_display_mode_t.M_DOCK ∨
      (s.config.hidden_state = hidden_state_t.S_SHOW ∧
        s.config.hide_on_modifier = bar_display_mode_t.M_HIDE)) := by
    rw [hmode, hstate]
    decide
  have e : hide_bars s
      = (s.outputs.foldl
          (fun s walk => if ¬ walk.active then s else s.send (Request.unmap_window walk.bar))
          s).send Request.stop_child := by
    unfold hide_bars
    rw [if_neg hcond]
  rw [hide_bars_foldl] at e
  have hreq : (hide_bars s).requests
      = s.requests ++ (s.outputs.filter (fun o => o.active)).map
          (fun o => Request.unmap_window o.bar) ++ [Request.stop_child] := by
    rw [e]; rfl
  have hout : (hide_bars s).outputs = s.outputs := by rw [e]; rfl
  have hact : (hide_bars s).activated_mode = s.activated_mode := by rw [e]; rfl
  refine ⟨?_, hreq, hout, hact⟩
  intro output ho hactive
  rw [hout] at ho
  rw [hreq]
  unfold window_mapped
  rw [List.append_assoc, List.foldl_append]
  apply window_mapped_foldl_false
  · intro r hr
    rcases List.mem_append.mp hr with hr | hr
    · obtain ⟨o, _, rfl⟩ := List.mem_map.mp hr
      simp
    · rw [List.mem_singleton.mp hr]
      simp
  · left
    apply List.mem_append_left
    exact List.mem_map.mpr ⟨output, List.mem_filter.mpr ⟨ho, by simpa using hactive⟩, rfl⟩

theorem handle_events_modes (s : Bars) (modes : List (Option String)) :
    (handle_events s (modes.map BarEvent.mode)).activated_mode
      = (match modes.getLast? with
         | none => s.activated_mode
         | some name => name.isSome) ∧
    (handle_events s (modes.map BarEvent.mode)).requests = s.requests ∧
    (handle_events s (modes.map BarEvent.mode)).mod_pressed = s.mod_pressed := by
  induction modes generalizing s with
  | nil => exact ⟨rfl, rfl, rfl⟩
  | cons name rest ih =>
    rw [List.map_cons]
    unfold handle_events
    obtain ⟨h1, h2, h3⟩ := ih (set_current_mode s name)
    refine ⟨?_, h2, h3⟩
    rw [h1]
    cases rest with
    | nil => rfl
    | cons b rest =>
      rw [List.getLast?_cons_cons]
      cases hl : (b :: rest).getLast? with
      | none => simp at hl
      | some x => rfl

/-- C27, counterexample: in Hide mode with hidden_state = hide, the modifier is
pressed, i3 activates the binding mode "resize" and then the default mode again, and
the modifier is released.  A binding mode was activated since the press, yet the
release hides the bars: the bar window 3, mapped before the release, is unmapped
after it. -/
theorem release_after_mode_hides_counterexample :
    window_mapped (handle_events hide_mode_bars
      [BarEvent.state_notify 64, BarEvent.mode (some "resize"),
       BarEvent.mode none]).requests 3 = true ∧
    (handle_events hide_mode_bars
      [BarEvent.state_notify 64, BarEvent.mode (some "resize")]).activated_mode = true ∧
    window_mapped (handle_events hide_mode_bars
      [BarEvent.state_notify 64, BarEvent.mode (some "resize"), BarEvent.mode none,
       BarEvent.state_notify 0]).requests 3 = false := by
  refine ⟨by decide, by decide, by decide⟩

/-- C27, amended: modifier transitions of the bar, as handled by `xcb_chk_cb` in Hide
mode with hidden_state = hide: when the masked modifier state goes from 0 to non-zero
the bars become Shown (every output with a bar is mapped) and activated_mode is reset
to false; when it goes from non-zero to 0 the bars become Hidden (the bar of every
active output is unmapped) if activated_mode is false, and are left as they are if it
is true; in both cases mod_pressed becomes the new modifier state.  The flag
activated_mode is what `set_current_mode` stored last since the press: true if the
mode set last has a name, false if it is the default mode or no mode was set.  In
Dock mode `hide_bars` unmaps nothing. -/
theorem modifier_transitions (s : Bars) (mods : Nat)
    (hmode : s.config.hide_on_modifier = bar_display_mode_t.M_HIDE)
    (hstate : s.config.hidden_state = hidden_state_t.S_HIDE) :
    (s.mod_pressed = 0 → ((mods &&& s.config.modifier : Nat) : Int) ≠ 0 →
      bars_shown (xcb_chk_cb_state_notify s mods) ∧
      (xcb_chk_cb_state_notify s mods).activated_mode = false ∧
      (xcb_chk_cb_state_notify s mods).mod_pressed = ((mods &&& s.config.modifier : Nat) : Int) ∧
      ∀ modes : List (Option String),
        (handle_events (xcb_chk_cb_state_notify s mods) (modes.map BarEvent.mode)).activated_mode
          = (match modes.getLast? with
             | none => false
             | some name => name.isSome)) ∧
    (s.mod_pressed ≠ 0 → ((mods &&& s.config.modifier : Nat) : Int) = 0 →
      (s.activated_mode = false →
        bars_hidden (xcb_chk_cb_state_notify s mods) ∧
        Request.stop_child ∈ (xcb_chk_cb_state_notify s mods).requests) ∧
      (s.activated_mode = true →
        (xcb_chk_cb_state_notify s mods).requests = s.requests ∧
        (xcb_chk_cb_state_notify s mods).outputs = s.outputs) ∧
      (xcb_chk_cb_state_notify s mods).mod_pressed = 0) ∧
    (∀ t : Bars, t.config.hide_on_modifier = bar_display_mode_t.M_DOCK → hide_bars t = t) := by
  refine ⟨?_, ?_, ?_⟩
  · intro hp hm
    have hne : ((mods &&& s.config.modifier : Nat) : Int) ≠ s.mod_pressed := by rw [hp]; exact hm
    have e : xcb_chk_cb_state_notify s mods
        = { unhide_bars { s with activated_mode := false } with
            mod_pressed := ((mods &&& s.config.modifier : Nat) : Int) } := by
      unfold xcb_chk_cb_state_notify
      simp only []
      rw [if_pos hne, if_neg hm]
    obtain ⟨h1, h2, h3, h4, h5, h6⟩ := unhide_bars_shown { s with activated_mode := false } hmode
    have hact : (xcb_chk_cb_state_notify s mods).activated_mode = false := by
      rw [e]; exact h5
    refine ⟨?_, hact, by rw [e], ?_⟩
    · rw [e]
      exact h1
    · intro modes
      rw [(handle_events_modes _ modes).1, hact]
  · intro hp hm
    have hne : ((mods &&& s.config.modifier : Nat) : Int) ≠ s.mod_pressed := by
      rw [hm]; exact Ne.symm hp
    refine ⟨?_, ?_, ?_⟩
    · intro hact
      have hna : ¬ (s.activated_mode = true) := by simp [hact]
      have e : xcb_chk_cb_state_notify s mods
          = { hide_bars s with mod_pressed := ((mods &&& s.config.modifier : Nat) : Int) } := by
        unfold xcb_chk_cb_state_notify
        simp only []
        rw [if_pos hne, if_pos hm, if_pos hna]
      obtain ⟨h1, h2, _, _⟩ := hide_bars_hidden s hmode hstate
      rw [e]
      refine ⟨h1, ?_⟩
      show Request.stop_child ∈ (hide_bars s).requests
      rw [h2]
      simp
    · intro hact
      have hna : ¬ ¬ (s.activated_mode = true) := by simp [hact]
      have e : xcb_chk_cb_state_notify s mods
          = { s with mod_pressed := ((mods &&& s.config.modifier : Nat) : Int) } := by
        unfold xcb_chk_cb_state_notify
        simp only []
        rw [if_pos hne, if_pos hm, if_neg hna]
      rw [e]
      exact ⟨rfl, rfl⟩
    · unfold xcb_chk_cb_state_notify
      simp only []
      rw [if_pos hne]
      exact hm
  · intro t ht
    unfold hide_bars
    rw [if_pos (Or.inl ht)]

theorem modifier_transitions_witness :
    bars_shown (xcb_chk_cb_state_notify hide_mode_bars 64) ∧
    (xcb_chk_cb_state_notify hide_mode_bars 64).activated_mode = false ∧
    (xcb_chk_cb_state_notify hide_mode_bars 64).mod_pressed = 64 :=
  ⟨((modifier_transitions hide_mode_bars 64 rfl rfl).1 rfl (by decide)).1,
   ((modifier_transitions hide_mode_bars 64 rfl rfl).1 rfl (by decide)).2.1,
   ((modifier_transitions hide_mode_bars 64 rfl rfl).1 rfl (by decide)).2.2.1⟩

/-! ### The workspace command of `handle_button` -/

theorem buffer_write_append (pre post : List Char) (x c : Char) :
    buffer_write (pre ++ x :: post) pre.length c = some (pre ++ c :: post) := by
  unfold buffer_write
  have h : pre.length < (pre ++ x :: post).length := by simp
  rw [if_pos h]
  congr 1
  simp

theorem buffer_write_replicate (pre : List Char) (m : Nat) (c : Char) :
    buffer_write (pre ++ List.replicate (m + 1) NUL) pre.length c
      = some ((pre ++ [c]) ++ List.replicate m NUL) := by
  rw [List.replicate_succ, buffer_write_append]
  simp

theorem buffer_copy_replicate (str pre : List Char) (m : Nat) :
    buffer_copy (pre ++ List.replicate (str.length + m) NUL) pre.length str
      = some ((pre ++ str) ++ List.replicate m NUL) := by
  induction str generalizing pre with
  | nil => simp [buffer_copy]
  | cons c rest ih =>
    unfold buffer_copy
    have e : (c :: rest).length + m = (rest.length + m) + 1 := by simp; omega
    rw [e, buffer_write_replicate]
    simp only [Option.bind_eq_bind, Option.some_bind]
    have h := ih (pre ++ [c])
    simp only [List.length_append, List.length_singleton] at h
    rw [h]
    simp

theorem escape_name_length (name : List Char) :
    (escape_name name).length = name.length + count_special name := by
  induction name with
  | nil => rfl
  | cons c rest ih =>
    unfold escape_name count_special
    by_cases h : c = dquote ∨ c = backslash
    · rw [if_pos h, List.countP_cons_of_pos _ _ (by simpa using h)]
      simp only [List.length_cons, ih, count_special]
      omega
    · rw [if_neg h, List.countP_cons_of_neg _ _ (by simpa using h)]
      simp only [List.length_cons, ih, count_special]
      omega

theorem escape_loop_replicate (name pre : List Char) (m : Nat) :
    escape_loop name (pre ++ List.replicate ((escape_name name).length + m) NUL) pre.length
      = some ((pre ++ escape_name name) ++ List.replicate m NUL,
          pre.length + (escape_name name).length) := by
  induction name generalizing pre with
  | nil => simp [escape_loop, escape_name]
  | cons c rest ih =>
    unfold escape_loop escape_name
    by_cases h : c = dquote ∨ c = backslash
    · rw [if_pos h, if_pos h]
      have e : (backslash :: c :: escape_name rest).length + m
          = (((escape_name rest).length + m) + 1) + 1 := by simp; omega
      rw [e, buffer_write_replicate]
      simp only [Option.bind_eq_bind, Option.some_bind]
      have h1 := buffer_write_replicate (pre ++ [backslash]) ((escape_name rest).length + m) c
      simp only [List.length_append, List.length_singleton] at h1
      rw [h1]
      simp only [Option.some_bind]
      have h2 := ih ((pre ++ [backslash]) ++ [c])
      simp only [List.length_append, List.length_singleton] at h2
      rw [h2]
      simp
      omega
    · rw [if_neg h, if_neg h]
      have e : (c :: escape_name rest).length + m = ((escape_name rest).length + m) + 1 := by
        simp; omega
      rw [e, buffer_write_replicate]
      simp only [Option.bind_eq_bind, Option.some_bind]
      have h2 := ih (pre ++ [c])
      simp only [List.length_append, List.length_singleton] at h2
      rw [h2]
      simp
      omega

theorem count_quotes_eq (name : List Char) (r : Nat × Nat) :
    count_quotes name r = (r.1 + count_special name, r.2 + name.length) := by
  induction name generalizing r with
  | nil => simp [count_quotes, count_special]
  | cons c rest ih =>
    unfold count_quotes
    rw [ih]
    unfold count_special
    by_cases h : c = dquote ∨ c = backslash
    · rw [if_pos h, List.countP_cons_of_pos _ _ (by simpa using h)]
      simp only [List.length_cons]
      refine Prod.ext ?_ ?_
      · show _ + 1 + _ = _ + (_ + 1); omega
      · show _ + 1 + _ = _ + (_ + 1); omega
    · rw [if_neg h, List.countP_cons_of_neg _ _ (by simpa using h)]
      simp only [List.length_cons]
      congr 1
      omega

theorem unescape_escape_name (name : List Char) : unescape_name (escape_name name) = name := by
  induction name with
  | nil => rfl
  | cons c rest ih =>
    unfold escape_name
    by_cases h : c = dquote ∨ c = backslash
    · rw [if_pos h]
      unfold unescape_name
      rw [if_pos rfl, ih]
    · rw [if_neg h]
      have hb : c ≠ backslash := fun e => h (Or.inr e)
      cases hr : escape_name rest with
      | nil =>
        rw [hr] at ih
        unfold unescape_name
        rw [if_neg hb, ← ih]
        rfl
      | cons d rest2 =>
        rw [hr] at ih
        unfold unescape_name
        rw [if_neg hb, ih]

theorem handle_button_buffer_eq (utf8_name : List Char) :
    handle_button_buffer utf8_name
      = some (workspace_quote ++ escape_name utf8_name ++ [dquote] ++ [NUL]) := by
  unfold handle_button_buffer
  simp only [count_quotes_eq]
  have hsize : List.replicate
      (0 + utf8_name.length + (workspace_quote ++ [dquote]).length + 1
        + (0 + count_special utf8_name)) NUL
      = [] ++ List.replicate (workspace_quote.length + ((escape_name utf8_name).length + 2)) NUL
      := by
    rw [escape_name_length]
    simp only [List.nil_append, List.length_append, List.length_singleton]
    congr 1
    omega
  rw [hsize]
  have h1 := buffer_copy_replicate workspace_quote [] ((escape_name utf8_name).length + 2)
  simp only [List.length_nil] at h1
  rw [h1]
  simp only [Option.bind_eq_bind, Option.some_bind, List.nil_append]
  rw [escape_loop_replicate utf8_name workspace_quote 2]
  simp only [Option.some_bind]
  have h3 := buffer_write_replicate (workspace_quote ++ escape_name utf8_name) 1 dquote
  simp only [List.length_append] at h3
  rw [h3]
  rfl

theorem escape_name_no_NUL (name : List Char) (hnul : ∀ c ∈ name, c ≠ NUL) :
    ∀ c ∈ escape_name name, c ≠ NUL := by
  induction name with
  | nil => intro c hc; cases hc
  | cons a rest ih =>
    intro c hc
    have hrest := ih (fun c hc => hnul c (List.mem_cons_of_mem _ hc))
    unfold escape_name at hc
    split at hc
    · rcases List.mem_cons.mp hc with rfl | hc
      · decide
      · rcases List.mem_cons.mp hc with rfl | hc
        · exact hnul _ (List.mem_cons_self _ _)
        · exact hrest c hc
    · rcases List.mem_cons.mp hc with rfl | hc
      · exact hnul _ (List.mem_cons_self _ _)
      · exact hrest c hc

theorem c_string_append_NUL (l : List Char) (hl : ∀ c ∈ l, c ≠ NUL) :
    c_string (l ++ [NUL]) = l := by
  unfold c_string
  induction l with
  | nil => simp [List.takeWhile]
  | cons a l ih =>
    have ha : a ≠ NUL := hl a (List.mem_cons_self _ _)
    rw [List.cons_append, List.takeWhile_cons]
    simp only [ne_eq, ha, not_false_eq_true, decide_True, if_true]
    rw [ih (fun c hc => hl c (List.mem_cons_of_mem _ hc))]

/-- C29: for every workspace canonical name (a C string, so without NUL) chosen by
`handle_button`, every write into the buffer is in bounds and the command sent to i3
is exactly `workspace "` followed by the name in which each double quote and each
backslash is preceded by one backslash, followed by `"`; its length is
namelen + q + 12 (q the number of double quotes and backslashes), one less than the
allocated buffer size namelen + q + 13, the last byte of the buffer being the NUL that
terminates the string; removing the escaping backslashes from the quoted part gives
back the name, and two different names never produce the same command. -/
theorem handle_button_command_escaped (utf8_name : List Char)
    (hnul : ∀ c ∈ utf8_name, c ≠ NUL) :
    handle_button_buffer utf8_name
      = some (workspace_quote ++ escape_name utf8_name ++ [dquote] ++ [NUL]) ∧
    c_string (workspace_quote ++ escape_name utf8_name ++ [dquote] ++ [NUL])
      = workspace_quote ++ escape_name utf8_name ++ [dquote] ∧
    (workspace_quote ++ escape_name utf8_name ++ [dquote]).length
      = utf8_name.length + count_special utf8_name + 12 ∧
    (workspace_quote ++ escape_name utf8_name ++ [dquote] ++ [NUL]).length
      = utf8_name.length + count_special utf8_name + 13 ∧
    unescape_name (escape_name utf8_name) = utf8_name ∧
    (∀ other : List Char,
      handle_button_buffer other = handle_button_buffer utf8_name → other = utf8_name) := by
  refine ⟨handle_button_buffer_eq utf8_name, ?_, ?_, ?_, unescape_escape_name utf8_name, ?_⟩
  · apply c_string_append_NUL
    have hq : ∀ c ∈ workspace_quote, c ≠ NUL := by decide
    intro c hc
    rcases List.mem_append.mp hc with hc | hc
    · rcases List.mem_append.mp hc with hc | hc
      · exact hq c hc
      · exact escape_name_no_NUL utf8_name hnul c hc
    · rw [List.mem_singleton.mp hc]
      decide
  · simp only [List.length_append, List.length_singleton, escape_name_length]
    have : workspace_quote.length = 11 := rfl
    omega
  · simp only [List.length_append, List.length_singleton, escape_name_length]
    have : workspace_quote.length = 11 := rfl
    omega
  · intro other h
    rw [handle_button_buffer_eq, handle_button_buffer_eq] at h
    have h1 := Option.some.inj h
    simp only [List.append_assoc, List.append_cancel_left_eq] at h1
    have h2 : escape_name other = escape_name utf8_name := List.append_cancel_right h1
    rw [← unescape_escape_name other, h2, unescape_escape_name]

theorem handle_button_command_escaped_witness :
    handle_button_buffer [Char.ofNat 97, Char.ofNat 34, Char.ofNat 98]
      = some (workspace_quote
          ++ escape_name [Char.ofNat 97, Char.ofNat 34, Char.ofNat 98] ++ [dquote] ++ [NUL]) ∧
    escape_name [Char.ofNat 97, Char.ofNat 34, Char.ofNat 98]
      = [Char.ofNat 97, backslash, Char.ofNat 34, Char.ofNat 98] :=
  ⟨(handle_button_command_escaped [Char.ofNat 97, Char.ofNat 34, Char.ofNat 98]
      (by decide)).1, by decide⟩

end I3bar
